import Mathlib

/-!
Verification of the mutex subsystem of the TNeoKernel real-time kernel
(`src/core/tn_mutex.h`).  The repository provides the public contract
(types and documented behaviour) in the header; the implementation file
is not part of the sources, so the operations are modelled from the
specification document and from the header's documentation, as a shallow
embedding over an explicit kernel state.

Priorities are natural numbers; a numerically smaller priority is *more
urgent* (priority 0 is the most urgent), as in TNeoKernel.
-/

/-- Mutex protocol for avoiding priority inversion (`enum TN_MutexProtocol`). -/
inductive TN_MutexProtocol where
  | TN_MUTEX_PROT_CEILING : TN_MutexProtocol
  | TN_MUTEX_PROT_INHERIT : TN_MutexProtocol
deriving DecidableEq, Repr

/-- Return codes (`enum TN_RCode`), restricted to the codes this subsystem uses. -/
inductive TN_RCode where
  | TN_RC_OK : TN_RCode
  | TN_RC_WPARAM : TN_RCode
  | TN_RC_ILLEGAL_USE : TN_RCode
  | TN_RC_TIMEOUT : TN_RCode
  | TN_RC_DELETED : TN_RCode
  | TN_RC_DEADLOCK : TN_RCode
  | TN_RC_INVALID_OBJ : TN_RCode
deriving DecidableEq, Repr

/-- Modelled from the spec: the slice of `struct TN_Task` this subsystem reads and
writes (the task structure itself is external to the sources given).  `priority` is
the current (effective) priority, `base_priority` the assigned one; `task_wait` is
the mutex the task is currently blocked on, if any; `wait_rc` records the result the
task was last woken with; `mutex_queue` is the task's held-mutex list. -/
structure TN_Task where
  priority : Nat
  base_priority : Nat
  task_wait : Option Nat
  wait_rc : Option TN_RCode
  mutex_queue : List Nat
deriving DecidableEq, Repr

/-- The mutex object (`struct TN_Mutex`).  The intrusive list members are modelled
as explicit lists of identifiers; `id_mutex` is the object-validity tag, `true`
standing for `TN_ID_MUTEX`. -/
structure TN_Mutex where
  wait_queue : List Nat
  deadlock_list : List Nat
  protocol : TN_MutexProtocol
  holder : Option Nat
  ceil_priority : Nat
  cnt : Nat
  id_mutex : Bool
deriving DecidableEq, Repr

/-- Modelled from the spec: the compile-time configuration flags `TN_MUTEX_REC`
(recursive locking enabled) and `TN_MUTEX_DEADLOCK_DETECT`, passed explicitly. -/
structure TN_Config where
  mutex_rec : Bool
  mutex_deadlock_detect : Bool
deriving DecidableEq, Repr

/-- Modelled from the spec: the kernel state visible to the mutex subsystem —
tasks and mutexes addressed by identifiers below the stated bounds. -/
structure TN_Kernel where
  ntasks : Nat
  nmutexes : Nat
  tasks : Nat → TN_Task
  mutexes : Nat → TN_Mutex

/-- Replace the task with identifier `t`. -/
def setTask (k : TN_Kernel) (t : Nat) (tk : TN_Task) : TN_Kernel :=
  { k with tasks := fun x => if x = t then tk else k.tasks x }

/-- Replace the mutex with identifier `mid`. -/
def setMutex (k : TN_Kernel) (mid : Nat) (m : TN_Mutex) : TN_Kernel :=
  { k with mutexes := fun x => if x = mid then m else k.mutexes x }

/-- Modelled from the spec: insertion into the priority-ordered wait queue —
a new entry goes after every entry whose priority is at least as urgent
(numerically no larger), realizing highest-priority-first order with FIFO
among equal priorities. -/
def wait_queue_insert (pr : Nat → Nat) (t : Nat) : List Nat → List Nat
  | [] => [t]
  | w :: ws => if pr w ≤ pr t then w :: wait_queue_insert pr t ws else t :: w :: ws

/-- Modelled from the spec: wake every task of the list `q` with result `rc`
(used by mutex deletion). -/
def wake_all (k : TN_Kernel) (q : List Nat) (rc : TN_RCode) : TN_Kernel :=
  match q with
  | [] => k
  | w :: ws =>
      wake_all (setTask k w { k.tasks w with task_wait := none, wait_rc := some rc }) ws rc

/-- Modelled from the spec: set a task's current priority, repositioning the task
inside the wait queue of the mutex it is blocked on (if any) so that the queue
stays priority ordered.  Used by the priority-inheritance engine. -/
def task_set_priority (k : TN_Kernel) (h : Nat) (p : Nat) : TN_Kernel :=
  let k1 := setTask k h { k.tasks h with priority := p }
  match (k.tasks h).task_wait with
  | none => k1
  | some mid2 =>
      setMutex k1 mid2
        { k1.mutexes mid2 with
          wait_queue :=
            wait_queue_insert (fun w => (k1.tasks w).priority) h
              (((k1.mutexes mid2).wait_queue).erase h) }

/-- Modelled from the spec: the priority-inheritance chain walk.  Starting at
mutex `mid`, boost its holder to priority `p` when `p` is more urgent, and if
that holder is itself blocked continue at the mutex it waits for.  Returns the
new state and a flag telling whether the walk finished before the fuel ran out. -/
def propagate_priority (k : TN_Kernel) (mid : Nat) (p : Nat) : Nat → TN_Kernel × Bool
  | 0 => (k, false)
  | fuel + 1 =>
      match (k.mutexes mid).holder with
      | none => (k, true)
      | some h =>
          if p < (k.tasks h).priority then
            let k1 := task_set_priority k h p
            match (k.tasks h).task_wait with
            | none => (k1, true)
            | some mid2 => propagate_priority k1 mid2 p fuel
          else (k, true)

/-- Result of the deadlock-detector walk. -/
inductive DeadlockRes where
  | nocycle : DeadlockRes
  | cycle : List Nat → DeadlockRes
  | fuelout : DeadlockRes
deriving DecidableEq, Repr

/-- Modelled from the spec: the deadlock-detector walk over the wait-for graph.
From mutex `cur`, follow holder → (holder's wait target) → …; if the walk comes
back to `start`, the mutexes visited form a cycle. -/
def find_deadlock_cycle (k : TN_Kernel) (start : Nat) (cur : Nat) (acc : List Nat) :
    Nat → DeadlockRes
  | 0 => DeadlockRes.fuelout
  | fuel + 1 =>
      match (k.mutexes cur).holder with
      | none => DeadlockRes.nocycle
      | some h =>
          match (k.tasks h).task_wait with
          | none => DeadlockRes.nocycle
          | some nxt =>
              if nxt = start then DeadlockRes.cycle (cur :: acc).reverse
              else find_deadlock_cycle k start nxt (cur :: acc) fuel

/-- Modelled from the spec: record cycle membership by setting, for every mutex
of the cycle `full`, its `deadlock_list` to the other members of the cycle. -/
def link_deadlock_lists (k : TN_Kernel) (ms : List Nat) (full : List Nat) : TN_Kernel :=
  match ms with
  | [] => k
  | m :: rest =>
      link_deadlock_lists
        (setMutex k m { k.mutexes m with deadlock_list := full.filter (fun x => x != m) })
        rest full

/-- Modelled from the spec: `tn_mutex_create`.  Fails with `TN_RC_WPARAM` when the
validity tag already indicates construction; otherwise initializes the object to
unlocked with an empty wait queue. -/
def tn_mutex_create (k : TN_Kernel) (mid : Nat) (protocol : TN_MutexProtocol)
    (ceil_priority : Nat) : TN_RCode × TN_Kernel :=
  if (k.mutexes mid).id_mutex then (TN_RCode.TN_RC_WPARAM, k)
  else (TN_RCode.TN_RC_OK, setMutex k mid ⟨[], [], protocol, none, ceil_priority, 0, true⟩)

/-- Modelled from the spec: `tn_mutex_delete`.  Validates the object, wakes every
waiting task with `TN_RC_DELETED`, unlinks the mutex from its holder's held-mutex
list (force-release policy), and invalidates the object. -/
def tn_mutex_delete (k : TN_Kernel) (mid : Nat) : TN_RCode × TN_Kernel :=
  let m := k.mutexes mid
  if m.id_mutex then
    let k1 := wake_all k m.wait_queue TN_RCode.TN_RC_DELETED
    let k2 :=
      match m.holder with
      | some h => setTask k1 h { k1.tasks h with mutex_queue := ((k1.tasks h).mutex_queue).erase mid }
      | none => k1
    (TN_RCode.TN_RC_OK, setMutex k2 mid ⟨[], [], m.protocol, none, m.ceil_priority, 0, false⟩)
  else (TN_RCode.TN_RC_INVALID_OBJ, k)

/-- Outcome of a lock call: an immediate return code, or suspension of the caller. -/
inductive TN_LockOutcome where
  | ret : TN_RCode → TN_LockOutcome
  | blocked : TN_LockOutcome
deriving DecidableEq, Repr

/-- Modelled from the spec: the state change that queues the caller `t` on mutex
`mid` — `t` is marked waiting on `mid` and inserted into the wait queue at the
priority-ordered position. -/
def lock_enqueue (k : TN_Kernel) (t : Nat) (mid : Nat) : TN_Kernel :=
  let k1 := setTask k t { k.tasks t with task_wait := some mid }
  setMutex k1 mid
    { k1.mutexes mid with
      wait_queue :=
        wait_queue_insert (fun w => (k1.tasks w).priority) t ((k1.mutexes mid).wait_queue) }

/-- Modelled from the spec: `tn_mutex_lock` called by running task `t` with the
given timeout (`0` meaning the polling variant).  Covers the unlocked, held-by-self
and held-by-other cases, the ceiling admission check, recursive-lock accounting,
deadlock detection (run on the state where the caller is already marked waiting,
just before it would suspend; on a cycle the call fails without blocking), and
the inheritance boost on blocking. -/
def tn_mutex_lock (cfg : TN_Config) (k : TN_Kernel) (t : Nat) (mid : Nat)
    (timeout : Nat) (fuel : Nat) : TN_LockOutcome × TN_Kernel :=
  let m := k.mutexes mid
  if m.id_mutex then
    match m.holder with
    | none =>
        if m.protocol = TN_MutexProtocol.TN_MUTEX_PROT_CEILING ∧
            (k.tasks t).priority < m.ceil_priority then
          (TN_LockOutcome.ret TN_RCode.TN_RC_ILLEGAL_USE, k)
        else
          (TN_LockOutcome.ret TN_RCode.TN_RC_OK,
            setTask (setMutex k mid { m with holder := some t, cnt := 1 }) t
              { k.tasks t with mutex_queue := mid :: (k.tasks t).mutex_queue })
    | some h =>
        if h = t then
          if cfg.mutex_rec then
            (TN_LockOutcome.ret TN_RCode.TN_RC_OK, setMutex k mid { m with cnt := m.cnt + 1 })
          else (TN_LockOutcome.ret TN_RCode.TN_RC_ILLEGAL_USE, k)
        else if timeout = 0 then (TN_LockOutcome.ret TN_RCode.TN_RC_TIMEOUT, k)
        else
          let k2 := lock_enqueue k t mid
          match (if cfg.mutex_deadlock_detect then find_deadlock_cycle k2 mid mid [] fuel
                 else DeadlockRes.nocycle) with
          | DeadlockRes.cycle ms =>
              (TN_LockOutcome.ret TN_RCode.TN_RC_DEADLOCK, link_deadlock_lists k ms ms)
          | _ =>
              let k3 :=
                if m.protocol = TN_MutexProtocol.TN_MUTEX_PROT_INHERIT then
                  (propagate_priority k2 mid ((k.tasks t).priority) fuel).1
                else k2
              (TN_LockOutcome.blocked, k3)
  else (TN_LockOutcome.ret TN_RCode.TN_RC_INVALID_OBJ, k)

/-- Modelled from the spec and the header: `tn_mutex_lock_polling` is the same as
`tn_mutex_lock` with zero timeout. -/
def tn_mutex_lock_polling (cfg : TN_Config) (k : TN_Kernel) (t : Nat) (mid : Nat)
    (fuel : Nat) : TN_LockOutcome × TN_Kernel :=
  tn_mutex_lock cfg k t mid 0 fuel

/-- Modelled from the spec: the priority recomputation on unlock-driven release —
the most urgent requirement among the waiters of all mutexes the task still
holds, falling back to the task's base priority. -/
def mutex_calc_max_priority (k : TN_Kernel) (t : Nat) : Nat :=
  (((k.tasks t).mutex_queue).flatMap fun m => (k.mutexes m).wait_queue).foldr
    (fun w acc => min ((k.tasks w).priority) acc) ((k.tasks t).base_priority)

/-- Modelled from the spec: the state change preparing the full release of mutex
`mid` by its holder `t` — unlink the mutex from `t`'s held-mutex list and, under
the inheritance protocol, recompute `t`'s priority as the most urgent remaining
requirement (falling back to the base priority). -/
def mutex_release_prep (k : TN_Kernel) (t mid : Nat) : TN_Kernel :=
  let k1 := setTask k t { k.tasks t with mutex_queue := ((k.tasks t).mutex_queue).erase mid }
  if (k.mutexes mid).protocol = TN_MutexProtocol.TN_MUTEX_PROT_INHERIT then
    task_set_priority k1 t (mutex_calc_max_priority k1 t)
  else k1

/-- Modelled from the spec: `tn_mutex_unlock` called by running task `t`.
Fails with `TN_RC_ILLEGAL_USE` when the mutex is unlocked or held by another
task; otherwise decrements the lock count, and on full release restores the
holder's priority (inheritance protocol) and hands the mutex directly to the
first waiter of the priority-ordered wait queue, waking it with `TN_RC_OK`. -/
def tn_mutex_unlock (k : TN_Kernel) (t : Nat) (mid : Nat) : TN_RCode × TN_Kernel :=
  let m := k.mutexes mid
  if m.id_mutex then
    if m.holder = some t then
      if 1 < m.cnt then (TN_RCode.TN_RC_OK, setMutex k mid { m with cnt := m.cnt - 1 })
      else
        let k2 := mutex_release_prep k t mid
        match m.wait_queue with
        | [] =>
            (TN_RCode.TN_RC_OK,
              setMutex k2 mid { k2.mutexes mid with holder := none, cnt := 0, wait_queue := [] })
        | w :: rest =>
            let k3 := setMutex k2 mid { k2.mutexes mid with holder := some w, cnt := 1, wait_queue := rest }
            let k4 := setTask k3 w
              { k3.tasks w with
                task_wait := none, wait_rc := some TN_RCode.TN_RC_OK,
                mutex_queue := mid :: (k3.tasks w).mutex_queue }
            (TN_RCode.TN_RC_OK, k4)
    else (TN_RCode.TN_RC_ILLEGAL_USE, k)
  else (TN_RCode.TN_RC_INVALID_OBJ, k)

/-- Modelled from the spec: timeout expiry of a waiting task — the task is
removed from the wait queue it sits in and woken with `TN_RC_TIMEOUT`; no
ownership is transferred. -/
def tn_task_wait_timeout (k : TN_Kernel) (w : Nat) : TN_Kernel :=
  match (k.tasks w).task_wait with
  | none => k
  | some mid =>
      setTask
        (setMutex k mid { k.mutexes mid with wait_queue := ((k.mutexes mid).wait_queue).erase w })
        w { k.tasks w with task_wait := none, wait_rc := some TN_RCode.TN_RC_TIMEOUT }

/-! ## Basic state lemmas -/

@[simp] theorem setTask_ntasks (k : TN_Kernel) (t : Nat) (tk : TN_Task) :
    (setTask k t tk).ntasks = k.ntasks := rfl

@[simp] theorem setTask_nmutexes (k : TN_Kernel) (t : Nat) (tk : TN_Task) :
    (setTask k t tk).nmutexes = k.nmutexes := rfl

@[simp] theorem setTask_mutexes (k : TN_Kernel) (t : Nat) (tk : TN_Task) :
    (setTask k t tk).mutexes = k.mutexes := rfl

theorem setTask_tasks (k : TN_Kernel) (t : Nat) (tk : TN_Task) (x : Nat) :
    (setTask k t tk).tasks x = if x = t then tk else k.tasks x := rfl

@[simp] theorem setTask_tasks_eq (k : TN_Kernel) (t : Nat) (tk : TN_Task) :
    (setTask k t tk).tasks t = tk := by
  simp [setTask_tasks]

theorem setTask_tasks_ne (k : TN_Kernel) (t : Nat) (tk : TN_Task) (x : Nat) (h : x ≠ t) :
    (setTask k t tk).tasks x = k.tasks x := by
  simp [setTask_tasks, h]

@[simp] theorem setMutex_ntasks (k : TN_Kernel) (mid : Nat) (m : TN_Mutex) :
    (setMutex k mid m).ntasks = k.ntasks := rfl

@[simp] theorem setMutex_nmutexes (k : TN_Kernel) (mid : Nat) (m : TN_Mutex) :
    (setMutex k mid m).nmutexes = k.nmutexes := rfl

@[simp] theorem setMutex_tasks (k : TN_Kernel) (mid : Nat) (m : TN_Mutex) :
    (setMutex k mid m).tasks = k.tasks := rfl

theorem setMutex_mutexes (k : TN_Kernel) (mid : Nat) (m : TN_Mutex) (x : Nat) :
    (setMutex k mid m).mutexes x = if x = mid then m else k.mutexes x := rfl

@[simp] theorem setMutex_mutexes_eq (k : TN_Kernel) (mid : Nat) (m : TN_Mutex) :
    (setMutex k mid m).mutexes mid = m := by
  simp [setMutex_mutexes]

theorem setMutex_mutexes_ne (k : TN_Kernel) (mid : Nat) (m : TN_Mutex) (x : Nat) (h : x ≠ mid) :
    (setMutex k mid m).mutexes x = k.mutexes x := by
  simp [setMutex_mutexes, h]

instance decForallOptionEq {α : Type} (o : Option α) (p : α → Prop) [∀ a, Decidable (p a)] :
    Decidable (∀ a, o = some a → p a) :=
  match o with
  | none => isTrue (fun _ h => nomatch h)
  | some x =>
      if hx : p x then isTrue (fun _ h => (Option.some.inj h) ▸ hx)
      else isFalse (fun h => hx (h x rfl))

/-! ## Well-formedness invariants of the kernel state -/

/-- Every waiting task points at a valid in-bounds mutex, sits in that mutex's
wait queue, and is not that mutex's holder (the wait queue never contains the
current holder). -/
def TaskWaitCoh (k : TN_Kernel) : Prop :=
  ∀ w, w < k.ntasks → ∀ mid, (k.tasks w).task_wait = some mid →
    mid < k.nmutexes ∧ (k.mutexes mid).id_mutex = true ∧
      w ∈ (k.mutexes mid).wait_queue ∧ (k.mutexes mid).holder ≠ some w

/-- Every member of a valid mutex's wait queue is an in-bounds task that is
waiting exactly on that mutex. -/
def QueueCoh (k : TN_Kernel) : Prop :=
  ∀ mid, mid < k.nmutexes → (k.mutexes mid).id_mutex = true →
    ∀ w ∈ (k.mutexes mid).wait_queue, w < k.ntasks ∧ (k.tasks w).task_wait = some mid

/-- Wait queues of valid mutexes have no duplicate entries. -/
def QueueNodup (k : TN_Kernel) : Prop :=
  ∀ mid, mid < k.nmutexes → (k.mutexes mid).id_mutex = true →
    ((k.mutexes mid).wait_queue).Nodup

/-- Wait queues of valid mutexes are ordered by current priority, most urgent
(numerically smallest) first. -/
def QueueSorted (k : TN_Kernel) : Prop :=
  ∀ mid, mid < k.nmutexes → (k.mutexes mid).id_mutex = true →
    List.Pairwise (fun a b => (k.tasks a).priority ≤ (k.tasks b).priority)
      ((k.mutexes mid).wait_queue)

/-- The holder of a valid mutex is an in-bounds task whose held-mutex list
contains the mutex. -/
def HolderCoh (k : TN_Kernel) : Prop :=
  ∀ mid, mid < k.nmutexes → (k.mutexes mid).id_mutex = true →
    ∀ h, (k.mutexes mid).holder = some h → h < k.ntasks ∧ mid ∈ (k.tasks h).mutex_queue

/-- Every mutex in a task's held-mutex list is valid, in bounds and held by
that task. -/
def HeldCoh (k : TN_Kernel) : Prop :=
  ∀ t, t < k.ntasks → ∀ mid, mid ∈ (k.tasks t).mutex_queue →
    mid < k.nmutexes ∧ (k.mutexes mid).id_mutex = true ∧ (k.mutexes mid).holder = some t

/-- Held-mutex lists have no duplicate entries. -/
def HeldNodup (k : TN_Kernel) : Prop :=
  ∀ t, t < k.ntasks → ((k.tasks t).mutex_queue).Nodup

/-- A valid unlocked mutex has an empty wait queue. -/
def NoHolderEmpty (k : TN_Kernel) : Prop :=
  ∀ mid, mid < k.nmutexes → (k.mutexes mid).id_mutex = true →
    (k.mutexes mid).holder = none → (k.mutexes mid).wait_queue = []

/-- Well-formedness of the kernel state. -/
def WF (k : TN_Kernel) : Prop :=
  TaskWaitCoh k ∧ QueueCoh k ∧ QueueNodup k ∧ QueueSorted k ∧ HolderCoh k ∧
    HeldCoh k ∧ HeldNodup k ∧ NoHolderEmpty k

/-- The priority-inheritance invariant: the holder of a valid inheritance-protocol
mutex is at least as urgent as every waiter of that mutex. -/
def mutexInv1 (k : TN_Kernel) : Prop :=
  ∀ mid, mid < k.nmutexes → (k.mutexes mid).id_mutex = true →
    (k.mutexes mid).protocol = TN_MutexProtocol.TN_MUTEX_PROT_INHERIT →
    ∀ h, (k.mutexes mid).holder = some h →
    ∀ w ∈ (k.mutexes mid).wait_queue, (k.tasks h).priority ≤ (k.tasks w).priority

/-- The lock-count invariant of claim C9: for every valid mutex, the count is
zero exactly when there is no holder. -/
def cntInv (k : TN_Kernel) : Prop :=
  ∀ mid, mid < k.nmutexes → (k.mutexes mid).id_mutex = true →
    ((k.mutexes mid).cnt = 0 ↔ (k.mutexes mid).holder = none)

instance (k : TN_Kernel) : Decidable (TaskWaitCoh k) := by
  unfold TaskWaitCoh
  infer_instance

instance (k : TN_Kernel) : Decidable (QueueCoh k) := by
  unfold QueueCoh
  infer_instance

instance (k : TN_Kernel) : Decidable (QueueNodup k) := by
  unfold QueueNodup
  infer_instance

instance (k : TN_Kernel) : Decidable (QueueSorted k) := by
  unfold QueueSorted
  infer_instance

instance (k : TN_Kernel) : Decidable (HolderCoh k) := by
  unfold HolderCoh
  infer_instance

instance (k : TN_Kernel) : Decidable (HeldCoh k) := by
  unfold HeldCoh
  infer_instance

instance (k : TN_Kernel) : Decidable (HeldNodup k) := by
  unfold HeldNodup
  infer_instance

instance (k : TN_Kernel) : Decidable (NoHolderEmpty k) := by
  unfold NoHolderEmpty
  infer_instance

instance (k : TN_Kernel) : Decidable (WF k) := by
  unfold WF
  infer_instance

instance (k : TN_Kernel) : Decidable (mutexInv1 k) := by
  unfold mutexInv1
  infer_instance

instance (k : TN_Kernel) : Decidable (cntInv k) := by
  unfold cntInv
  infer_instance

/-! ## Wait-queue list lemmas -/

theorem mem_wait_queue_insert (pr : Nat → Nat) (t x : Nat) (q : List Nat) :
    x ∈ wait_queue_insert pr t q ↔ x = t ∨ x ∈ q := by
  induction q with
  | nil => simp [wait_queue_insert]
  | cons w ws ih =>
      by_cases h : pr w ≤ pr t
      · simp only [wait_queue_insert, if_pos h, List.mem_cons, ih]
        tauto
      · simp only [wait_queue_insert, if_neg h, List.mem_cons]

theorem wait_queue_insert_nodup (pr : Nat → Nat) (t : Nat) (q : List Nat)
    (ht : t ∉ q) (hq : q.Nodup) : (wait_queue_insert pr t q).Nodup := by
  induction q with
  | nil => simp [wait_queue_insert]
  | cons w ws ih =>
      rcases List.nodup_cons.mp hq with ⟨hw, hws⟩
      have ht' : t ∉ ws := fun h => ht (List.mem_cons_of_mem _ h)
      have htw : t ≠ w := fun h => ht (h ▸ List.mem_cons_self _ _)
      by_cases h : pr w ≤ pr t
      · simp only [wait_queue_insert, if_pos h]
        refine List.nodup_cons.mpr ⟨?_, ih ht' hws⟩
        rw [mem_wait_queue_insert]
        rintro (h1 | h1)
        · exact htw h1.symm
        · exact hw h1
      · simp only [wait_queue_insert, if_neg h]
        refine List.nodup_cons.mpr ⟨?_, hq⟩
        simp only [List.mem_cons]
        rintro (h1 | h1)
        · exact htw h1
        · exact ht' h1

theorem wait_queue_insert_sorted (pr : Nat → Nat) (t : Nat) (q : List Nat)
    (hq : List.Pairwise (fun a b => pr a ≤ pr b) q) :
    List.Pairwise (fun a b => pr a ≤ pr b) (wait_queue_insert pr t q) := by
  induction q with
  | nil => simp [wait_queue_insert]
  | cons w ws ih =>
      rcases List.pairwise_cons.mp hq with ⟨hw, hws⟩
      by_cases h : pr w ≤ pr t
      · simp only [wait_queue_insert, if_pos h]
        refine List.pairwise_cons.mpr ⟨?_, ih hws⟩
        intro b hb
        rcases (mem_wait_queue_insert pr t b ws).mp hb with h1 | h1
        · exact h1 ▸ h
        · exact hw b h1
      · simp only [wait_queue_insert, if_neg h]
        refine List.pairwise_cons.mpr ⟨?_, hq⟩
        intro b hb
        have htw : pr t ≤ pr w := Nat.le_of_lt (Nat.lt_of_not_le h)
        rcases List.mem_cons.mp hb with h1 | h1
        · exact h1 ▸ htw
        · exact Nat.le_trans htw (hw b h1)

theorem wait_queue_insert_eq_append (pr : Nat → Nat) (t : Nat) (q : List Nat) :
    wait_queue_insert pr t q =
      q.takeWhile (fun w => decide (pr w ≤ pr t)) ++
        t :: q.dropWhile (fun w => decide (pr w ≤ pr t)) := by
  induction q with
  | nil => simp [wait_queue_insert]
  | cons w ws ih =>
      by_cases h : pr w ≤ pr t
      · simp [wait_queue_insert, h, List.takeWhile_cons, List.dropWhile_cons, ih]
      · simp [wait_queue_insert, h, List.takeWhile_cons, List.dropWhile_cons]

theorem pairwise_pr_congr (f g : Nat → Nat) (q : List Nat) (hfg : ∀ x ∈ q, f x = g x)
    (hq : List.Pairwise (fun a b => f a ≤ f b) q) :
    List.Pairwise (fun a b => g a ≤ g b) q := by
  induction q with
  | nil => exact List.Pairwise.nil
  | cons w ws ih =>
      rcases List.pairwise_cons.mp hq with ⟨hw, hws⟩
      refine List.pairwise_cons.mpr ⟨?_, ih (fun x hx => hfg x (List.mem_cons_of_mem _ hx)) hws⟩
      intro b hb
      rw [← hfg w (List.mem_cons_self _ _), ← hfg b (List.mem_cons_of_mem _ hb)]
      exact hw b hb

/-! ## Min-fold lemmas for the priority recomputation -/

theorem foldr_min_le_base (f : Nat → Nat) (b : Nat) (l : List Nat) :
    l.foldr (fun w acc => min (f w) acc) b ≤ b := by
  induction l with
  | nil => exact Nat.le_refl b
  | cons x xs ih => exact Nat.le_trans (Nat.min_le_right _ _) ih

theorem foldr_min_le_mem (f : Nat → Nat) (b : Nat) (l : List Nat) (x : Nat) (hx : x ∈ l) :
    l.foldr (fun w acc => min (f w) acc) b ≤ f x := by
  induction l with
  | nil => cases hx
  | cons y ys ih =>
      rcases List.mem_cons.mp hx with h | h
      · subst h
        exact Nat.min_le_left _ _
      · exact Nat.le_trans (Nat.min_le_right _ _) (ih h)

theorem foldr_min_eq_base_or_mem (f : Nat → Nat) (b : Nat) (l : List Nat) :
    l.foldr (fun w acc => min (f w) acc) b = b ∨
      ∃ x ∈ l, l.foldr (fun w acc => min (f w) acc) b = f x := by
  induction l with
  | nil => exact Or.inl rfl
  | cons y ys ih =>
      by_cases h : f y ≤ ys.foldr (fun w acc => min (f w) acc) b
      · refine Or.inr ⟨y, List.mem_cons_self _ _, ?_⟩
        simp [Nat.min_eq_left h]
      · have hmin : min (f y) (ys.foldr (fun w acc => min (f w) acc) b) =
            ys.foldr (fun w acc => min (f w) acc) b :=
          Nat.min_eq_right (Nat.le_of_lt (Nat.lt_of_not_le h))
        rcases ih with h1 | ⟨x, hx, h1⟩
        · exact Or.inl (by rw [List.foldr_cons, hmin, h1])
        · exact Or.inr ⟨x, List.mem_cons_of_mem _ hx, by rw [List.foldr_cons, hmin, h1]⟩

/-! ## Sample kernel states used by the witnesses -/

/-- A kernel with two tasks and one inheritance mutex held by task 0 (count 1). -/
def K1 : TN_Kernel :=
  ⟨2, 1,
    fun t => if t = 0 then ⟨3, 3, none, none, [0]⟩ else ⟨5, 5, none, none, []⟩,
    fun _ => ⟨[], [], TN_MutexProtocol.TN_MUTEX_PROT_INHERIT, some 0, 0, 1, true⟩⟩

/-- A kernel with two tasks (priorities 2 and 6) and one unlocked ceiling mutex
with ceiling priority 4. -/
def K2 : TN_Kernel :=
  ⟨2, 1,
    fun t => if t = 0 then ⟨2, 2, none, none, []⟩ else ⟨6, 6, none, none, []⟩,
    fun _ => ⟨[], [], TN_MutexProtocol.TN_MUTEX_PROT_CEILING, none, 4, 0, true⟩⟩

/-! ## Claim theorems -/

/-- Claim C10: for every kernel state, caller and mutex identifier,
`tn_mutex_unlock` returns only `TN_RC_OK`, `TN_RC_ILLEGAL_USE` or
`TN_RC_INVALID_OBJ`; it never returns a timeout, deleted or deadlock result. -/
theorem mutex_unlock_rcodes (k : TN_Kernel) (t mid : Nat) :
    (tn_mutex_unlock k t mid).1 = TN_RCode.TN_RC_OK ∨
      (tn_mutex_unlock k t mid).1 = TN_RCode.TN_RC_ILLEGAL_USE ∨
      (tn_mutex_unlock k t mid).1 = TN_RCode.TN_RC_INVALID_OBJ := by
  simp only [tn_mutex_unlock]
  by_cases h1 : (k.mutexes mid).id_mutex
  · simp only [h1, if_true]
    by_cases h2 : (k.mutexes mid).holder = some t
    · simp only [h2, if_true]
      by_cases h3 : 1 < (k.mutexes mid).cnt
      · simp [h3]
      · simp only [h3, if_false]
        cases hq : (k.mutexes mid).wait_queue with
        | nil => simp
        | cons w rest => simp
    · simp [h2]
  · simp [h1]

/-- Claim C7: `tn_mutex_lock_polling` is definitionally `tn_mutex_lock` with zero
timeout, and on a valid mutex held by a different task a zero-timeout lock
returns `TN_RC_TIMEOUT` immediately, leaving the whole kernel state (in
particular the wait queue) unchanged and never suspending the caller. -/
theorem mutex_lock_polling_equiv :
    (∀ cfg k t mid fuel,
        tn_mutex_lock_polling cfg k t mid fuel = tn_mutex_lock cfg k t mid 0 fuel) ∧
    (∀ (cfg : TN_Config) (k : TN_Kernel) (t mid fuel h : Nat),
        (k.mutexes mid).id_mutex = true → (k.mutexes mid).holder = some h → h ≠ t →
        tn_mutex_lock cfg k t mid 0 fuel = (TN_LockOutcome.ret TN_RCode.TN_RC_TIMEOUT, k)) := by
  constructor
  · intro cfg k t mid fuel
    rfl
  · intro cfg k t mid fuel h hid hh hne
    simp [tn_mutex_lock, hid, hh, hne]

/-- Witness for claim C7 at a concrete state: polling a mutex held by task 0
from task 1 returns a timeout without any state change. -/
theorem mutex_lock_polling_equiv_witness :
    tn_mutex_lock ⟨true, false⟩ K1 1 0 0 7 = (TN_LockOutcome.ret TN_RCode.TN_RC_TIMEOUT, K1) :=
  mutex_lock_polling_equiv.2 ⟨true, false⟩ K1 1 0 7 0 (by decide) (by decide) (by decide)

/-- Claim C6: a lock call on a valid mutex already held by the calling task
returns immediately (never suspends): with recursive locking enabled it
increments the count and returns `TN_RC_OK` leaving holder and wait queue
unchanged; with recursive locking disabled it fails with `TN_RC_ILLEGAL_USE`
leaving the whole state unchanged. -/
theorem mutex_lock_recursive (cfg : TN_Config) (k : TN_Kernel) (t mid timeout fuel : Nat)
    (hid : (k.mutexes mid).id_mutex = true) (hold : (k.mutexes mid).holder = some t) :
    (tn_mutex_lock cfg k t mid timeout fuel).1 ≠ TN_LockOutcome.blocked ∧
    (cfg.mutex_rec = true →
      tn_mutex_lock cfg k t mid timeout fuel =
        (TN_LockOutcome.ret TN_RCode.TN_RC_OK,
          setMutex k mid { k.mutexes mid with cnt := (k.mutexes mid).cnt + 1 })) ∧
    (cfg.mutex_rec = false →
      tn_mutex_lock cfg k t mid timeout fuel = (TN_LockOutcome.ret TN_RCode.TN_RC_ILLEGAL_USE, k)) ∧
    ((tn_mutex_lock cfg k t mid timeout fuel).2.mutexes mid).holder = (k.mutexes mid).holder ∧
    ((tn_mutex_lock cfg k t mid timeout fuel).2.mutexes mid).wait_queue =
      (k.mutexes mid).wait_queue := by
  cases hrec : cfg.mutex_rec
  · simp [tn_mutex_lock, hid, hold, hrec]
  · simp [tn_mutex_lock, hid, hold, hrec]

/-- Witness for claim C6 at a concrete state: task 0 re-locking its own mutex
with recursion enabled gets `TN_RC_OK` and count 2; with recursion disabled it
gets `TN_RC_ILLEGAL_USE`. -/
theorem mutex_lock_recursive_witness :
    (tn_mutex_lock ⟨true, false⟩ K1 0 0 10 7 =
      (TN_LockOutcome.ret TN_RCode.TN_RC_OK,
        setMutex K1 0 { K1.mutexes 0 with cnt := (K1.mutexes 0).cnt + 1 })) ∧
    (tn_mutex_lock ⟨false, false⟩ K1 0 0 10 7 =
      (TN_LockOutcome.ret TN_RCode.TN_RC_ILLEGAL_USE, K1)) :=
  ⟨(mutex_lock_recursive ⟨true, false⟩ K1 0 0 10 7 (by decide) (by decide)).2.1 rfl,
   (mutex_lock_recursive ⟨false, false⟩ K1 0 0 10 7 (by decide) (by decide)).2.2.1 rfl⟩

/-- Claim C4: locking a valid unlocked ceiling-protocol mutex fails with
`TN_RC_ILLEGAL_USE` and changes nothing when the caller's priority is more
urgent (numerically smaller) than the ceiling priority, and succeeds (caller
becomes holder with count 1) when it is not. -/
theorem mutex_ceiling_admission (cfg : TN_Config) (k : TN_Kernel) (t mid timeout fuel : Nat)
    (hid : (k.mutexes mid).id_mutex = true) (hold : (k.mutexes mid).holder = none)
    (hprot : (k.mutexes mid).protocol = TN_MutexProtocol.TN_MUTEX_PROT_CEILING) :
    ((k.tasks t).priority < (k.mutexes mid).ceil_priority →
      tn_mutex_lock cfg k t mid timeout fuel = (TN_LockOutcome.ret TN_RCode.TN_RC_ILLEGAL_USE, k)) ∧
    (¬ (k.tasks t).priority < (k.mutexes mid).ceil_priority →
      (tn_mutex_lock cfg k t mid timeout fuel).1 = TN_LockOutcome.ret TN_RCode.TN_RC_OK ∧
      ((tn_mutex_lock cfg k t mid timeout fuel).2.mutexes mid).holder = some t ∧
      ((tn_mutex_lock cfg k t mid timeout fuel).2.mutexes mid).cnt = 1) := by
  constructor
  · intro hlt
    simp [tn_mutex_lock, hid, hold, hprot, hlt]
  · intro hge
    simp [tn_mutex_lock, hid, hold, hprot, hge]

/-- Witness for claim C4 at a concrete state: with ceiling priority 4, the
priority-2 task is refused with `TN_RC_ILLEGAL_USE` and the priority-6 task
acquires the mutex. -/
theorem mutex_ceiling_admission_witness :
    (tn_mutex_lock ⟨true, false⟩ K2 0 0 10 7 = (TN_LockOutcome.ret TN_RCode.TN_RC_ILLEGAL_USE, K2)) ∧
    ((tn_mutex_lock ⟨true, false⟩ K2 1 0 10 7).1 = TN_LockOutcome.ret TN_RCode.TN_RC_OK ∧
      ((tn_mutex_lock ⟨true, false⟩ K2 1 0 10 7).2.mutexes 0).holder = some 1 ∧
      ((tn_mutex_lock ⟨true, false⟩ K2 1 0 10 7).2.mutexes 0).cnt = 1) :=
  ⟨(mutex_ceiling_admission ⟨true, false⟩ K2 0 0 10 7 (by decide) (by decide) (by decide)).1
      (by decide),
   (mutex_ceiling_admission ⟨true, false⟩ K2 1 0 10 7 (by decide) (by decide) (by decide)).2
      (by decide)⟩

/-! ## Helper lemmas about the state-updating operations -/

@[simp] theorem task_set_priority_ntasks (k : TN_Kernel) (h p : Nat) :
    (task_set_priority k h p).ntasks = k.ntasks := by
  unfold task_set_priority
  cases (k.tasks h).task_wait <;> rfl

@[simp] theorem task_set_priority_nmutexes (k : TN_Kernel) (h p : Nat) :
    (task_set_priority k h p).nmutexes = k.nmutexes := by
  unfold task_set_priority
  cases (k.tasks h).task_wait <;> rfl

theorem task_set_priority_tasks_self (k : TN_Kernel) (h p : Nat) :
    (task_set_priority k h p).tasks h = { k.tasks h with priority := p } := by
  unfold task_set_priority
  cases (k.tasks h).task_wait <;> simp

theorem task_set_priority_tasks_ne (k : TN_Kernel) (h p x : Nat) (hx : x ≠ h) :
    (task_set_priority k h p).tasks x = k.tasks x := by
  unfold task_set_priority
  cases (k.tasks h).task_wait <;> simp [setTask_tasks_ne _ _ _ _ hx]

theorem task_set_priority_mutexes_unblocked (k : TN_Kernel) (h p : Nat)
    (hw : (k.tasks h).task_wait = none) :
    (task_set_priority k h p).mutexes = k.mutexes := by
  unfold task_set_priority
  rw [hw]
  rfl

@[simp] theorem wake_all_ntasks (k : TN_Kernel) (q : List Nat) (rc : TN_RCode) :
    (wake_all k q rc).ntasks = k.ntasks := by
  induction q generalizing k with
  | nil => rfl
  | cons w ws ih => simp [wake_all, ih]

@[simp] theorem wake_all_nmutexes (k : TN_Kernel) (q : List Nat) (rc : TN_RCode) :
    (wake_all k q rc).nmutexes = k.nmutexes := by
  induction q generalizing k with
  | nil => rfl
  | cons w ws ih => simp [wake_all, ih]

@[simp] theorem wake_all_mutexes (k : TN_Kernel) (q : List Nat) (rc : TN_RCode) :
    (wake_all k q rc).mutexes = k.mutexes := by
  induction q generalizing k with
  | nil => rfl
  | cons w ws ih => simp [wake_all, ih]

theorem wake_all_tasks_not_mem (k : TN_Kernel) (q : List Nat) (rc : TN_RCode) (x : Nat)
    (hx : x ∉ q) : (wake_all k q rc).tasks x = k.tasks x := by
  induction q generalizing k with
  | nil => rfl
  | cons w ws ih =>
      have hxw : x ≠ w := fun h => hx (h ▸ List.mem_cons_self _ _)
      have hxs : x ∉ ws := fun h => hx (List.mem_cons_of_mem _ h)
      rw [wake_all, ih _ hxs, setTask_tasks_ne _ _ _ _ hxw]

theorem wake_all_tasks_mem (k : TN_Kernel) (q : List Nat) (rc : TN_RCode) (x : Nat)
    (hx : x ∈ q) :
    ((wake_all k q rc).tasks x).task_wait = none ∧
      ((wake_all k q rc).tasks x).wait_rc = some rc := by
  induction q generalizing k with
  | nil => cases hx
  | cons w ws ih =>
      by_cases hxs : x ∈ ws
      · exact ih _ hxs
      · have hxw : x = w := by
          rcases List.mem_cons.mp hx with h | h
          · exact h
          · exact absurd h hxs
        subst hxw
        rw [wake_all, wake_all_tasks_not_mem _ _ _ _ hxs, setTask_tasks_eq]
        exact ⟨rfl, rfl⟩

theorem wake_all_tasks_fields (k : TN_Kernel) (q : List Nat) (rc : TN_RCode) (x : Nat) :
    ((wake_all k q rc).tasks x).priority = (k.tasks x).priority ∧
      ((wake_all k q rc).tasks x).base_priority = (k.tasks x).base_priority ∧
      ((wake_all k q rc).tasks x).mutex_queue = (k.tasks x).mutex_queue := by
  induction q generalizing k with
  | nil => exact ⟨rfl, rfl, rfl⟩
  | cons w ws ih =>
      rw [wake_all]
      have hf : ((setTask k w { k.tasks w with task_wait := none, wait_rc := some rc }).tasks x).priority
            = (k.tasks x).priority ∧
          ((setTask k w { k.tasks w with task_wait := none, wait_rc := some rc }).tasks x).base_priority
            = (k.tasks x).base_priority ∧
          ((setTask k w { k.tasks w with task_wait := none, wait_rc := some rc }).tasks x).mutex_queue
            = (k.tasks x).mutex_queue := by
        by_cases hxw : x = w
        · subst hxw
          simp
        · simp [setTask_tasks_ne _ _ _ _ hxw]
      obtain ⟨i1, i2, i3⟩ := ih (setTask k w { k.tasks w with task_wait := none, wait_rc := some rc })
      exact ⟨i1.trans hf.1, i2.trans hf.2.1, i3.trans hf.2.2⟩

@[simp] theorem mutex_release_prep_ntasks (k : TN_Kernel) (t mid : Nat) :
    (mutex_release_prep k t mid).ntasks = k.ntasks := by
  unfold mutex_release_prep
  by_cases hp : (k.mutexes mid).protocol = TN_MutexProtocol.TN_MUTEX_PROT_INHERIT <;> simp [hp]

@[simp] theorem mutex_release_prep_nmutexes (k : TN_Kernel) (t mid : Nat) :
    (mutex_release_prep k t mid).nmutexes = k.nmutexes := by
  unfold mutex_release_prep
  by_cases hp : (k.mutexes mid).protocol = TN_MutexProtocol.TN_MUTEX_PROT_INHERIT <;> simp [hp]

theorem mutex_release_prep_mutexes (k : TN_Kernel) (t mid : Nat)
    (htw : (k.tasks t).task_wait = none) :
    (mutex_release_prep k t mid).mutexes = k.mutexes := by
  unfold mutex_release_prep
  by_cases hp : (k.mutexes mid).protocol = TN_MutexProtocol.TN_MUTEX_PROT_INHERIT
  · have h1 : ((setTask k t
        { k.tasks t with mutex_queue := ((k.tasks t).mutex_queue).erase mid }).tasks t).task_wait
        = none := by simp [htw]
    simp [hp, task_set_priority_mutexes_unblocked _ _ _ h1]
  · simp [hp]

theorem mutex_release_prep_tasks_ne (k : TN_Kernel) (t mid x : Nat) (hx : x ≠ t) :
    (mutex_release_prep k t mid).tasks x = k.tasks x := by
  unfold mutex_release_prep
  by_cases hp : (k.mutexes mid).protocol = TN_MutexProtocol.TN_MUTEX_PROT_INHERIT
  · simp [hp, task_set_priority_tasks_ne _ _ _ _ hx, setTask_tasks_ne _ _ _ _ hx]
  · simp [hp, setTask_tasks_ne _ _ _ _ hx]

/-- A kernel with three tasks and one inheritance mutex held by task 0 with
waiters 1 and 2 queued (priorities 4 and 5). -/
def K3 : TN_Kernel :=
  ⟨4, 1,
    fun t =>
      if t = 0 then ⟨3, 3, none, none, [0]⟩
      else if t = 1 then ⟨4, 4, some 0, none, []⟩
      else if t = 2 then ⟨5, 5, some 0, none, []⟩
      else ⟨6, 6, none, none, []⟩,
    fun _ => ⟨[1, 2], [], TN_MutexProtocol.TN_MUTEX_PROT_INHERIT, some 0, 0, 1, true⟩⟩

/-- Claim C8: deleting a valid mutex returns `TN_RC_OK`, wakes every queued
waiter with the distinguished `TN_RC_DELETED` result (none of them becomes
holder — the mutex ends with no holder), leaves the wait queue empty,
invalidates the object, and every subsequent lock call on it fails with
`TN_RC_INVALID_OBJ`. -/
theorem mutex_delete_semantics (k : TN_Kernel) (mid : Nat)
    (hid : (k.mutexes mid).id_mutex = true) :
    (tn_mutex_delete k mid).1 = TN_RCode.TN_RC_OK ∧
    (∀ w ∈ (k.mutexes mid).wait_queue,
      (((tn_mutex_delete k mid).2).tasks w).task_wait = none ∧
      (((tn_mutex_delete k mid).2).tasks w).wait_rc = some TN_RCode.TN_RC_DELETED) ∧
    ((tn_mutex_delete k mid).2.mutexes mid).wait_queue = [] ∧
    ((tn_mutex_delete k mid).2.mutexes mid).holder = none ∧
    ((tn_mutex_delete k mid).2.mutexes mid).id_mutex = false ∧
    (∀ cfg t timeout fuel,
      tn_mutex_lock cfg (tn_mutex_delete k mid).2 t mid timeout fuel =
        (TN_LockOutcome.ret TN_RCode.TN_RC_INVALID_OBJ, (tn_mutex_delete k mid).2)) := by
  cases hh : (k.mutexes mid).holder with
  | none =>
      simp only [tn_mutex_delete, hid, if_true, hh]
      refine ⟨by trivial, ?_, by simp, by simp, by simp, ?_⟩
      · intro w hw
        simpa using wake_all_tasks_mem k _ _ w hw
      · intro cfg t timeout fuel
        simp [tn_mutex_lock]
  | some h =>
      simp only [tn_mutex_delete, hid, if_true, hh]
      refine ⟨by trivial, ?_, by simp, by simp, by simp, ?_⟩
      · intro w hw
        have hwake := wake_all_tasks_mem k _ TN_RCode.TN_RC_DELETED w hw
        by_cases hwh : w = h
        · subst hwh
          simpa using hwake
        · simp only [setMutex_tasks]
          rw [setTask_tasks_ne _ _ _ _ hwh]
          exact hwake
      · intro cfg t timeout fuel
        simp [tn_mutex_lock]

/-- Witness for claim C8 at a concrete state: deleting the mutex of `K3` wakes
waiters 1 and 2 with `TN_RC_DELETED`, empties the queue, and a later lock by
task 1 fails with `TN_RC_INVALid_OBJ`. -/
theorem mutex_delete_semantics_witness :
    (tn_mutex_delete K3 0).1 = TN_RCode.TN_RC_OK ∧
    (((tn_mutex_delete K3 0).2).tasks 1).task_wait = none ∧
    (((tn_mutex_delete K3 0).2).tasks 1).wait_rc = some TN_RCode.TN_RC_DELETED ∧
    (((tn_mutex_delete K3 0).2).tasks 2).wait_rc = some TN_RCode.TN_RC_DELETED ∧
    ((tn_mutex_delete K3 0).2.mutexes 0).wait_queue = [] ∧
    tn_mutex_lock ⟨true, false⟩ (tn_mutex_delete K3 0).2 1 0 10 7 =
      (TN_LockOutcome.ret TN_RCode.TN_RC_INVALID_OBJ, (tn_mutex_delete K3 0).2) :=
  ⟨(mutex_delete_semantics K3 0 (by decide)).1,
   ((mutex_delete_semantics K3 0 (by decide)).2.1 1 (by decide)).1,
   ((mutex_delete_semantics K3 0 (by decide)).2.1 1 (by decide)).2,
   ((mutex_delete_semantics K3 0 (by decide)).2.1 2 (by decide)).2,
   (mutex_delete_semantics K3 0 (by decide)).2.2.1,
   (mutex_delete_semantics K3 0 (by decide)).2.2.2.2.2 ⟨true, false⟩ 1 10 7⟩

/-- Claim C1: `tn_mutex_unlock` on a valid mutex fails with `TN_RC_ILLEGAL_USE`
and leaves the whole state unchanged when the mutex is unlocked or its holder is
not the caller; otherwise it returns `TN_RC_OK` with the count decremented.  When
the count reaches zero with a non-empty wait queue, the first (most urgent)
waiter is removed from the queue and becomes the holder with count 1 in the very
same transition (no intermediate ownerless state), woken with a success result;
with an empty wait queue the mutex becomes unlocked with no holder. -/
theorem mutex_unlock_semantics (k : TN_Kernel) (t mid : Nat)
    (hmid : mid < k.nmutexes) (hid : (k.mutexes mid).id_mutex = true)
    (hsort : QueueSorted k) (htw : (k.tasks t).task_wait = none) :
    ((k.mutexes mid).holder ≠ some t →
      tn_mutex_unlock k t mid = (TN_RCode.TN_RC_ILLEGAL_USE, k)) ∧
    ((k.mutexes mid).holder = some t →
      (tn_mutex_unlock k t mid).1 = TN_RCode.TN_RC_OK ∧
      (1 < (k.mutexes mid).cnt →
        tn_mutex_unlock k t mid =
          (TN_RCode.TN_RC_OK,
            setMutex k mid { k.mutexes mid with cnt := (k.mutexes mid).cnt - 1 })) ∧
      (¬ 1 < (k.mutexes mid).cnt →
        ((k.mutexes mid).wait_queue = [] →
          ((tn_mutex_unlock k t mid).2.mutexes mid).holder = none ∧
          ((tn_mutex_unlock k t mid).2.mutexes mid).cnt = 0 ∧
          ((tn_mutex_unlock k t mid).2.mutexes mid).wait_queue = []) ∧
        (∀ w rest, (k.mutexes mid).wait_queue = w :: rest →
          ((tn_mutex_unlock k t mid).2.mutexes mid).holder = some w ∧
          ((tn_mutex_unlock k t mid).2.mutexes mid).cnt = 1 ∧
          ((tn_mutex_unlock k t mid).2.mutexes mid).wait_queue = rest ∧
          (((tn_mutex_unlock k t mid).2).tasks w).task_wait = none ∧
          (((tn_mutex_unlock k t mid).2).tasks w).wait_rc = some TN_RCode.TN_RC_OK ∧
          mid ∈ (((tn_mutex_unlock k t mid).2).tasks w).mutex_queue ∧
          ∀ x ∈ rest, (k.tasks w).priority ≤ (k.tasks x).priority))) := by
  constructor
  · intro hne
    simp [tn_mutex_unlock, hid, hne]
  · intro hold
    by_cases hc : 1 < (k.mutexes mid).cnt
    · simp [tn_mutex_unlock, hid, hold, hc]
    · refine ⟨?_, fun h => absurd h hc, ?_⟩
      · cases hq : (k.mutexes mid).wait_queue with
        | nil => simp [tn_mutex_unlock, hid, hold, hc, hq]
        | cons w rest => simp [tn_mutex_unlock, hid, hold, hc, hq]
      · intro hnc
        constructor
        · intro hq
          simp [tn_mutex_unlock, hid, hold, hc, hq,
            mutex_release_prep_mutexes k t mid htw]
        · intro w rest hq
          have hpair := hsort mid hmid hid
          rw [hq] at hpair
          have hmin : ∀ x ∈ rest, (k.tasks w).priority ≤ (k.tasks x).priority :=
            (List.pairwise_cons.mp hpair).1
          refine ⟨?_, ?_, ?_, ?_, ?_, ?_, hmin⟩ <;>
            simp [tn_mutex_unlock, hid, hold, hc, hq,
              mutex_release_prep_mutexes k t mid htw]

/-- Witness for claim C1 at a concrete state: in `K3`, an unlock by non-holder
task 3 fails with `TN_RC_ILLEGAL_USE` unchanged; the holder task 0's unlock
hands the mutex directly to waiter 1 (count 1, woken with `TN_RC_OK`), and
waiter 1 is at least as urgent as the remaining waiter 2. -/
theorem mutex_unlock_semantics_witness :
    tn_mutex_unlock K3 3 0 = (TN_RCode.TN_RC_ILLEGAL_USE, K3) ∧
    (tn_mutex_unlock K3 0 0).1 = TN_RCode.TN_RC_OK ∧
    ((tn_mutex_unlock K3 0 0).2.mutexes 0).holder = some 1 ∧
    ((tn_mutex_unlock K3 0 0).2.mutexes 0).cnt = 1 ∧
    ((tn_mutex_unlock K3 0 0).2.mutexes 0).wait_queue = [2] ∧
    (((tn_mutex_unlock K3 0 0).2).tasks 1).task_wait = none ∧
    (((tn_mutex_unlock K3 0 0).2).tasks 1).wait_rc = some TN_RCode.TN_RC_OK ∧
    (K3.tasks 1).priority ≤ (K3.tasks 2).priority :=
  ⟨(mutex_unlock_semantics K3 3 0 (by decide) (by decide) (by decide) (by decide)).1 (by decide),
   ((mutex_unlock_semantics K3 0 0 (by decide) (by decide) (by decide) (by decide)).2 rfl).1,
   (((mutex_unlock_semantics K3 0 0 (by decide) (by decide) (by decide) (by decide)).2
        rfl).2.2 (by decide)).2 1 [2] rfl |>.1,
   (((mutex_unlock_semantics K3 0 0 (by decide) (by decide) (by decide) (by decide)).2
        rfl).2.2 (by decide)).2 1 [2] rfl |>.2.1,
   (((mutex_unlock_semantics K3 0 0 (by decide) (by decide) (by decide) (by decide)).2
        rfl).2.2 (by decide)).2 1 [2] rfl |>.2.2.1,
   (((mutex_unlock_semantics K3 0 0 (by decide) (by decide) (by decide) (by decide)).2
        rfl).2.2 (by decide)).2 1 [2] rfl |>.2.2.2.1,
   (((mutex_unlock_semantics K3 0 0 (by decide) (by decide) (by decide) (by decide)).2
        rfl).2.2 (by decide)).2 1 [2] rfl |>.2.2.2.2.1,
   (((mutex_unlock_semantics K3 0 0 (by decide) (by decide) (by decide) (by decide)).2
        rfl).2.2 (by decide)).2 1 [2] rfl |>.2.2.2.2.2.2 2 (by decide)⟩

/-! ## Field-preservation lemmas -/

theorem task_set_priority_mutex_fields (k : TN_Kernel) (h p x : Nat) :
    ((task_set_priority k h p).mutexes x).holder = (k.mutexes x).holder ∧
    ((task_set_priority k h p).mutexes x).cnt = (k.mutexes x).cnt ∧
    ((task_set_priority k h p).mutexes x).id_mutex = (k.mutexes x).id_mutex ∧
    ((task_set_priority k h p).mutexes x).protocol = (k.mutexes x).protocol ∧
    ((task_set_priority k h p).mutexes x).ceil_priority = (k.mutexes x).ceil_priority := by
  unfold task_set_priority
  cases hw : (k.tasks h).task_wait with
  | none => simp
  | some mid2 =>
      by_cases hx : x = mid2
      · subst hx
        simp
      · simp [setMutex_mutexes_ne _ _ _ _ hx]

theorem mutex_release_prep_mutex_fields (k : TN_Kernel) (t mid x : Nat) :
    ((mutex_release_prep k t mid).mutexes x).holder = (k.mutexes x).holder ∧
    ((mutex_release_prep k t mid).mutexes x).cnt = (k.mutexes x).cnt ∧
    ((mutex_release_prep k t mid).mutexes x).id_mutex = (k.mutexes x).id_mutex ∧
    ((mutex_release_prep k t mid).mutexes x).protocol = (k.mutexes x).protocol ∧
    ((mutex_release_prep k t mid).mutexes x).ceil_priority = (k.mutexes x).ceil_priority := by
  unfold mutex_release_prep
  by_cases hp : (k.mutexes mid).protocol = TN_MutexProtocol.TN_MUTEX_PROT_INHERIT
  · simp only [hp, if_true]
    have := task_set_priority_mutex_fields
      (setTask k t { k.tasks t with mutex_queue := ((k.tasks t).mutex_queue).erase mid }) t
      (mutex_calc_max_priority
        (setTask k t { k.tasks t with mutex_queue := ((k.tasks t).mutex_queue).erase mid }) t) x
    simpa using this
  · simp [hp]

theorem lock_enqueue_mutex_fields (k : TN_Kernel) (t mid x : Nat) :
    ((lock_enqueue k t mid).mutexes x).holder = (k.mutexes x).holder ∧
    ((lock_enqueue k t mid).mutexes x).cnt = (k.mutexes x).cnt ∧
    ((lock_enqueue k t mid).mutexes x).id_mutex = (k.mutexes x).id_mutex ∧
    ((lock_enqueue k t mid).mutexes x).protocol = (k.mutexes x).protocol ∧
    ((lock_enqueue k t mid).mutexes x).ceil_priority = (k.mutexes x).ceil_priority := by
  unfold lock_enqueue
  by_cases hx : x = mid
  · subst hx
    simp
  · simp [setMutex_mutexes_ne _ _ _ _ hx]

@[simp] theorem lock_enqueue_ntasks (k : TN_Kernel) (t mid : Nat) :
    (lock_enqueue k t mid).ntasks = k.ntasks := rfl

@[simp] theorem lock_enqueue_nmutexes (k : TN_Kernel) (t mid : Nat) :
    (lock_enqueue k t mid).nmutexes = k.nmutexes := rfl

theorem propagate_priority_mutex_fields (fuel : Nat) :
    ∀ (k : TN_Kernel) (mid p x : Nat),
    (((propagate_priority k mid p fuel).1.mutexes x).holder = (k.mutexes x).holder ∧
     ((propagate_priority k mid p fuel).1.mutexes x).cnt = (k.mutexes x).cnt ∧
     ((propagate_priority k mid p fuel).1.mutexes x).id_mutex = (k.mutexes x).id_mutex ∧
     ((propagate_priority k mid p fuel).1.mutexes x).protocol = (k.mutexes x).protocol ∧
     ((propagate_priority k mid p fuel).1.mutexes x).ceil_priority = (k.mutexes x).ceil_priority) ∧
    (propagate_priority k mid p fuel).1.ntasks = k.ntasks ∧
    (propagate_priority k mid p fuel).1.nmutexes = k.nmutexes := by
  induction fuel with
  | zero => intro k mid p x; exact ⟨⟨rfl, rfl, rfl, rfl, rfl⟩, rfl, rfl⟩
  | succ fuel ih =>
      intro k mid p x
      unfold propagate_priority
      cases hh : (k.mutexes mid).holder with
      | none => simp
      | some h =>
          by_cases hlt : p < (k.tasks h).priority
          · simp only [hlt, if_true]
            cases hw : (k.tasks h).task_wait with
            | none =>
                have hf := task_set_priority_mutex_fields k h p x
                simpa using hf
            | some mid2 =>
                have hf := task_set_priority_mutex_fields k h p x
                have hi := ih (task_set_priority k h p) mid2 p x
                simp only []
                refine ⟨⟨?_, ?_, ?_, ?_, ?_⟩, ?_, ?_⟩
                · exact hi.1.1.trans hf.1
                · exact hi.1.2.1.trans hf.2.1
                · exact hi.1.2.2.1.trans hf.2.2.1
                · exact hi.1.2.2.2.1.trans hf.2.2.2.1
                · exact hi.1.2.2.2.2.trans hf.2.2.2.2
                · exact hi.2.1.trans (task_set_priority_ntasks k h p)
                · exact hi.2.2.trans (task_set_priority_nmutexes k h p)
          · simp [hlt]

theorem link_deadlock_lists_fields (ms : List Nat) :
    ∀ (k : TN_Kernel) (full : List Nat),
    (link_deadlock_lists k ms full).tasks = k.tasks ∧
    (link_deadlock_lists k ms full).ntasks = k.ntasks ∧
    (link_deadlock_lists k ms full).nmutexes = k.nmutexes ∧
    ∀ x,
      ((link_deadlock_lists k ms full).mutexes x).holder = (k.mutexes x).holder ∧
      ((link_deadlock_lists k ms full).mutexes x).cnt = (k.mutexes x).cnt ∧
      ((link_deadlock_lists k ms full).mutexes x).id_mutex = (k.mutexes x).id_mutex ∧
      ((link_deadlock_lists k ms full).mutexes x).protocol = (k.mutexes x).protocol ∧
      ((link_deadlock_lists k ms full).mutexes x).ceil_priority = (k.mutexes x).ceil_priority ∧
      ((link_deadlock_lists k ms full).mutexes x).wait_queue = (k.mutexes x).wait_queue := by
  induction ms with
  | nil => intro k full; exact ⟨rfl, rfl, rfl, fun x => ⟨rfl, rfl, rfl, rfl, rfl, rfl⟩⟩
  | cons m rest ih =>
      intro k full
      rw [link_deadlock_lists]
      obtain ⟨h1, h2, h3, h4⟩ :=
        ih (setMutex k m { k.mutexes m with deadlock_list := full.filter (fun x => x != m) }) full
      refine ⟨h1, h2, h3, fun x => ?_⟩
      obtain ⟨f1, f2, f3, f4, f5, f6⟩ := h4 x
      by_cases hx : x = m
      · subst hx
        simp only [setMutex_mutexes_eq] at f1 f2 f3 f4 f5 f6
        exact ⟨f1, f2, f3, f4, f5, f6⟩
      · rw [setMutex_mutexes_ne _ _ _ _ hx] at f1 f2 f3 f4 f5 f6
        exact ⟨f1, f2, f3, f4, f5, f6⟩

/-- Transport of the count invariant along a state change that preserves every
mutex's count, holder and validity fields. -/
theorem cntInv_of_fields (k k' : TN_Kernel) (hn : k'.nmutexes = k.nmutexes)
    (hf : ∀ x, (k'.mutexes x).cnt = (k.mutexes x).cnt ∧
      (k'.mutexes x).holder = (k.mutexes x).holder ∧
      (k'.mutexes x).id_mutex = (k.mutexes x).id_mutex)
    (hinv : cntInv k) : cntInv k' := by
  intro mid hmid hid
  obtain ⟨f1, f2, f3⟩ := hf mid
  rw [f1, f2]
  exact hinv mid (hn ▸ hmid) (f3 ▸ hid)

theorem cntInv_setTask (k : TN_Kernel) (t : Nat) (tk : TN_Task) :
    cntInv (setTask k t tk) ↔ cntInv k := Iff.rfl

theorem cntInv_setMutex (k : TN_Kernel) (mid : Nat) (m' : TN_Mutex) (hinv : cntInv k)
    (hm : m'.id_mutex = true → (m'.cnt = 0 ↔ m'.holder = none)) :
    cntInv (setMutex k mid m') := by
  intro x hx hxid
  by_cases h : x = mid
  · subst h
    rw [setMutex_mutexes_eq] at hxid ⊢
    exact hm hxid
  · rw [setMutex_mutexes_ne _ _ _ _ h] at hxid ⊢
    exact hinv x (by simpa using hx) hxid

/-- Claim C9: every operation (`tn_mutex_create`, `tn_mutex_lock`,
`tn_mutex_lock_polling`, `tn_mutex_unlock`, `tn_mutex_delete`) preserves the
invariant that a valid mutex's lock count is zero exactly when it has no
holder. -/
theorem mutex_cnt_holder_invariant :
    (∀ k mid prot cp, cntInv k → cntInv (tn_mutex_create k mid prot cp).2) ∧
    (∀ cfg k t mid timeout fuel, cntInv k → cntInv (tn_mutex_lock cfg k t mid timeout fuel).2) ∧
    (∀ cfg k t mid fuel, cntInv k → cntInv (tn_mutex_lock_polling cfg k t mid fuel).2) ∧
    (∀ k t mid, cntInv k → cntInv (tn_mutex_unlock k t mid).2) ∧
    (∀ k mid, cntInv k → cntInv (tn_mutex_delete k mid).2) := by
  have hlock : ∀ cfg k t mid timeout fuel, cntInv k →
      cntInv (tn_mutex_lock cfg k t mid timeout fuel).2 := by
    intro cfg k t mid timeout fuel hinv
    by_cases hid : (k.mutexes mid).id_mutex = true
    · cases hh : (k.mutexes mid).holder with
      | none =>
          by_cases hc : (k.mutexes mid).protocol = TN_MutexProtocol.TN_MUTEX_PROT_CEILING ∧
              (k.tasks t).priority < (k.mutexes mid).ceil_priority
          · simpa [tn_mutex_lock, hid, hh, hc] using hinv
          · simp only [tn_mutex_lock, hid, if_true, hh, hc, if_false]
            rw [cntInv_setTask]
            exact cntInv_setMutex k mid _ hinv (fun _ => by simp [hh])
      | some h =>
          by_cases hht : h = t
          · subst hht
            cases hrec : cfg.mutex_rec
            · simpa [tn_mutex_lock, hid, hh, hrec] using hinv
            · simp only [tn_mutex_lock, hid, if_true, hh, hrec, if_false]
              exact cntInv_setMutex k mid _ hinv (fun _ => by simp [hh])
          · by_cases ht0 : timeout = 0
            · simpa [tn_mutex_lock, hid, hh, hht, ht0] using hinv
            · cases hd : (if cfg.mutex_deadlock_detect then
                  find_deadlock_cycle (lock_enqueue k t mid) mid mid [] fuel
                  else DeadlockRes.nocycle) with
              | cycle ms =>
                  simp only [tn_mutex_lock, hid, if_true, hh, hht, ht0, hd]
                  obtain ⟨_, _, hn, hf⟩ := link_deadlock_lists_fields ms k ms
                  exact cntInv_of_fields k _ hn
                    (fun x => ⟨(hf x).2.1, (hf x).1, (hf x).2.2.1⟩) hinv
              | nocycle =>
                  simp only [tn_mutex_lock, hid, if_true, hh, hht, ht0, hd]
                  have henq : cntInv (lock_enqueue k t mid) :=
                    cntInv_of_fields k _ rfl
                      (fun x =>
                        ⟨(lock_enqueue_mutex_fields k t mid x).2.1,
                         (lock_enqueue_mutex_fields k t mid x).1,
                         (lock_enqueue_mutex_fields k t mid x).2.2.1⟩) hinv
                  by_cases hp : (k.mutexes mid).protocol = TN_MutexProtocol.TN_MUTEX_PROT_INHERIT
                  · simp only [hp, if_true]
                    obtain ⟨hf, _, hn⟩ :=
                      propagate_priority_mutex_fields fuel (lock_enqueue k t mid) mid
                        ((k.tasks t).priority) 0
                    exact cntInv_of_fields (lock_enqueue k t mid) _
                      (propagate_priority_mutex_fields fuel (lock_enqueue k t mid) mid
                        ((k.tasks t).priority) 0).2.2
                      (fun x =>
                        ⟨(propagate_priority_mutex_fields fuel (lock_enqueue k t mid) mid
                            ((k.tasks t).priority) x).1.2.1,
                         (propagate_priority_mutex_fields fuel (lock_enqueue k t mid) mid
                            ((k.tasks t).priority) x).1.1,
                         (propagate_priority_mutex_fields fuel (lock_enqueue k t mid) mid
                            ((k.tasks t).priority) x).1.2.2.1⟩) henq
                  · simpa [hp] using henq
              | fuelout =>
                  simp only [tn_mutex_lock, hid, if_true, hh, hht, ht0, hd]
                  have henq : cntInv (lock_enqueue k t mid) :=
                    cntInv_of_fields k _ rfl
                      (fun x =>
                        ⟨(lock_enqueue_mutex_fields k t mid x).2.1,
                         (lock_enqueue_mutex_fields k t mid x).1,
                         (lock_enqueue_mutex_fields k t mid x).2.2.1⟩) hinv
                  by_cases hp : (k.mutexes mid).protocol = TN_MutexProtocol.TN_MUTEX_PROT_INHERIT
                  · simp only [hp, if_true]
                    exact cntInv_of_fields (lock_enqueue k t mid) _
                      (propagate_priority_mutex_fields fuel (lock_enqueue k t mid) mid
                        ((k.tasks t).priority) 0).2.2
                      (fun x =>
                        ⟨(propagate_priority_mutex_fields fuel (lock_enqueue k t mid) mid
                            ((k.tasks t).priority) x).1.2.1,
                         (propagate_priority_mutex_fields fuel (lock_enqueue k t mid) mid
                            ((k.tasks t).priority) x).1.1,
                         (propagate_priority_mutex_fields fuel (lock_enqueue k t mid) mid
                            ((k.tasks t).priority) x).1.2.2.1⟩) henq
                  · simpa [hp] using henq
    · simpa [tn_mutex_lock, hid] using hinv
  refine ⟨?_, hlock, ?_, ?_, ?_⟩
  · intro k mid prot cp hinv
    by_cases hid : (k.mutexes mid).id_mutex = true
    · simpa [tn_mutex_create, hid] using hinv
    · simp only [tn_mutex_create, hid, if_false]
      exact cntInv_setMutex k mid _ hinv (fun _ => by simp)
  · intro cfg k t mid fuel hinv
    exact hlock cfg k t mid 0 fuel hinv
  · intro k t mid hinv
    by_cases hid : (k.mutexes mid).id_mutex = true
    · by_cases hold : (k.mutexes mid).holder = some t
      · by_cases hc : 1 < (k.mutexes mid).cnt
        · simp only [tn_mutex_unlock, hid, if_true, hold, hc]
          refine cntInv_setMutex k mid _ hinv (fun _ => by
            simp only [hold]
            constructor
            · intro h0
              omega
            · intro hn
              cases hn)
        · have hprep : cntInv (mutex_release_prep k t mid) :=
            cntInv_of_fields k _ (mutex_release_prep_nmutexes k t mid)
              (fun x =>
                ⟨(mutex_release_prep_mutex_fields k t mid x).2.1,
                 (mutex_release_prep_mutex_fields k t mid x).1,
                 (mutex_release_prep_mutex_fields k t mid x).2.2.1⟩) hinv
          cases hq : (k.mutexes mid).wait_queue with
          | nil =>
              simp only [tn_mutex_unlock, hid, if_true, hold, hc, if_false, hq]
              exact cntInv_setMutex _ mid _ hprep (fun _ => by simp)
          | cons w rest =>
              simp only [tn_mutex_unlock, hid, if_true, hold, hc, if_false, hq]
              rw [cntInv_setTask]
              exact cntInv_setMutex _ mid _ hprep (fun _ => by simp)
      · simpa [tn_mutex_unlock, hid, hold] using hinv
    · simpa [tn_mutex_unlock, hid] using hinv
  · intro k mid hinv
    by_cases hid : (k.mutexes mid).id_mutex = true
    · cases hh : (k.mutexes mid).holder with
      | none =>
          simp only [tn_mutex_delete, hid, if_true, hh]
          refine cntInv_setMutex _ mid _ ?_ (fun hfalse => by cases hfalse)
          exact cntInv_of_fields k _ (wake_all_nmutexes _ _ _)
            (fun x => by rw [wake_all_mutexes]; exact ⟨rfl, rfl, rfl⟩) hinv
      | some h =>
          simp only [tn_mutex_delete, hid, if_true, hh]
          refine cntInv_setMutex _ mid _ ?_ (fun hfalse => by cases hfalse)
          rw [cntInv_setTask]
          exact cntInv_of_fields k _ (wake_all_nmutexes _ _ _)
            (fun x => by rw [wake_all_mutexes]; exact ⟨rfl, rfl, rfl⟩) hinv
    · simpa [tn_mutex_delete, hid] using hinv

/-- Witness for claim C9 at a concrete state: the count/holder invariant holds
of `K3` and is preserved across a blocking lock by task 3 and across the
holder's unlock. -/
theorem mutex_cnt_holder_invariant_witness :
    cntInv (tn_mutex_lock ⟨true, false⟩ K3 3 0 10 7).2 ∧
      cntInv (tn_mutex_unlock K3 0 0).2 :=
  ⟨mutex_cnt_holder_invariant.2.1 ⟨true, false⟩ K3 3 0 10 7 (by decide),
   mutex_cnt_holder_invariant.2.2.2.1 K3 0 0 (by decide)⟩

/-! ## The wait-for graph and the deadlock detector -/

/-- One edge of the wait-for graph between mutexes: from mutex `mid` to the mutex
its holder is itself waiting for (if any). -/
def mutex_wait_step (k : TN_Kernel) (mid : Nat) : Option Nat :=
  match (k.mutexes mid).holder with
  | none => none
  | some h => (k.tasks h).task_wait

/-- Following `n` wait-for edges from mutex `mid`. -/
def mutex_wait_chain (k : TN_Kernel) (mid : Nat) : Nat → Option Nat
  | 0 => some mid
  | n + 1 =>
      match mutex_wait_step k mid with
      | none => none
      | some m2 => mutex_wait_chain k m2 n

theorem mutex_wait_chain_succ (k : TN_Kernel) (mid n : Nat) :
    mutex_wait_chain k mid (n + 1) =
      match mutex_wait_step k mid with
      | none => none
      | some m2 => mutex_wait_chain k m2 n := rfl

theorem find_deadlock_cycle_succ (k : TN_Kernel) (start cur : Nat) (acc : List Nat)
    (fuel : Nat) :
    find_deadlock_cycle k start cur acc (fuel + 1) =
      match (k.mutexes cur).holder with
      | none => DeadlockRes.nocycle
      | some h =>
          match (k.tasks h).task_wait with
          | none => DeadlockRes.nocycle
          | some nxt =>
              if nxt = start then DeadlockRes.cycle (cur :: acc).reverse
              else find_deadlock_cycle k start nxt (cur :: acc) fuel := rfl

theorem find_cycle_of_chain (k : TN_Kernel) (start : Nat) :
    ∀ (j : Nat) (cur : Nat) (acc : List Nat) (fuel : Nat),
      mutex_wait_chain k cur (j + 1) = some start → j < fuel →
      ∃ ms, find_deadlock_cycle k start cur acc fuel = DeadlockRes.cycle ms := by
  intro j
  induction j with
  | zero =>
      intro cur acc fuel hchain hfuel
      cases fuel with
      | zero => cases hfuel
      | succ f =>
          rw [mutex_wait_chain_succ] at hchain
          cases hs : mutex_wait_step k cur with
          | none =>
              simp only [hs] at hchain
              cases hchain
          | some m2 =>
              simp only [hs, mutex_wait_chain] at hchain
              obtain rfl := Option.some.inj hchain
              unfold mutex_wait_step at hs
              cases hh : (k.mutexes cur).holder with
              | none =>
                  simp only [hh] at hs
                  cases hs
              | some h =>
                  simp only [hh] at hs
                  rw [find_deadlock_cycle_succ]
                  simp [hh, hs]
  | succ j ih =>
      intro cur acc fuel hchain hfuel
      cases fuel with
      | zero => cases hfuel
      | succ f =>
          rw [mutex_wait_chain_succ] at hchain
          cases hs : mutex_wait_step k cur with
          | none =>
              simp only [hs] at hchain
              cases hchain
          | some nxt =>
              simp only [hs] at hchain
              unfold mutex_wait_step at hs
              cases hh : (k.mutexes cur).holder with
              | none =>
                  simp only [hh] at hs
                  cases hs
              | some h =>
                  simp only [hh] at hs
                  rw [find_deadlock_cycle_succ]
                  simp only [hh, hs]
                  by_cases hns : nxt = start
                  · simp [hns]
                  · simp only [hns, if_false]
                    exact ih nxt (cur :: acc) f hchain (Nat.lt_of_succ_lt_succ hfuel)

theorem find_cycle_mem (k : TN_Kernel) (start : Nat) :
    ∀ (fuel : Nat) (cur : Nat) (acc : List Nat) (ms : List Nat),
      find_deadlock_cycle k start cur acc fuel = DeadlockRes.cycle ms →
      ∀ x, (x ∈ acc ∨ x = cur) → x ∈ ms := by
  intro fuel
  induction fuel with
  | zero => intro cur acc ms hf; cases hf
  | succ f ih =>
      intro cur acc ms hf x hx
      rw [find_deadlock_cycle_succ] at hf
      cases hh : (k.mutexes cur).holder with
      | none =>
          simp only [hh] at hf
          cases hf
      | some h =>
          simp only [hh] at hf
          cases hw : (k.tasks h).task_wait with
          | none =>
              simp only [hw] at hf
              cases hf
          | some nxt =>
              simp only [hw] at hf
              by_cases hns : nxt = start
              · rw [if_pos hns] at hf
                have hms : (cur :: acc).reverse = ms := DeadlockRes.cycle.inj hf
                rw [← hms, List.mem_reverse, List.mem_cons]
                tauto
              · rw [if_neg hns] at hf
                refine ih nxt (cur :: acc) ms hf x ?_
                left
                rw [List.mem_cons]
                tauto

theorem link_deadlock_lists_not_mem (ms : List Nat) :
    ∀ (k : TN_Kernel) (full : List Nat) (x : Nat), x ∉ ms →
      (link_deadlock_lists k ms full).mutexes x = k.mutexes x := by
  induction ms with
  | nil => intro k full x _; rfl
  | cons m rest ih =>
      intro k full x hx
      have hxm : x ≠ m := fun h => hx (h ▸ List.mem_cons_self _ _)
      have hxr : x ∉ rest := fun h => hx (List.mem_cons_of_mem _ h)
      rw [link_deadlock_lists, ih _ _ _ hxr, setMutex_mutexes_ne _ _ _ _ hxm]

theorem link_deadlock_lists_mem (ms : List Nat) :
    ∀ (k : TN_Kernel) (full : List Nat) (m : Nat), m ∈ ms →
      ((link_deadlock_lists k ms full).mutexes m).deadlock_list =
        full.filter (fun x => x != m) := by
  induction ms with
  | nil => intro k full m hm; cases hm
  | cons m0 rest ih =>
      intro k full m hm
      by_cases hmr : m ∈ rest
      · rw [link_deadlock_lists]
        exact ih _ _ _ hmr
      · have hm0 : m = m0 := by
          rcases List.mem_cons.mp hm with h | h
          · exact h
          · exact absurd h hmr
        subst hm0
        rw [link_deadlock_lists, link_deadlock_lists_not_mem rest _ _ _ hmr,
          setMutex_mutexes_eq]

/-- Claim C5: with deadlock detection enabled, a lock call on a valid mutex held
by another task, with non-zero timeout, whose blocking would close a cycle in
the wait-for graph (the chain of wait-for edges from the target mutex, in the
state where the caller is marked waiting, returns to the target mutex), does not
block the caller: it returns `TN_RC_DEADLOCK`, leaves every task and every wait
queue and holder unchanged, and links the deadlock peer lists of the implicated
mutexes to record cycle membership. -/
theorem mutex_deadlock_detection (cfg : TN_Config) (k : TN_Kernel)
    (t mid timeout fuel n h : Nat)
    (hdd : cfg.mutex_deadlock_detect = true)
    (hid : (k.mutexes mid).id_mutex = true)
    (hh : (k.mutexes mid).holder = some h) (hht : h ≠ t) (ht0 : timeout ≠ 0)
    (hcyc : mutex_wait_chain (lock_enqueue k t mid) mid (n + 1) = some mid)
    (hn : n < fuel) :
    (tn_mutex_lock cfg k t mid timeout fuel).1 =
      TN_LockOutcome.ret TN_RCode.TN_RC_DEADLOCK ∧
    (tn_mutex_lock cfg k t mid timeout fuel).2.tasks = k.tasks ∧
    (∀ x, ((tn_mutex_lock cfg k t mid timeout fuel).2.mutexes x).wait_queue =
      (k.mutexes x).wait_queue) ∧
    (∀ x, ((tn_mutex_lock cfg k t mid timeout fuel).2.mutexes x).holder =
      (k.mutexes x).holder) ∧
    ∃ ms, find_deadlock_cycle (lock_enqueue k t mid) mid mid [] fuel =
        DeadlockRes.cycle ms ∧ mid ∈ ms ∧
      ∀ m ∈ ms, ∀ m2 ∈ ms, m2 ≠ m →
        m2 ∈ (((tn_mutex_lock cfg k t mid timeout fuel).2).mutexes m).deadlock_list := by
  obtain ⟨ms, hfind⟩ :=
    find_cycle_of_chain (lock_enqueue k t mid) mid n mid [] fuel hcyc hn
  have hred : tn_mutex_lock cfg k t mid timeout fuel =
      (TN_LockOutcome.ret TN_RCode.TN_RC_DEADLOCK, link_deadlock_lists k ms ms) := by
    simp [tn_mutex_lock, hid, hh, hht, ht0, hdd, hfind]
  obtain ⟨htasks, _, _, hfields⟩ := link_deadlock_lists_fields ms k ms
  refine ⟨by rw [hred], by rw [hred]; exact htasks, ?_, ?_, ms, hfind, ?_, ?_⟩
  · intro x
    rw [hred]
    exact (hfields x).2.2.2.2.2
  · intro x
    rw [hred]
    exact (hfields x).1
  · exact find_cycle_mem (lock_enqueue k t mid) mid fuel mid [] ms hfind mid (Or.inr rfl)
  · intro m hm m2 hm2 hne
    rw [hred]
    have hdl := link_deadlock_lists_mem ms k ms m hm
    simp only [hdl, List.mem_filter]
    exact ⟨hm2, by simpa using hne⟩

/-- A kernel realizing the canonical deadlock scenario: task 0 holds mutex 0 and
waits for mutex 1; task 1 holds mutex 1 and is about to lock mutex 0. -/
def K5 : TN_Kernel :=
  ⟨2, 2,
    fun t => if t = 0 then ⟨5, 5, some 1, none, [0]⟩ else ⟨6, 6, none, none, [1]⟩,
    fun m =>
      if m = 0 then ⟨[1], [], TN_MutexProtocol.TN_MUTEX_PROT_INHERIT, some 0, 0, 1, true⟩
      else ⟨[0], [], TN_MutexProtocol.TN_MUTEX_PROT_INHERIT, some 1, 0, 1, true⟩⟩

/-- Witness for claim C5 at a concrete state: in `K5`, task 1's attempt to lock
mutex 0 (which would close the cycle mutex 0 → mutex 1 → mutex 0) fails with
`TN_RC_DEADLOCK` leaving tasks and wait queues unchanged. -/
theorem mutex_deadlock_detection_witness :
    (tn_mutex_lock ⟨true, true⟩ K5 1 0 10 7).1 =
      TN_LockOutcome.ret TN_RCode.TN_RC_DEADLOCK ∧
    (tn_mutex_lock ⟨true, true⟩ K5 1 0 10 7).2.tasks = K5.tasks ∧
    ((tn_mutex_lock ⟨true, true⟩ K5 1 0 10 7).2.mutexes 0).wait_queue =
      (K5.mutexes 0).wait_queue :=
  ⟨(mutex_deadlock_detection ⟨true, true⟩ K5 1 0 10 7 1 0 rfl (by decide) (by decide)
      (by decide) (by decide) (by decide) (by decide)).1,
   (mutex_deadlock_detection ⟨true, true⟩ K5 1 0 10 7 1 0 rfl (by decide) (by decide)
      (by decide) (by decide) (by decide) (by decide)).2.1,
   (mutex_deadlock_detection ⟨true, true⟩ K5 1 0 10 7 1 0 rfl (by decide) (by decide)
      (by decide) (by decide) (by decide) (by decide)).2.2.1 0⟩

/-! ## Well-formedness preservation: priority change -/

theorem task_set_priority_task_wait (k : TN_Kernel) (h p x : Nat) :
    ((task_set_priority k h p).tasks x).task_wait = (k.tasks x).task_wait := by
  by_cases hx : x = h
  · subst hx
    rw [task_set_priority_tasks_self]
  · rw [task_set_priority_tasks_ne _ _ _ _ hx]

theorem task_set_priority_mutex_queue (k : TN_Kernel) (h p x : Nat) :
    ((task_set_priority k h p).tasks x).mutex_queue = (k.tasks x).mutex_queue := by
  by_cases hx : x = h
  · subst hx
    rw [task_set_priority_tasks_self]
  · rw [task_set_priority_tasks_ne _ _ _ _ hx]

theorem task_set_priority_base_priority (k : TN_Kernel) (h p x : Nat) :
    ((task_set_priority k h p).tasks x).base_priority = (k.tasks x).base_priority := by
  by_cases hx : x = h
  · subst hx
    rw [task_set_priority_tasks_self]
  · rw [task_set_priority_tasks_ne _ _ _ _ hx]

theorem task_set_priority_priority (k : TN_Kernel) (h p x : Nat) :
    ((task_set_priority k h p).tasks x).priority =
      if x = h then p else (k.tasks x).priority := by
  by_cases hx : x = h
  · subst hx
    rw [task_set_priority_tasks_self, if_pos rfl]
  · rw [task_set_priority_tasks_ne _ _ _ _ hx, if_neg hx]


theorem task_set_priority_wait_queue_blocked (k : TN_Kernel) (h p mid2 : Nat)
    (hw : (k.tasks h).task_wait = some mid2) :
    ((task_set_priority k h p).mutexes mid2).wait_queue =
      wait_queue_insert (fun w => if w = h then p else (k.tasks w).priority) h
        (((k.mutexes mid2).wait_queue).erase h) := by
  unfold task_set_priority
  rw [hw]
  simp only [setMutex_mutexes_eq]
  have hfun : (fun w => ((setTask k h { k.tasks h with priority := p }).tasks w).priority) =
      (fun w => if w = h then p else (k.tasks w).priority) := by
    funext w
    rw [setTask_tasks]
    by_cases hx : w = h
    · rw [if_pos hx, if_pos hx]
    · rw [if_neg hx, if_neg hx]
  rw [hfun]
  rfl

theorem task_set_priority_mutexes_blocked_ne (k : TN_Kernel) (h p mid2 x : Nat)
    (hw : (k.tasks h).task_wait = some mid2) (hx : x ≠ mid2) :
    (task_set_priority k h p).mutexes x = k.mutexes x := by
  unfold task_set_priority
  rw [hw]
  simp only []
  rw [setMutex_mutexes_ne _ _ _ _ hx]
  rfl

theorem task_set_priority_WF (k : TN_Kernel) (h p : Nat) (hwf : WF k) (hh : h < k.ntasks) :
    WF (task_set_priority k h p) := by
  obtain ⟨hTW, hQC, hND, hQS, hHC, hHeC, hHeN, hNHE⟩ := hwf
  have F1 : (task_set_priority k h p).ntasks = k.ntasks := task_set_priority_ntasks k h p
  have F2 : (task_set_priority k h p).nmutexes = k.nmutexes := task_set_priority_nmutexes k h p
  have F3 : ∀ x, ((task_set_priority k h p).tasks x).task_wait = (k.tasks x).task_wait :=
    task_set_priority_task_wait k h p
  have F4 : ∀ x, ((task_set_priority k h p).tasks x).mutex_queue = (k.tasks x).mutex_queue :=
    task_set_priority_mutex_queue k h p
  have F5 : ∀ x, ((task_set_priority k h p).tasks x).priority =
      if x = h then p else (k.tasks x).priority := task_set_priority_priority k h p
  have FH : ∀ x, ((task_set_priority k h p).mutexes x).holder = (k.mutexes x).holder ∧
      ((task_set_priority k h p).mutexes x).id_mutex = (k.mutexes x).id_mutex :=
    fun x => ⟨(task_set_priority_mutex_fields k h p x).1,
      (task_set_priority_mutex_fields k h p x).2.2.1⟩
  cases hw : (k.tasks h).task_wait with
  | none =>
      have hnh : ∀ x mid, mid < k.nmutexes → (k.mutexes mid).id_mutex = true →
          x ∈ (k.mutexes mid).wait_queue → x ≠ h := by
        intro x mid hmid hvalid hx he
        subst he
        have := (hQC mid hmid hvalid x hx).2
        rw [hw] at this
        cases this
      have FQ : ∀ x, (task_set_priority k h p).mutexes x = k.mutexes x := by
        intro x
        rw [task_set_priority_mutexes_unblocked k h p hw]
      refine ⟨?_, ?_, ?_, ?_, ?_, ?_, ?_, ?_⟩
      · intro w hwlt mid hwm
        rw [F3] at hwm
        obtain ⟨a1, a2, a3, a4⟩ := hTW w (F1 ▸ hwlt) mid hwm
        rw [F2, FQ]
        exact ⟨a1, a2, a3, a4⟩
      · intro mid hmid hvalid w hwq
        rw [FQ] at hvalid hwq
        rw [F2] at hmid
        obtain ⟨a1, a2⟩ := hQC mid hmid hvalid w hwq
        rw [F1, F3]
        exact ⟨a1, a2⟩
      · intro mid hmid hvalid
        rw [FQ] at hvalid ⊢
        exact hND mid (F2 ▸ hmid) hvalid
      · intro mid hmid hvalid
        rw [FQ] at hvalid ⊢
        refine pairwise_pr_congr _ _ _ ?_ (hQS mid (F2 ▸ hmid) hvalid)
        intro x hx
        rw [F5, if_neg (hnh x mid (F2 ▸ hmid) hvalid hx)]
      · intro mid hmid hvalid h2 hhold
        rw [FQ] at hvalid hhold
        obtain ⟨a1, a2⟩ := hHC mid (F2 ▸ hmid) hvalid h2 hhold
        rw [F1, F4]
        exact ⟨a1, a2⟩
      · intro t htlt mid hmm
        rw [F4] at hmm
        obtain ⟨a1, a2, a3⟩ := hHeC t (F1 ▸ htlt) mid hmm
        rw [F2, FQ]
        exact ⟨a1, a2, a3⟩
      · intro t htlt
        rw [F4]
        exact hHeN t (F1 ▸ htlt)
      · intro mid hmid hvalid hhold
        rw [FQ] at hvalid hhold ⊢
        exact hNHE mid (F2 ▸ hmid) hvalid hhold
  | some mid2 =>
      obtain ⟨hm2lt, hm2v, hm2q, hm2h⟩ := hTW h hh mid2 hw
      have hq : ((k.mutexes mid2).wait_queue).Nodup := hND mid2 hm2lt hm2v
      have FQne : ∀ x, x ≠ mid2 → (task_set_priority k h p).mutexes x = k.mutexes x :=
        fun x hx => task_set_priority_mutexes_blocked_ne k h p mid2 x hw hx
      have FQ2 : ((task_set_priority k h p).mutexes mid2).wait_queue =
          wait_queue_insert (fun w => if w = h then p else (k.tasks w).priority) h
            (((k.mutexes mid2).wait_queue).erase h) :=
        task_set_priority_wait_queue_blocked k h p mid2 hw
      have hmem : ∀ x, x ∈ ((task_set_priority k h p).mutexes mid2).wait_queue ↔
          x ∈ (k.mutexes mid2).wait_queue := by
        intro x
        rw [FQ2, mem_wait_queue_insert]
        constructor
        · rintro (rfl | hx)
          · exact hm2q
          · exact List.mem_of_mem_erase hx
        · intro hx
          by_cases hxh : x = h
          · exact Or.inl hxh
          · exact Or.inr ((List.mem_erase_of_ne hxh).mpr hx)
      have hq_ne_h : ∀ x mid, mid < k.nmutexes → (k.mutexes mid).id_mutex = true →
          mid ≠ mid2 → x ∈ (k.mutexes mid).wait_queue → x ≠ h := by
        intro x mid hmid hvalid hne hx he
        subst he
        have := (hQC mid hmid hvalid x hx).2
        rw [hw] at this
        exact hne (Option.some.inj this).symm
      refine ⟨?_, ?_, ?_, ?_, ?_, ?_, ?_, ?_⟩
      · intro w hwlt mid hwm
        rw [F3] at hwm
        obtain ⟨a1, a2, a3, a4⟩ := hTW w (F1 ▸ hwlt) mid hwm
        refine ⟨F2 ▸ a1, ?_, ?_, ?_⟩
        · rw [(FH mid).2]
          exact a2
        · by_cases hmm : mid = mid2
          · subst hmm
            exact (hmem w).mpr a3
          · rw [FQne mid hmm]
            exact a3
        · rw [(FH mid).1]
          exact a4
      · intro mid hmid hvalid w hwq
        rw [F2] at hmid
        rw [(FH mid).2] at hvalid
        have hwq2 : w ∈ (k.mutexes mid).wait_queue := by
          by_cases hmm : mid = mid2
          · subst hmm
            exact (hmem w).mp hwq
          · rw [FQne mid hmm] at hwq
            exact hwq
        obtain ⟨a1, a2⟩ := hQC mid hmid hvalid w hwq2
        rw [F1, F3]
        exact ⟨a1, a2⟩
      · intro mid hmid hvalid
        by_cases hmm : mid = mid2
        · subst hmm
          rw [FQ2]
          refine wait_queue_insert_nodup _ _ _ ?_ (hq.erase h)
          intro hmem2
          exact absurd (hq.mem_erase_iff.mp hmem2).1 (fun he => he rfl)
        · rw [FQne mid hmm] at hvalid ⊢
          exact hND mid (F2 ▸ hmid) hvalid
      · intro mid hmid hvalid
        by_cases hmm : mid = mid2
        · subst hmm
          rw [FQ2]
          have hbase : List.Pairwise
              (fun a b => (if a = h then p else (k.tasks a).priority) ≤
                (if b = h then p else (k.tasks b).priority))
              (((k.mutexes mid).wait_queue).erase h) := by
            refine pairwise_pr_congr _ _ _ ?_
              ((hQS mid hm2lt hm2v).sublist (List.erase_sublist h _))
            intro x hx
            rw [if_neg (hq.mem_erase_iff.mp hx).1]
          have hins := wait_queue_insert_sorted
            (fun w => if w = h then p else (k.tasks w).priority) h
            (((k.mutexes mid).wait_queue).erase h) hbase
          refine pairwise_pr_congr _ _ _ ?_ hins
          intro x hx
          rw [F5]
        · rw [FQne mid hmm] at hvalid ⊢
          refine pairwise_pr_congr _ _ _ ?_ (hQS mid (F2 ▸ hmid) hvalid)
          intro x hx
          rw [F5, if_neg (hq_ne_h x mid (F2 ▸ hmid) hvalid hmm hx)]
      · intro mid hmid hvalid h2 hhold
        rw [F2] at hmid
        rw [(FH mid).2] at hvalid
        rw [(FH mid).1] at hhold
        obtain ⟨a1, a2⟩ := hHC mid hmid hvalid h2 hhold
        rw [F1, F4]
        exact ⟨a1, a2⟩
      · intro t htlt mid hmm
        rw [F4] at hmm
        obtain ⟨a1, a2, a3⟩ := hHeC t (F1 ▸ htlt) mid hmm
        refine ⟨F2 ▸ a1, ?_, ?_⟩
        · rw [(FH mid).2]
          exact a2
        · rw [(FH mid).1]
          exact a3
      · intro t htlt
        rw [F4]
        exact hHeN t (F1 ▸ htlt)
      · intro mid hmid hvalid hhold
        rw [(FH mid).1] at hhold
        rw [(FH mid).2] at hvalid
        by_cases hmm : mid = mid2
        · subst hmm
          have hempty := hNHE mid hm2lt hm2v hhold
          rw [hempty] at hm2q
          cases hm2q
        · rw [FQne mid hmm]
          exact hNHE mid (F2 ▸ hmid) hvalid hhold

theorem lock_enqueue_state (k : TN_Kernel) (t mid : Nat) :
    lock_enqueue k t mid =
      setMutex (setTask k t { k.tasks t with task_wait := some mid }) mid
        { k.mutexes mid with
          wait_queue :=
            wait_queue_insert (fun w => (k.tasks w).priority) t
              ((k.mutexes mid).wait_queue) } := by
  unfold lock_enqueue
  simp only []
  have hfun : (fun w => ((setTask k t { k.tasks t with task_wait := some mid }).tasks w).priority)
      = fun w => (k.tasks w).priority := by
    funext w
    rw [setTask_tasks]
    by_cases hx : w = t
    · subst hx
      rw [if_pos rfl]
    · rw [if_neg hx]
  rw [hfun]
  rfl

theorem lock_enqueue_tasks (k : TN_Kernel) (t mid x : Nat) :
    (lock_enqueue k t mid).tasks x =
      (if x = t then { k.tasks t with task_wait := some mid } else k.tasks x) := by
  rw [lock_enqueue_state]
  simp only [setMutex_tasks]
  rw [setTask_tasks]

theorem lock_enqueue_mutexes_ne (k : TN_Kernel) (t mid x : Nat) (hx : x ≠ mid) :
    (lock_enqueue k t mid).mutexes x = k.mutexes x := by
  rw [lock_enqueue_state, setMutex_mutexes_ne _ _ _ _ hx]
  rfl

theorem lock_enqueue_wait_queue (k : TN_Kernel) (t mid : Nat) :
    ((lock_enqueue k t mid).mutexes mid).wait_queue =
      wait_queue_insert (fun w => (k.tasks w).priority) t ((k.mutexes mid).wait_queue) := by
  rw [lock_enqueue_state, setMutex_mutexes_eq]

theorem lock_enqueue_WF (k : TN_Kernel) (t mid h : Nat) (hwf : WF k)
    (ht : t < k.ntasks) (hmid : mid < k.nmutexes) (hid : (k.mutexes mid).id_mutex = true)
    (hh : (k.mutexes mid).holder = some h) (hht : h ≠ t)
    (htw : (k.tasks t).task_wait = none) : WF (lock_enqueue k t mid) := by
  obtain ⟨hTW, hQC, hND, hQS, hHC, hHeC, hHeN, hNHE⟩ := hwf
  have hnotq : ∀ x, x < k.nmutexes → (k.mutexes x).id_mutex = true →
      t ∉ (k.mutexes x).wait_queue := by
    intro x hx hxv hmem
    have := (hQC x hx hxv t hmem).2
    rw [htw] at this
    cases this
  have F3 : ∀ x, ((lock_enqueue k t mid).tasks x).task_wait =
      (if x = t then some mid else (k.tasks x).task_wait) := by
    intro x
    rw [lock_enqueue_tasks]
    by_cases hx : x = t
    · rw [if_pos hx, if_pos hx]
    · rw [if_neg hx, if_neg hx]
  have F4 : ∀ x, ((lock_enqueue k t mid).tasks x).mutex_queue = (k.tasks x).mutex_queue := by
    intro x
    rw [lock_enqueue_tasks]
    by_cases hx : x = t
    · subst hx
      rw [if_pos rfl]
    · rw [if_neg hx]
  have F5 : ∀ x, ((lock_enqueue k t mid).tasks x).priority = (k.tasks x).priority := by
    intro x
    rw [lock_enqueue_tasks]
    by_cases hx : x = t
    · subst hx
      rw [if_pos rfl]
    · rw [if_neg hx]
  have FH : ∀ x, ((lock_enqueue k t mid).mutexes x).holder = (k.mutexes x).holder ∧
      ((lock_enqueue k t mid).mutexes x).id_mutex = (k.mutexes x).id_mutex :=
    fun x => ⟨(lock_enqueue_mutex_fields k t mid x).1,
      (lock_enqueue_mutex_fields k t mid x).2.2.1⟩
  have hmemq : ∀ x, x ∈ ((lock_enqueue k t mid).mutexes mid).wait_queue ↔
      (x = t ∨ x ∈ (k.mutexes mid).wait_queue) := by
    intro x
    rw [lock_enqueue_wait_queue, mem_wait_queue_insert]
  refine ⟨?_, ?_, ?_, ?_, ?_, ?_, ?_, ?_⟩
  · intro w hwlt mid0 hwm
    rw [F3] at hwm
    by_cases hwt : w = t
    · rw [if_pos hwt] at hwm
      obtain rfl := Option.some.inj hwm
      refine ⟨by simpa using hmid, ?_, ?_, ?_⟩
      · rw [(FH mid).2]
        exact hid
      · exact (hmemq w).mpr (Or.inl hwt)
      · rw [(FH mid).1, hh]
        intro hcon
        exact hht ((Option.some.inj hcon).trans hwt)
    · rw [if_neg hwt] at hwm
      obtain ⟨a1, a2, a3, a4⟩ := hTW w (by simpa using hwlt) mid0 hwm
      refine ⟨by simpa using a1, ?_, ?_, ?_⟩
      · rw [(FH mid0).2]
        exact a2
      · by_cases hmm : mid0 = mid
        · subst hmm
          exact (hmemq w).mpr (Or.inr a3)
        · rw [lock_enqueue_mutexes_ne _ _ _ _ hmm]
          exact a3
      · rw [(FH mid0).1]
        exact a4
  · intro mid0 hmid0 hvalid w hwq
    rw [(FH mid0).2] at hvalid
    by_cases hmm : mid0 = mid
    · subst hmm
      rcases (hmemq w).mp hwq with rfl | hw2
      · refine ⟨by simpa using ht, ?_⟩
        rw [F3, if_pos rfl]
      · obtain ⟨a1, a2⟩ := hQC mid0 (by simpa using hmid0) hvalid w hw2
        refine ⟨by simpa using a1, ?_⟩
        have hwnet : ¬ w = t := by
          intro he
          subst he
          exact hnotq mid0 (by simpa using hmid0) hvalid hw2
        rw [F3, if_neg hwnet]
        exact a2
    · rw [lock_enqueue_mutexes_ne _ _ _ _ hmm] at hwq
      obtain ⟨a1, a2⟩ := hQC mid0 (by simpa using hmid0) hvalid w hwq
      refine ⟨by simpa using a1, ?_⟩
      have hwnet : ¬ w = t := by
        intro he
        subst he
        exact hnotq mid0 (by simpa using hmid0) hvalid hwq
      rw [F3, if_neg hwnet]
      exact a2
  · intro mid0 hmid0 hvalid
    by_cases hmm : mid0 = mid
    · subst hmm
      rw [lock_enqueue_wait_queue]
      exact wait_queue_insert_nodup _ _ _ (hnotq mid0 (by simpa using hmid0) hid)
        (hND mid0 (by simpa using hmid0) hid)
    · rw [(FH mid0).2] at hvalid
      rw [lock_enqueue_mutexes_ne _ _ _ _ hmm]
      exact hND mid0 (by simpa using hmid0) hvalid
  · intro mid0 hmid0 hvalid
    by_cases hmm : mid0 = mid
    · subst hmm
      rw [lock_enqueue_wait_queue]
      refine pairwise_pr_congr _ _ _ (fun x hx => (F5 x).symm) ?_
      exact wait_queue_insert_sorted _ _ _ (hQS mid0 (by simpa using hmid0) hid)
    · rw [(FH mid0).2] at hvalid
      rw [lock_enqueue_mutexes_ne _ _ _ _ hmm]
      refine pairwise_pr_congr _ _ _ (fun x hx => (F5 x).symm) ?_
      exact hQS mid0 (by simpa using hmid0) hvalid
  · intro mid0 hmid0 hvalid h2 hhold
    rw [(FH mid0).2] at hvalid
    rw [(FH mid0).1] at hhold
    obtain ⟨a1, a2⟩ := hHC mid0 (by simpa using hmid0) hvalid h2 hhold
    refine ⟨by simpa using a1, ?_⟩
    rw [F4]
    exact a2
  · intro t0 ht0 mid0 hmm
    rw [F4] at hmm
    obtain ⟨a1, a2, a3⟩ := hHeC t0 (by simpa using ht0) mid0 hmm
    refine ⟨by simpa using a1, ?_, ?_⟩
    · rw [(FH mid0).2]
      exact a2
    · rw [(FH mid0).1]
      exact a3
  · intro t0 ht0
    rw [F4]
    exact hHeN t0 (by simpa using ht0)
  · intro mid0 hmid0 hvalid hhold
    rw [(FH mid0).2] at hvalid
    rw [(FH mid0).1] at hhold
    by_cases hmm : mid0 = mid
    · subst hmm
      rw [hh] at hhold
      cases hhold
    · rw [lock_enqueue_mutexes_ne _ _ _ _ hmm]
      exact hNHE mid0 (by simpa using hmid0) hvalid hhold

theorem propagate_priority_succ (k : TN_Kernel) (mid p fuel : Nat) :
    propagate_priority k mid p (fuel + 1) =
      match (k.mutexes mid).holder with
      | none => (k, true)
      | some h =>
          if p < (k.tasks h).priority then
            match (k.tasks h).task_wait with
            | none => (task_set_priority k h p, true)
            | some mid2 => propagate_priority (task_set_priority k h p) mid2 p fuel
          else (k, true) := rfl

theorem propagate_priority_WF (fuel : Nat) :
    ∀ (k : TN_Kernel) (mid p : Nat), WF k → mid < k.nmutexes →
      (k.mutexes mid).id_mutex = true → WF (propagate_priority k mid p fuel).1 := by
  induction fuel with
  | zero => intro k mid p hwf _ _; exact hwf
  | succ fuel ih =>
      intro k mid p hwf hmid hid
      rw [propagate_priority_succ]
      cases hh : (k.mutexes mid).holder with
      | none =>
          simp only [hh]
          exact hwf
      | some h =>
          simp only [hh]
          by_cases hlt : p < (k.tasks h).priority
          · rw [if_pos hlt]
            have hhlt : h < k.ntasks := (hwf.2.2.2.2.1 mid hmid hid h hh).1
            have hwf1 : WF (task_set_priority k h p) := task_set_priority_WF k h p hwf hhlt
            cases hw : (k.tasks h).task_wait with
            | none =>
                simp only [hw]
                exact hwf1
            | some mid2 =>
                simp only [hw]
                obtain ⟨b1, b2, _, _⟩ := hwf.1 h hhlt mid2 hw
                refine ih (task_set_priority k h p) mid2 p hwf1 ?_ ?_
                · simpa using b1
                · rw [(task_set_priority_mutex_fields k h p mid2).2.2.1]
                  exact b2
          · rw [if_neg hlt]
            exact hwf

theorem WF_of_eqFields (k k' : TN_Kernel)
    (h1 : k'.ntasks = k.ntasks) (h2 : k'.nmutexes = k.nmutexes)
    (h3 : ∀ x, k'.tasks x = k.tasks x)
    (h4 : ∀ x, (k'.mutexes x).wait_queue = (k.mutexes x).wait_queue)
    (h5 : ∀ x, (k'.mutexes x).holder = (k.mutexes x).holder)
    (h6 : ∀ x, (k'.mutexes x).id_mutex = (k.mutexes x).id_mutex)
    (hwf : WF k) : WF k' := by
  obtain ⟨hTW, hQC, hND, hQS, hHC, hHeC, hHeN, hNHE⟩ := hwf
  refine ⟨?_, ?_, ?_, ?_, ?_, ?_, ?_, ?_⟩
  · intro w hwlt mid hwm
    rw [h3] at hwm
    obtain ⟨a1, a2, a3, a4⟩ := hTW w (h1 ▸ hwlt) mid hwm
    rw [h2, h4, h5, h6]
    exact ⟨a1, a2, a3, a4⟩
  · intro mid hmid hvalid w hwq
    rw [h6] at hvalid
    rw [h4] at hwq
    obtain ⟨a1, a2⟩ := hQC mid (h2 ▸ hmid) hvalid w hwq
    rw [h1, h3]
    exact ⟨a1, a2⟩
  · intro mid hmid hvalid
    rw [h6] at hvalid
    rw [h4]
    exact hND mid (h2 ▸ hmid) hvalid
  · intro mid hmid hvalid
    rw [h6] at hvalid
    rw [h4]
    refine pairwise_pr_congr _ _ _ (fun x _ => (congrArg TN_Task.priority (h3 x)).symm) ?_
    exact hQS mid (h2 ▸ hmid) hvalid
  · intro mid hmid hvalid hh hhold
    rw [h6] at hvalid
    rw [h5] at hhold
    obtain ⟨a1, a2⟩ := hHC mid (h2 ▸ hmid) hvalid hh hhold
    rw [h1, h3]
    exact ⟨a1, a2⟩
  · intro t htlt mid hmm
    rw [h3] at hmm
    obtain ⟨a1, a2, a3⟩ := hHeC t (h1 ▸ htlt) mid hmm
    rw [h2, h6, h5]
    exact ⟨a1, a2, a3⟩
  · intro t htlt
    rw [h3]
    exact hHeN t (h1 ▸ htlt)
  · intro mid hmid hvalid hhold
    rw [h6] at hvalid
    rw [h5] at hhold
    rw [h4]
    exact hNHE mid (h2 ▸ hmid) hvalid hhold

theorem tn_mutex_create_WF (k : TN_Kernel) (mid : Nat) (prot : TN_MutexProtocol) (cp : Nat)
    (hwf : WF k) : WF (tn_mutex_create k mid prot cp).2 := by
  by_cases hid : (k.mutexes mid).id_mutex = true
  · simpa [tn_mutex_create, hid] using hwf
  · obtain ⟨hTW, hQC, hND, hQS, hHC, hHeC, hHeN, hNHE⟩ := hwf
    simp only [tn_mutex_create, hid, Bool.false_eq_true, if_false]
    have hnm : ∀ x mid0, x < k.ntasks → (k.tasks x).task_wait = some mid0 → mid0 ≠ mid := by
      intro x mid0 hx hw he
      rw [he] at hw
      exact hid (hTW x hx mid hw).2.1
    have hnh : ∀ x mid0, x < k.ntasks → mid0 ∈ (k.tasks x).mutex_queue → mid0 ≠ mid := by
      intro x mid0 hx hm he
      rw [he] at hm
      exact hid (hHeC x hx mid hm).2.1
    refine ⟨?_, ?_, ?_, ?_, ?_, ?_, ?_, ?_⟩
    · intro w hwlt mid0 hwm
      simp only [setMutex_tasks] at hwm
      obtain ⟨a1, a2, a3, a4⟩ := hTW w (by simpa using hwlt) mid0 hwm
      have hne := hnm w mid0 (by simpa using hwlt) hwm
      rw [setMutex_mutexes_ne _ _ _ _ hne]
      exact ⟨by simpa using a1, a2, a3, a4⟩
    · intro mid0 hmid0 hvalid w hwq
      by_cases hmm : mid0 = mid
      · subst hmm
        rw [setMutex_mutexes_eq] at hwq
        cases hwq
      · rw [setMutex_mutexes_ne _ _ _ _ hmm] at hvalid hwq
        obtain ⟨a1, a2⟩ := hQC mid0 (by simpa using hmid0) hvalid w hwq
        exact ⟨by simpa using a1, a2⟩
    · intro mid0 hmid0 hvalid
      by_cases hmm : mid0 = mid
      · subst hmm
        rw [setMutex_mutexes_eq]
        exact List.nodup_nil
      · rw [setMutex_mutexes_ne _ _ _ _ hmm] at hvalid ⊢
        exact hND mid0 (by simpa using hmid0) hvalid
    · intro mid0 hmid0 hvalid
      by_cases hmm : mid0 = mid
      · subst hmm
        rw [setMutex_mutexes_eq]
        exact List.Pairwise.nil
      · rw [setMutex_mutexes_ne _ _ _ _ hmm] at hvalid ⊢
        exact hQS mid0 (by simpa using hmid0) hvalid
    · intro mid0 hmid0 hvalid hh hhold
      by_cases hmm : mid0 = mid
      · subst hmm
        rw [setMutex_mutexes_eq] at hhold
        cases hhold
      · rw [setMutex_mutexes_ne _ _ _ _ hmm] at hvalid hhold
        obtain ⟨a1, a2⟩ := hHC mid0 (by simpa using hmid0) hvalid hh hhold
        exact ⟨by simpa using a1, a2⟩
    · intro t htlt mid0 hmm
      simp only [setMutex_tasks] at hmm
      obtain ⟨a1, a2, a3⟩ := hHeC t (by simpa using htlt) mid0 hmm
      have hne := hnh t mid0 (by simpa using htlt) hmm
      rw [setMutex_mutexes_ne _ _ _ _ hne]
      exact ⟨by simpa using a1, a2, a3⟩
    · intro t htlt
      simp only [setMutex_tasks]
      exact hHeN t (by simpa using htlt)
    · intro mid0 hmid0 hvalid hhold
      by_cases hmm : mid0 = mid
      · subst hmm
        rw [setMutex_mutexes_eq]
      · rw [setMutex_mutexes_ne _ _ _ _ hmm] at hvalid hhold ⊢
        exact hNHE mid0 (by simpa using hmid0) hvalid hhold

theorem tn_task_wait_timeout_WF (k : TN_Kernel) (w : Nat) (hwf : WF k) (hwlt : w < k.ntasks) :
    WF (tn_task_wait_timeout k w) := by
  obtain ⟨hTW, hQC, hND, hQS, hHC, hHeC, hHeN, hNHE⟩ := hwf
  cases hw : (k.tasks w).task_wait with
  | none =>
      have hst : tn_task_wait_timeout k w = k := by
        unfold tn_task_wait_timeout
        rw [hw]
      rw [hst]
      exact ⟨hTW, hQC, hND, hQS, hHC, hHeC, hHeN, hNHE⟩
  | some mid =>
      obtain ⟨hmlt, hmv, hmq, hmh⟩ := hTW w hwlt mid hw
      have hnd := hND mid hmlt hmv
      have hst : tn_task_wait_timeout k w =
          setTask
            (setMutex k mid
              { k.mutexes mid with wait_queue := ((k.mutexes mid).wait_queue).erase w }) w
            { k.tasks w with task_wait := none, wait_rc := some TN_RCode.TN_RC_TIMEOUT } := by
        unfold tn_task_wait_timeout
        rw [hw]
      have G1 : (tn_task_wait_timeout k w).ntasks = k.ntasks := by
        rw [hst]
        rfl
      have G2 : (tn_task_wait_timeout k w).nmutexes = k.nmutexes := by
        rw [hst]
        rfl
      have G3a : ∀ x, x ≠ w → (tn_task_wait_timeout k w).tasks x = k.tasks x := by
        intro x hx
        rw [hst]
        rw [setTask_tasks_ne _ _ _ _ hx]
        rfl
      have G3b : (tn_task_wait_timeout k w).tasks w =
          { k.tasks w with task_wait := none, wait_rc := some TN_RCode.TN_RC_TIMEOUT } := by
        rw [hst, setTask_tasks_eq]
      have G3tw : ∀ x, ((tn_task_wait_timeout k w).tasks x).task_wait =
          (if x = w then none else (k.tasks x).task_wait) := by
        intro x
        by_cases hx : x = w
        · subst hx
          rw [G3b, if_pos rfl]
        · rw [G3a x hx, if_neg hx]
      have G3pr : ∀ x, ((tn_task_wait_timeout k w).tasks x).priority = (k.tasks x).priority := by
        intro x
        by_cases hx : x = w
        · subst hx
          rw [G3b]
        · rw [G3a x hx]
      have G3mq : ∀ x, ((tn_task_wait_timeout k w).tasks x).mutex_queue =
          (k.tasks x).mutex_queue := by
        intro x
        by_cases hx : x = w
        · subst hx
          rw [G3b]
        · rw [G3a x hx]
      have G4a : ∀ x, x ≠ mid → (tn_task_wait_timeout k w).mutexes x = k.mutexes x := by
        intro x hx
        rw [hst]
        simp only [setTask_mutexes]
        rw [setMutex_mutexes_ne _ _ _ _ hx]
      have G4q : ((tn_task_wait_timeout k w).mutexes mid).wait_queue =
          ((k.mutexes mid).wait_queue).erase w := by
        rw [hst]
        simp only [setTask_mutexes]
        rw [setMutex_mutexes_eq]
      have G4f : ((tn_task_wait_timeout k w).mutexes mid).holder = (k.mutexes mid).holder ∧
          ((tn_task_wait_timeout k w).mutexes mid).id_mutex = (k.mutexes mid).id_mutex := by
        rw [hst]
        simp only [setTask_mutexes]
        rw [setMutex_mutexes_eq]
        exact ⟨rfl, rfl⟩
      have GH : ∀ x, ((tn_task_wait_timeout k w).mutexes x).holder = (k.mutexes x).holder ∧
          ((tn_task_wait_timeout k w).mutexes x).id_mutex = (k.mutexes x).id_mutex := by
        intro x
        by_cases hx : x = mid
        · subst hx
          exact G4f
        · rw [G4a x hx]
          exact ⟨rfl, rfl⟩
      refine ⟨?_, ?_, ?_, ?_, ?_, ?_, ?_, ?_⟩
      · intro x hxlt mid0 hxm
        rw [G3tw] at hxm
        by_cases hxw : x = w
        · rw [if_pos hxw] at hxm
          cases hxm
        · rw [if_neg hxw] at hxm
          obtain ⟨a1, a2, a3, a4⟩ := hTW x (G1 ▸ hxlt) mid0 hxm
          refine ⟨G2 ▸ a1, ?_, ?_, ?_⟩
          · rw [(GH mid0).2]
            exact a2
          · by_cases hmm : mid0 = mid
            · subst hmm
              rw [G4q]
              exact (List.mem_erase_of_ne hxw).mpr a3
            · rw [G4a mid0 hmm]
              exact a3
          · rw [(GH mid0).1]
            exact a4
      · intro mid0 hmid0 hvalid x hxq
        rw [(GH mid0).2] at hvalid
        by_cases hmm : mid0 = mid
        · subst hmm
          rw [G4q] at hxq
          have hxw : x ≠ w := by
            intro he
            rw [he] at hxq
            exact absurd (hnd.mem_erase_iff.mp hxq).1 (fun hne => hne rfl)
          have hxq2 : x ∈ (k.mutexes mid0).wait_queue := List.mem_of_mem_erase hxq
          obtain ⟨a1, a2⟩ := hQC mid0 hmlt hmv x hxq2
          refine ⟨G1 ▸ a1, ?_⟩
          rw [G3tw, if_neg hxw]
          exact a2
        · rw [G4a mid0 hmm] at hxq
          obtain ⟨a1, a2⟩ := hQC mid0 (G2 ▸ hmid0) hvalid x hxq
          have hxw : x ≠ w := by
            intro he
            rw [he] at a2
            rw [hw] at a2
            exact hmm (Option.some.inj a2).symm
          refine ⟨G1 ▸ a1, ?_⟩
          rw [G3tw, if_neg hxw]
          exact a2
      · intro mid0 hmid0 hvalid
        rw [(GH mid0).2] at hvalid
        by_cases hmm : mid0 = mid
        · subst hmm
          rw [G4q]
          exact hnd.erase w
        · rw [G4a mid0 hmm]
          exact hND mid0 (G2 ▸ hmid0) hvalid
      · intro mid0 hmid0 hvalid
        rw [(GH mid0).2] at hvalid
        by_cases hmm : mid0 = mid
        · subst hmm
          rw [G4q]
          refine pairwise_pr_congr _ _ _ (fun x _ => (G3pr x).symm) ?_
          exact (hQS mid0 hmlt hmv).sublist (List.erase_sublist w _)
        · rw [G4a mid0 hmm]
          refine pairwise_pr_congr _ _ _ (fun x _ => (G3pr x).symm) ?_
          exact hQS mid0 (G2 ▸ hmid0) hvalid
      · intro mid0 hmid0 hvalid hh hhold
        rw [(GH mid0).2] at hvalid
        rw [(GH mid0).1] at hhold
        obtain ⟨a1, a2⟩ := hHC mid0 (G2 ▸ hmid0) hvalid hh hhold
        refine ⟨G1 ▸ a1, ?_⟩
        rw [G3mq]
        exact a2
      · intro t htlt mid0 hmm
        rw [G3mq] at hmm
        obtain ⟨a1, a2, a3⟩ := hHeC t (G1 ▸ htlt) mid0 hmm
        refine ⟨G2 ▸ a1, ?_, ?_⟩
        · rw [(GH mid0).2]
          exact a2
        · rw [(GH mid0).1]
          exact a3
      · intro t htlt
        rw [G3mq]
        exact hHeN t (G1 ▸ htlt)
      · intro mid0 hmid0 hvalid hhold
        rw [(GH mid0).2] at hvalid
        rw [(GH mid0).1] at hhold
        by_cases hmm : mid0 = mid
        · subst hmm
          have := hNHE mid0 hmlt hmv hhold
          rw [this] at hmq
          cases hmq
        · rw [G4a mid0 hmm]
          exact hNHE mid0 (G2 ▸ hmid0) hvalid hhold

theorem tn_mutex_delete_WF (k : TN_Kernel) (mid : Nat) (hwf : WF k)
    (hmid : mid < k.nmutexes) : WF (tn_mutex_delete k mid).2 := by
  by_cases hid : (k.mutexes mid).id_mutex = true
  swap
  · simpa [tn_mutex_delete, hid] using hwf
  obtain ⟨hTW, hQC, hND, hQS, hHC, hHeC, hHeN, hNHE⟩ := hwf
  have D1 : (tn_mutex_delete k mid).2.ntasks = k.ntasks := by
    cases hh : (k.mutexes mid).holder <;> simp [tn_mutex_delete, hid, hh]
  have D2 : (tn_mutex_delete k mid).2.nmutexes = k.nmutexes := by
    cases hh : (k.mutexes mid).holder <;> simp [tn_mutex_delete, hid, hh]
  have Dtw_mem : ∀ x, x ∈ (k.mutexes mid).wait_queue →
      ((tn_mutex_delete k mid).2.tasks x).task_wait = none := by
    intro x hx
    cases hh : (k.mutexes mid).holder with
    | none =>
        simp only [tn_mutex_delete, hid, if_true, hh]
        simp only [setMutex_tasks]
        exact (wake_all_tasks_mem k _ _ x hx).1
    | some h =>
        simp only [tn_mutex_delete, hid, if_true, hh]
        simp only [setMutex_tasks]
        rw [setTask_tasks]
        by_cases hxh : x = h
        · subst hxh
          rw [if_pos rfl]
          simp only []
          exact (wake_all_tasks_mem k _ _ x hx).1
        · rw [if_neg hxh]
          exact (wake_all_tasks_mem k _ _ x hx).1
  have Dtw_notmem : ∀ x, x ∉ (k.mutexes mid).wait_queue →
      ((tn_mutex_delete k mid).2.tasks x).task_wait = (k.tasks x).task_wait := by
    intro x hx
    cases hh : (k.mutexes mid).holder with
    | none =>
        simp only [tn_mutex_delete, hid, if_true, hh]
        simp only [setMutex_tasks]
        rw [wake_all_tasks_not_mem k _ _ x hx]
    | some h =>
        simp only [tn_mutex_delete, hid, if_true, hh]
        simp only [setMutex_tasks]
        rw [setTask_tasks]
        by_cases hxh : x = h
        · subst hxh
          rw [if_pos rfl]
          simp only []
          rw [wake_all_tasks_not_mem k _ _ x hx]
        · rw [if_neg hxh]
          rw [wake_all_tasks_not_mem k _ _ x hx]
  have Dpr : ∀ x, ((tn_mutex_delete k mid).2.tasks x).priority = (k.tasks x).priority := by
    intro x
    cases hh : (k.mutexes mid).holder with
    | none =>
        simp only [tn_mutex_delete, hid, if_true, hh]
        simp only [setMutex_tasks]
        exact (wake_all_tasks_fields k _ _ x).1
    | some h =>
        simp only [tn_mutex_delete, hid, if_true, hh]
        simp only [setMutex_tasks]
        rw [setTask_tasks]
        by_cases hxh : x = h
        · subst hxh
          rw [if_pos rfl]
          simp only []
          exact (wake_all_tasks_fields k _ _ x).1
        · rw [if_neg hxh]
          exact (wake_all_tasks_fields k _ _ x).1
  have Dmq_none : (k.mutexes mid).holder = none →
      ∀ x, ((tn_mutex_delete k mid).2.tasks x).mutex_queue = (k.tasks x).mutex_queue := by
    intro hh x
    simp only [tn_mutex_delete, hid, if_true, hh]
    simp only [setMutex_tasks]
    exact (wake_all_tasks_fields k _ _ x).2.2
  have Dmq_some : ∀ h, (k.mutexes mid).holder = some h →
      (((tn_mutex_delete k mid).2.tasks h).mutex_queue =
        ((k.tasks h).mutex_queue).erase mid) ∧
      ∀ x, x ≠ h →
        ((tn_mutex_delete k mid).2.tasks x).mutex_queue = (k.tasks x).mutex_queue := by
    intro h hh
    simp only [tn_mutex_delete, hid, if_true, hh]
    simp only [setMutex_tasks]
    constructor
    · rw [setTask_tasks_eq]
      simp only []
      rw [(wake_all_tasks_fields k _ _ h).2.2]
    · intro x hx
      rw [setTask_tasks_ne _ _ _ _ hx]
      exact (wake_all_tasks_fields k _ _ x).2.2
  have Dmut : ∀ x, x ≠ mid → (tn_mutex_delete k mid).2.mutexes x = k.mutexes x := by
    intro x hx
    cases hh : (k.mutexes mid).holder with
    | none =>
        simp only [tn_mutex_delete, hid, if_true, hh]
        rw [setMutex_mutexes_ne _ _ _ _ hx]
        simp
    | some h =>
        simp only [tn_mutex_delete, hid, if_true, hh]
        rw [setMutex_mutexes_ne _ _ _ _ hx]
        simp
  have DmutMid : ((tn_mutex_delete k mid).2.mutexes mid).id_mutex = false ∧
      ((tn_mutex_delete k mid).2.mutexes mid).holder = none ∧
      ((tn_mutex_delete k mid).2.mutexes mid).wait_queue = [] := by
    cases hh : (k.mutexes mid).holder with
    | none =>
        simp only [tn_mutex_delete, hid, if_true, hh]
        rw [setMutex_mutexes_eq]
        exact ⟨rfl, rfl, rfl⟩
    | some h =>
        simp only [tn_mutex_delete, hid, if_true, hh]
        rw [setMutex_mutexes_eq]
        exact ⟨rfl, rfl, rfl⟩
  have hq_ne : ∀ y mid0, mid0 < k.nmutexes → (k.mutexes mid0).id_mutex = true →
      mid0 ≠ mid → y ∈ (k.mutexes mid0).wait_queue → y ∉ (k.mutexes mid).wait_queue := by
    intro y mid0 ha hb hc hy hymem
    have h1 := (hQC mid0 ha hb y hy).2
    have h2 := (hQC mid hmid hid y hymem).2
    rw [h1] at h2
    exact hc (Option.some.inj h2)
  refine ⟨?_, ?_, ?_, ?_, ?_, ?_, ?_, ?_⟩
  · intro x hxlt mid0 hxm
    by_cases hxq : x ∈ (k.mutexes mid).wait_queue
    · rw [Dtw_mem x hxq] at hxm
      cases hxm
    · rw [Dtw_notmem x hxq] at hxm
      obtain ⟨a1, a2, a3, a4⟩ := hTW x (D1 ▸ hxlt) mid0 hxm
      have hne : mid0 ≠ mid := by
        intro he
        rw [he] at a3
        exact hxq a3
      rw [D2, Dmut mid0 hne]
      exact ⟨a1, a2, a3, a4⟩
  · intro mid0 hmid0 hvalid y hy
    have hne : mid0 ≠ mid := by
      intro he
      rw [he, DmutMid.1] at hvalid
      cases hvalid
    rw [Dmut mid0 hne] at hvalid hy
    obtain ⟨a1, a2⟩ := hQC mid0 (D2 ▸ hmid0) hvalid y hy
    refine ⟨D1 ▸ a1, ?_⟩
    rw [Dtw_notmem y (hq_ne y mid0 (D2 ▸ hmid0) hvalid hne hy)]
    exact a2
  · intro mid0 hmid0 hvalid
    have hne : mid0 ≠ mid := by
      intro he
      rw [he, DmutMid.1] at hvalid
      cases hvalid
    rw [Dmut mid0 hne] at hvalid ⊢
    exact hND mid0 (D2 ▸ hmid0) hvalid
  · intro mid0 hmid0 hvalid
    have hne : mid0 ≠ mid := by
      intro he
      rw [he, DmutMid.1] at hvalid
      cases hvalid
    rw [Dmut mid0 hne] at hvalid ⊢
    refine pairwise_pr_congr _ _ _ (fun x _ => (Dpr x).symm) ?_
    exact hQS mid0 (D2 ▸ hmid0) hvalid
  · intro mid0 hmid0 hvalid h0 hhold
    have hne : mid0 ≠ mid := by
      intro he
      rw [he, DmutMid.1] at hvalid
      cases hvalid
    rw [Dmut mid0 hne] at hvalid hhold
    obtain ⟨a1, a2⟩ := hHC mid0 (D2 ▸ hmid0) hvalid h0 hhold
    refine ⟨D1 ▸ a1, ?_⟩
    cases hh : (k.mutexes mid).holder with
    | none =>
        rw [Dmq_none hh]
        exact a2
    | some h =>
        by_cases hh0 : h0 = h
        · subst hh0
          rw [(Dmq_some h0 hh).1]
          exact (List.mem_erase_of_ne hne).mpr a2
        · rw [(Dmq_some h hh).2 h0 hh0]
          exact a2
  · intro t htlt mid0 hmm
    cases hh : (k.mutexes mid).holder with
    | none =>
        rw [Dmq_none hh] at hmm
        obtain ⟨a1, a2, a3⟩ := hHeC t (D1 ▸ htlt) mid0 hmm
        have hne : mid0 ≠ mid := by
          intro he
          rw [he, hh] at a3
          cases a3
        rw [D2, Dmut mid0 hne]
        exact ⟨a1, a2, a3⟩
    | some h =>
        by_cases hth : t = h
        · subst hth
          rw [(Dmq_some t hh).1] at hmm
          have hnd := hHeN t (D1 ▸ htlt)
          obtain ⟨hne, hmem⟩ := hnd.mem_erase_iff.mp hmm
          obtain ⟨a1, a2, a3⟩ := hHeC t (D1 ▸ htlt) mid0 hmem
          rw [D2, Dmut mid0 hne]
          exact ⟨a1, a2, a3⟩
        · rw [(Dmq_some h hh).2 t hth] at hmm
          obtain ⟨a1, a2, a3⟩ := hHeC t (D1 ▸ htlt) mid0 hmm
          have hne : mid0 ≠ mid := by
            intro he
            rw [he, hh] at a3
            exact hth (Option.some.inj a3).symm
          rw [D2, Dmut mid0 hne]
          exact ⟨a1, a2, a3⟩
  · intro t htlt
    cases hh : (k.mutexes mid).holder with
    | none =>
        rw [Dmq_none hh]
        exact hHeN t (D1 ▸ htlt)
    | some h =>
        by_cases hth : t = h
        · subst hth
          rw [(Dmq_some t hh).1]
          exact (hHeN t (D1 ▸ htlt)).erase mid
        · rw [(Dmq_some h hh).2 t hth]
          exact hHeN t (D1 ▸ htlt)
  · intro mid0 hmid0 hvalid hhold
    have hne : mid0 ≠ mid := by
      intro he
      rw [he, DmutMid.1] at hvalid
      cases hvalid
    rw [Dmut mid0 hne] at hvalid hhold ⊢
    exact hNHE mid0 (D2 ▸ hmid0) hvalid hhold

theorem mutex_release_prep_task_wait (k : TN_Kernel) (t mid x : Nat) :
    ((mutex_release_prep k t mid).tasks x).task_wait = (k.tasks x).task_wait := by
  unfold mutex_release_prep
  by_cases hp : (k.mutexes mid).protocol = TN_MutexProtocol.TN_MUTEX_PROT_INHERIT
  · simp only [hp, if_true]
    rw [task_set_priority_task_wait]
    rw [setTask_tasks]
    by_cases hx : x = t
    · subst hx
      rw [if_pos rfl]
    · rw [if_neg hx]
  · simp only [hp, if_false]
    rw [setTask_tasks]
    by_cases hx : x = t
    · subst hx
      rw [if_pos rfl]
    · rw [if_neg hx]

theorem mutex_release_prep_priority_ne (k : TN_Kernel) (t mid x : Nat) (hx : x ≠ t) :
    ((mutex_release_prep k t mid).tasks x).priority = (k.tasks x).priority := by
  rw [mutex_release_prep_tasks_ne _ _ _ _ hx]

theorem mutex_release_prep_mutex_queue_self (k : TN_Kernel) (t mid : Nat) :
    ((mutex_release_prep k t mid).tasks t).mutex_queue =
      ((k.tasks t).mutex_queue).erase mid := by
  unfold mutex_release_prep
  by_cases hp : (k.mutexes mid).protocol = TN_MutexProtocol.TN_MUTEX_PROT_INHERIT
  · simp only [hp, if_true]
    rw [task_set_priority_mutex_queue, setTask_tasks_eq]
  · simp only [hp, if_false]
    rw [setTask_tasks_eq]

theorem tn_mutex_unlock_WF (k : TN_Kernel) (t mid : Nat) (hwf : WF k)
    (htlt : t < k.ntasks) (hmid : mid < k.nmutexes)
    (htw : (k.tasks t).task_wait = none) : WF (tn_mutex_unlock k t mid).2 := by
  by_cases hid : (k.mutexes mid).id_mutex = true
  swap
  · simpa [tn_mutex_unlock, hid] using hwf
  by_cases hold : (k.mutexes mid).holder = some t
  swap
  · simpa [tn_mutex_unlock, hid, hold] using hwf
  by_cases hcnt : 1 < (k.mutexes mid).cnt
  · simp only [tn_mutex_unlock, hid, if_true, hold, hcnt]
    refine WF_of_eqFields k _ rfl rfl (fun x => rfl) ?_ ?_ ?_ hwf
    · intro x
      by_cases hx : x = mid
      · rw [hx, setMutex_mutexes_eq]
      · rw [setMutex_mutexes_ne _ _ _ _ hx]
    · intro x
      by_cases hx : x = mid
      · rw [hx, setMutex_mutexes_eq]
        exact hold.symm
      · rw [setMutex_mutexes_ne _ _ _ _ hx]
    · intro x
      by_cases hx : x = mid
      · rw [hx, setMutex_mutexes_eq]
        exact hid.symm
      · rw [setMutex_mutexes_ne _ _ _ _ hx]
  · obtain ⟨hTW, hQC, hND, hQS, hHC, hHeC, hHeN, hNHE⟩ := hwf
    have Rmut : (mutex_release_prep k t mid).mutexes = k.mutexes :=
      mutex_release_prep_mutexes k t mid htw
    have Rtw : ∀ x, ((mutex_release_prep k t mid).tasks x).task_wait =
        (k.tasks x).task_wait := mutex_release_prep_task_wait k t mid
    have Rtnq : ∀ x, x ≠ t → (mutex_release_prep k t mid).tasks x = k.tasks x :=
      fun x hx => mutex_release_prep_tasks_ne k t mid x hx
    have Rmq : ∀ x, ((mutex_release_prep k t mid).tasks x).mutex_queue =
        (if x = t then ((k.tasks t).mutex_queue).erase mid else (k.tasks x).mutex_queue) := by
      intro x
      by_cases hx : x = t
      · rw [if_pos hx, hx]
        exact mutex_release_prep_mutex_queue_self k t mid
      · rw [if_neg hx, Rtnq x hx]
    have htnq : ∀ mid0, mid0 < k.nmutexes → (k.mutexes mid0).id_mutex = true →
        t ∉ (k.mutexes mid0).wait_queue := by
      intro mid0 ha hb hmem
      have := (hQC mid0 ha hb t hmem).2
      rw [htw] at this
      cases this
    cases hq : (k.mutexes mid).wait_queue with
    | nil =>
        simp only [tn_mutex_unlock, hid, if_true, hold, hcnt, if_false, hq]
        refine ⟨?_, ?_, ?_, ?_, ?_, ?_, ?_, ?_⟩
        · intro x hxlt mid0 hxm
          simp only [setMutex_tasks] at hxm
          rw [Rtw] at hxm
          obtain ⟨a1, a2, a3, a4⟩ := hTW x (by simpa using hxlt) mid0 hxm
          have hne : mid0 ≠ mid := by
            intro he
            rw [he, hq] at a3
            cases a3
          rw [setMutex_mutexes_ne _ _ _ _ hne, Rmut]
          exact ⟨by simpa using a1, a2, a3, a4⟩
        · intro mid0 hmid0 hvalid y hy
          by_cases hne : mid0 = mid
          · subst hne
            rw [setMutex_mutexes_eq] at hy
            cases hy
          · rw [setMutex_mutexes_ne _ _ _ _ hne, Rmut] at hvalid hy
            obtain ⟨a1, a2⟩ := hQC mid0 (by simpa using hmid0) hvalid y hy
            refine ⟨by simpa using a1, ?_⟩
            simp only [setMutex_tasks]
            rw [Rtw]
            exact a2
        · intro mid0 hmid0 hvalid
          by_cases hne : mid0 = mid
          · subst hne
            rw [setMutex_mutexes_eq]
            exact List.nodup_nil
          · rw [setMutex_mutexes_ne _ _ _ _ hne, Rmut] at hvalid ⊢
            exact hND mid0 (by simpa using hmid0) hvalid
        · intro mid0 hmid0 hvalid
          by_cases hne : mid0 = mid
          · subst hne
            rw [setMutex_mutexes_eq]
            exact List.Pairwise.nil
          · rw [setMutex_mutexes_ne _ _ _ _ hne, Rmut] at hvalid ⊢
            refine pairwise_pr_congr _ _ _ ?_ (hQS mid0 (by simpa using hmid0) hvalid)
            intro x hx
            simp only [setMutex_tasks]
            have hxt : x ≠ t := fun he =>
              htnq mid0 (by simpa using hmid0) hvalid (he ▸ hx)
            rw [Rtnq x hxt]
        · intro mid0 hmid0 hvalid h0 hhold
          by_cases hne : mid0 = mid
          · subst hne
            rw [setMutex_mutexes_eq] at hhold
            cases hhold
          · rw [setMutex_mutexes_ne _ _ _ _ hne, Rmut] at hvalid hhold
            obtain ⟨a1, a2⟩ := hHC mid0 (by simpa using hmid0) hvalid h0 hhold
            refine ⟨by simpa using a1, ?_⟩
            simp only [setMutex_tasks]
            rw [Rmq]
            by_cases hht : h0 = t
            · rw [if_pos hht]
              subst hht
              exact (List.mem_erase_of_ne hne).mpr a2
            · rw [if_neg hht]
              exact a2
        · intro x hxlt mid0 hmm
          simp only [setMutex_tasks] at hmm
          rw [Rmq] at hmm
          by_cases hxt : x = t
          · rw [if_pos hxt] at hmm
            have hnd := hHeN t htlt
            obtain ⟨hne, hmem⟩ := hnd.mem_erase_iff.mp hmm
            obtain ⟨a1, a2, a3⟩ := hHeC t htlt mid0 hmem
            rw [setMutex_mutexes_ne _ _ _ _ hne, Rmut]
            rw [hxt]
            exact ⟨by simpa using a1, a2, a3⟩
          · rw [if_neg hxt] at hmm
            obtain ⟨a1, a2, a3⟩ := hHeC x (by simpa using hxlt) mid0 hmm
            have hne : mid0 ≠ mid := by
              intro he
              rw [he, hold] at a3
              exact hxt (Option.some.inj a3).symm
            rw [setMutex_mutexes_ne _ _ _ _ hne, Rmut]
            exact ⟨by simpa using a1, a2, a3⟩
        · intro x hxlt
          simp only [setMutex_tasks]
          rw [Rmq]
          by_cases hxt : x = t
          · rw [if_pos hxt]
            exact (hHeN t htlt).erase mid
          · rw [if_neg hxt]
            exact hHeN x (by simpa using hxlt)
        · intro mid0 hmid0 hvalid hhold
          by_cases hne : mid0 = mid
          · subst hne
            rw [setMutex_mutexes_eq]
          · rw [setMutex_mutexes_ne _ _ _ _ hne, Rmut] at hvalid hhold ⊢
            exact hNHE mid0 (by simpa using hmid0) hvalid hhold
    | cons w rest =>
        have hwq : w ∈ (k.mutexes mid).wait_queue := by
          rw [hq]
          exact List.mem_cons_self _ _
        obtain ⟨hwlt, hww⟩ := hQC mid hmid hid w hwq
        have hwt : w ≠ t := by
          intro he
          rw [he, htw] at hww
          cases hww
        have hndq := hND mid hmid hid
        rw [hq] at hndq
        obtain ⟨hwnr, hndr⟩ := List.nodup_cons.mp hndq
        simp only [tn_mutex_unlock, hid, if_true, hold, hcnt, if_false, hq]
        set km := setMutex (mutex_release_prep k t mid) mid
          { (mutex_release_prep k t mid).mutexes mid with
            holder := some w, cnt := 1, wait_queue := rest } with hkm
        have hkm_nt : km.ntasks = k.ntasks := by
          rw [hkm]
          simp
        have hkm_nm : km.nmutexes = k.nmutexes := by
          rw [hkm]
          simp
        have hkm_mut_ne : ∀ x, x ≠ mid → km.mutexes x = k.mutexes x := by
          intro x hx
          rw [hkm, setMutex_mutexes_ne _ _ _ _ hx, Rmut]
        have hkm_mid : (km.mutexes mid).holder = some w ∧ (km.mutexes mid).wait_queue = rest ∧
            (km.mutexes mid).id_mutex = true := by
          rw [hkm, setMutex_mutexes_eq]
          refine ⟨rfl, rfl, ?_⟩
          simp only []
          rw [Rmut]
          exact hid
        have hfin_tasks : ∀ x, x ≠ w →
            (setTask km w
              { km.tasks w with
                task_wait := none, wait_rc := some TN_RCode.TN_RC_OK,
                mutex_queue := mid :: (km.tasks w).mutex_queue }).tasks x =
              (mutex_release_prep k t mid).tasks x := by
          intro x hx
          rw [setTask_tasks_ne _ _ _ _ hx, hkm]
          rfl
        have hfin_w : ((setTask km w
            { km.tasks w with
              task_wait := none, wait_rc := some TN_RCode.TN_RC_OK,
              mutex_queue := mid :: (km.tasks w).mutex_queue }).tasks w).task_wait = none ∧
            ((setTask km w
              { km.tasks w with
                task_wait := none, wait_rc := some TN_RCode.TN_RC_OK,
                mutex_queue := mid :: (km.tasks w).mutex_queue }).tasks w).mutex_queue =
              mid :: (k.tasks w).mutex_queue ∧
            ((setTask km w
              { km.tasks w with
                task_wait := none, wait_rc := some TN_RCode.TN_RC_OK,
                mutex_queue := mid :: (km.tasks w).mutex_queue }).tasks w).priority =
              (k.tasks w).priority := by
          rw [setTask_tasks_eq]
          refine ⟨rfl, ?_, ?_⟩
          · simp only [hkm, setMutex_tasks]
            rw [Rtnq w hwt]
          · simp only [hkm, setMutex_tasks]
            rw [Rtnq w hwt]
        have hfin_mut_ne : ∀ x, x ≠ mid →
            (setTask km w
              { km.tasks w with
                task_wait := none, wait_rc := some TN_RCode.TN_RC_OK,
                mutex_queue := mid :: (km.tasks w).mutex_queue }).mutexes x = k.mutexes x := by
          intro x hx
          simp only [setTask_mutexes]
          exact hkm_mut_ne x hx
        have hfin_mut_mid :
            ((setTask km w
              { km.tasks w with
                task_wait := none, wait_rc := some TN_RCode.TN_RC_OK,
                mutex_queue := mid :: (km.tasks w).mutex_queue }).mutexes mid).holder = some w ∧
            ((setTask km w
              { km.tasks w with
                task_wait := none, wait_rc := some TN_RCode.TN_RC_OK,
                mutex_queue := mid :: (km.tasks w).mutex_queue }).mutexes mid).wait_queue = rest ∧
            ((setTask km w
              { km.tasks w with
                task_wait := none, wait_rc := some TN_RCode.TN_RC_OK,
                mutex_queue := mid :: (km.tasks w).mutex_queue }).mutexes mid).id_mutex = true := by
          simp only [setTask_mutexes]
          exact hkm_mid
        have hfin_tw : ∀ x, x ≠ w →
            ((setTask km w
              { km.tasks w with
                task_wait := none, wait_rc := some TN_RCode.TN_RC_OK,
                mutex_queue := mid :: (km.tasks w).mutex_queue }).tasks x).task_wait =
              (k.tasks x).task_wait := by
          intro x hx
          rw [hfin_tasks x hx, Rtw]
        have hfin_pr : ∀ x, x ≠ w → x ≠ t →
            ((setTask km w
              { km.tasks w with
                task_wait := none, wait_rc := some TN_RCode.TN_RC_OK,
                mutex_queue := mid :: (km.tasks w).mutex_queue }).tasks x).priority =
              (k.tasks x).priority := by
          intro x hxw hxt
          rw [hfin_tasks x hxw, Rtnq x hxt]
        have hfin_mq : ∀ x, x ≠ w →
            ((setTask km w
              { km.tasks w with
                task_wait := none, wait_rc := some TN_RCode.TN_RC_OK,
                mutex_queue := mid :: (km.tasks w).mutex_queue }).tasks x).mutex_queue =
              (if x = t then ((k.tasks t).mutex_queue).erase mid
               else (k.tasks x).mutex_queue) := by
          intro x hx
          rw [hfin_tasks x hx, Rmq]
        refine ⟨?_, ?_, ?_, ?_, ?_, ?_, ?_, ?_⟩
        · intro x hxlt mid0 hxm
          by_cases hxw : x = w
          · rw [hxw, hfin_w.1] at hxm
            cases hxm
          · rw [hfin_tw x hxw] at hxm
            obtain ⟨a1, a2, a3, a4⟩ := hTW x (by simpa [hkm_nt, hkm_nm] using hxlt) mid0 hxm
            by_cases hne : mid0 = mid
            · subst hne
              rw [hq] at a3
              have hxr : x ∈ rest := by
                rcases List.mem_cons.mp a3 with he | hr
                · exact absurd he hxw
                · exact hr
              refine ⟨by simpa [hkm_nt, hkm_nm] using hmid, hfin_mut_mid.2.2, ?_, ?_⟩
              · rw [hfin_mut_mid.2.1]
                exact hxr
              · rw [hfin_mut_mid.1]
                intro hcon
                exact hxw (Option.some.inj hcon).symm
            · rw [hfin_mut_ne mid0 hne]
              exact ⟨by simpa [hkm_nt, hkm_nm] using a1, a2, a3, a4⟩
        · intro mid0 hmid0 hvalid y hy
          by_cases hne : mid0 = mid
          · subst hne
            rw [hfin_mut_mid.2.1] at hy
            have hyq : y ∈ (k.mutexes mid0).wait_queue := by
              rw [hq]
              exact List.mem_cons_of_mem _ hy
            obtain ⟨a1, a2⟩ := hQC mid0 hmid hid y hyq
            have hyw : y ≠ w := fun he => hwnr (he ▸ hy)
            refine ⟨by simpa [hkm_nt, hkm_nm] using a1, ?_⟩
            rw [hfin_tw y hyw]
            exact a2
          · rw [hfin_mut_ne mid0 hne] at hy
            have hvalid2 : (k.mutexes mid0).id_mutex = true := by
              rw [hfin_mut_ne mid0 hne] at hvalid
              exact hvalid
            obtain ⟨a1, a2⟩ := hQC mid0 (by simpa [hkm_nt, hkm_nm] using hmid0) hvalid2 y hy
            have hyw : y ≠ w := by
              intro he
              rw [he, hww] at a2
              exact hne (Option.some.inj a2).symm
            refine ⟨by simpa [hkm_nt, hkm_nm] using a1, ?_⟩
            rw [hfin_tw y hyw]
            exact a2
        · intro mid0 hmid0 hvalid
          by_cases hne : mid0 = mid
          · subst hne
            rw [hfin_mut_mid.2.1]
            exact hndr
          · rw [hfin_mut_ne mid0 hne] at hvalid ⊢
            exact hND mid0 (by simpa [hkm_nt, hkm_nm] using hmid0) hvalid
        · intro mid0 hmid0 hvalid
          by_cases hne : mid0 = mid
          · subst hne
            rw [hfin_mut_mid.2.1]
            have hsr : List.Pairwise
                (fun a b => (k.tasks a).priority ≤ (k.tasks b).priority) rest := by
              have := hQS mid0 hmid hid
              rw [hq] at this
              exact (List.pairwise_cons.mp this).2
            refine pairwise_pr_congr _ _ _ ?_ hsr
            intro x hx
            have hxw : x ≠ w := fun he => hwnr (he ▸ hx)
            have hxt : x ≠ t := by
              intro he
              refine htnq mid0 hmid hid ?_
              rw [hq]
              exact List.mem_cons_of_mem _ (he ▸ hx)
            exact (hfin_pr x hxw hxt).symm
          · rw [hfin_mut_ne mid0 hne] at hvalid ⊢
            refine pairwise_pr_congr _ _ _ ?_ (hQS mid0 (by simpa [hkm_nt, hkm_nm] using hmid0) hvalid)
            intro x hx
            have hxt : x ≠ t := fun he =>
              htnq mid0 (by simpa [hkm_nt, hkm_nm] using hmid0) hvalid (he ▸ hx)
            have hxw : x ≠ w := by
              intro he
              have := (hQC mid0 (by simpa [hkm_nt, hkm_nm] using hmid0) hvalid x hx).2
              rw [he, hww] at this
              exact hne (Option.some.inj this).symm
            exact (hfin_pr x hxw hxt).symm
        · intro mid0 hmid0 hvalid h0 hhold
          by_cases hne : mid0 = mid
          · subst hne
            rw [hfin_mut_mid.1] at hhold
            obtain rfl := Option.some.inj hhold
            refine ⟨by simpa [hkm_nt, hkm_nm] using hwlt, ?_⟩
            rw [hfin_w.2.1]
            exact List.mem_cons_self _ _
          · rw [hfin_mut_ne mid0 hne] at hvalid hhold
            obtain ⟨a1, a2⟩ := hHC mid0 (by simpa [hkm_nt, hkm_nm] using hmid0) hvalid h0 hhold
            refine ⟨by simpa [hkm_nt, hkm_nm] using a1, ?_⟩
            by_cases hh0w : h0 = w
            · subst hh0w
              rw [hfin_w.2.1]
              exact List.mem_cons_of_mem _ a2
            · rw [hfin_mq h0 hh0w]
              by_cases hh0t : h0 = t
              · rw [if_pos hh0t]
                subst hh0t
                exact (List.mem_erase_of_ne hne).mpr a2
              · rw [if_neg hh0t]
                exact a2
        · intro x hxlt mid0 hmm
          by_cases hxw : x = w
          · subst hxw
            rw [hfin_w.2.1] at hmm
            rcases List.mem_cons.mp hmm with he | hr
            · subst he
              refine ⟨by simpa [hkm_nt, hkm_nm] using hmid, hfin_mut_mid.2.2, hfin_mut_mid.1⟩
            · obtain ⟨a1, a2, a3⟩ := hHeC x hwlt mid0 hr
              have hne : mid0 ≠ mid := by
                intro he
                rw [he, hold] at a3
                exact hwt (Option.some.inj a3).symm
              rw [hfin_mut_ne mid0 hne]
              exact ⟨by simpa [hkm_nt, hkm_nm] using a1, a2, a3⟩
          · rw [hfin_mq x hxw] at hmm
            by_cases hxt : x = t
            · rw [if_pos hxt] at hmm
              have hnd := hHeN t htlt
              obtain ⟨hne, hmem⟩ := hnd.mem_erase_iff.mp hmm
              obtain ⟨a1, a2, a3⟩ := hHeC t htlt mid0 hmem
              rw [hfin_mut_ne mid0 hne, hxt]
              exact ⟨by simpa [hkm_nt, hkm_nm] using a1, a2, a3⟩
            · rw [if_neg hxt] at hmm
              obtain ⟨a1, a2, a3⟩ := hHeC x (by simpa [hkm_nt, hkm_nm] using hxlt) mid0 hmm
              have hne : mid0 ≠ mid := by
                intro he
                rw [he, hold] at a3
                exact hxt (Option.some.inj a3).symm
              rw [hfin_mut_ne mid0 hne]
              exact ⟨by simpa [hkm_nt, hkm_nm] using a1, a2, a3⟩
        · intro x hxlt
          by_cases hxw : x = w
          · subst hxw
            rw [hfin_w.2.1]
            refine List.nodup_cons.mpr ⟨?_, hHeN x hwlt⟩
            intro hmem
            have := (hHeC x hwlt mid hmem).2.2
            rw [hold] at this
            exact hwt (Option.some.inj this).symm
          · rw [hfin_mq x hxw]
            by_cases hxt : x = t
            · rw [if_pos hxt]
              exact (hHeN t htlt).erase mid
            · rw [if_neg hxt]
              exact hHeN x (by simpa [hkm_nt, hkm_nm] using hxlt)
        · intro mid0 hmid0 hvalid hhold
          by_cases hne : mid0 = mid
          · subst hne
            rw [hfin_mut_mid.1] at hhold
            cases hhold
          · rw [hfin_mut_ne mid0 hne] at hvalid hhold ⊢
            exact hNHE mid0 (by simpa [hkm_nt, hkm_nm] using hmid0) hvalid hhold

theorem tn_mutex_lock_WF (cfg : TN_Config) (k : TN_Kernel) (t mid timeout fuel : Nat)
    (hwf : WF k) (htlt : t < k.ntasks) (hmid : mid < k.nmutexes)
    (htw : (k.tasks t).task_wait = none) :
    WF (tn_mutex_lock cfg k t mid timeout fuel).2 := by
  by_cases hid : (k.mutexes mid).id_mutex = true
  swap
  · simpa [tn_mutex_lock, hid] using hwf
  cases hh : (k.mutexes mid).holder with
  | none =>
      by_cases hc : (k.mutexes mid).protocol = TN_MutexProtocol.TN_MUTEX_PROT_CEILING ∧
          (k.tasks t).priority < (k.mutexes mid).ceil_priority
      · simpa [tn_mutex_lock, hid, hh, hc] using hwf
      · obtain ⟨hTW, hQC, hND, hQS, hHC, hHeC, hHeN, hNHE⟩ := hwf
        have hqe : (k.mutexes mid).wait_queue = [] := hNHE mid hmid hid hh
        have hstate : (tn_mutex_lock cfg k t mid timeout fuel).2 =
            setTask (setMutex k mid { k.mutexes mid with holder := some t, cnt := 1 }) t
              { k.tasks t with mutex_queue := mid :: (k.tasks t).mutex_queue } := by
          simp [tn_mutex_lock, hid, hh, hc]
        rw [hstate]
        have hAmut_ne : ∀ x, x ≠ mid →
            (setTask (setMutex k mid { k.mutexes mid with holder := some t, cnt := 1 }) t
              { k.tasks t with mutex_queue := mid :: (k.tasks t).mutex_queue }).mutexes x =
              k.mutexes x := by
          intro x hx
          simp only [setTask_mutexes]
          rw [setMutex_mutexes_ne _ _ _ _ hx]
        have hAmid : (setTask (setMutex k mid { k.mutexes mid with holder := some t, cnt := 1 }) t
            { k.tasks t with mutex_queue := mid :: (k.tasks t).mutex_queue }).mutexes mid =
            { k.mutexes mid with holder := some t, cnt := 1 } := by
          simp only [setTask_mutexes]
          rw [setMutex_mutexes_eq]
        have hAtasks : ∀ x, (setTask (setMutex k mid
              { k.mutexes mid with holder := some t, cnt := 1 }) t
              { k.tasks t with mutex_queue := mid :: (k.tasks t).mutex_queue }).tasks x =
            (if x = t then { k.tasks t with mutex_queue := mid :: (k.tasks t).mutex_queue }
             else k.tasks x) := by
          intro x
          rw [setTask_tasks]
          by_cases hx : x = t
          · rw [if_pos hx, if_pos hx]
          · rw [if_neg hx, if_neg hx, setMutex_tasks]
        have hAtw : ∀ x, ((setTask (setMutex k mid
              { k.mutexes mid with holder := some t, cnt := 1 }) t
              { k.tasks t with mutex_queue := mid :: (k.tasks t).mutex_queue }).tasks x).task_wait
            = (k.tasks x).task_wait := by
          intro x
          rw [hAtasks]
          by_cases hx : x = t
          · rw [if_pos hx, hx]
          · rw [if_neg hx]
        have hApr : ∀ x, ((setTask (setMutex k mid
              { k.mutexes mid with holder := some t, cnt := 1 }) t
              { k.tasks t with mutex_queue := mid :: (k.tasks t).mutex_queue }).tasks x).priority
            = (k.tasks x).priority := by
          intro x
          rw [hAtasks]
          by_cases hx : x = t
          · rw [if_pos hx, hx]
          · rw [if_neg hx]
        have hAmq : ∀ x, ((setTask (setMutex k mid
              { k.mutexes mid with holder := some t, cnt := 1 }) t
              { k.tasks t with mutex_queue := mid :: (k.tasks t).mutex_queue }).tasks x).mutex_queue
            = (if x = t then mid :: (k.tasks t).mutex_queue else (k.tasks x).mutex_queue) := by
          intro x
          rw [hAtasks]
          by_cases hx : x = t
          · rw [if_pos hx, if_pos hx]
          · rw [if_neg hx, if_neg hx]
        refine ⟨?_, ?_, ?_, ?_, ?_, ?_, ?_, ?_⟩
        · intro x hxlt mid0 hxm
          rw [hAtw] at hxm
          obtain ⟨a1, a2, a3, a4⟩ := hTW x (by simpa using hxlt) mid0 hxm
          have hne : mid0 ≠ mid := by
            intro he
            rw [he, hqe] at a3
            cases a3
          rw [hAmut_ne mid0 hne]
          exact ⟨by simpa using a1, a2, a3, a4⟩
        · intro mid0 hmid0 hvalid y hy
          by_cases hne : mid0 = mid
          · subst hne
            rw [hAmid] at hy
            simp only [] at hy
            rw [hqe] at hy
            cases hy
          · rw [hAmut_ne mid0 hne] at hvalid hy
            obtain ⟨a1, a2⟩ := hQC mid0 (by simpa using hmid0) hvalid y hy
            refine ⟨by simpa using a1, ?_⟩
            rw [hAtw]
            exact a2
        · intro mid0 hmid0 hvalid
          by_cases hne : mid0 = mid
          · subst hne
            rw [hAmid]
            simp only []
            rw [hqe]
            exact List.nodup_nil
          · rw [hAmut_ne mid0 hne] at hvalid ⊢
            exact hND mid0 (by simpa using hmid0) hvalid
        · intro mid0 hmid0 hvalid
          by_cases hne : mid0 = mid
          · subst hne
            rw [hAmid]
            simp only []
            rw [hqe]
            exact List.Pairwise.nil
          · rw [hAmut_ne mid0 hne] at hvalid ⊢
            refine pairwise_pr_congr _ _ _ (fun x _ => (hApr x).symm) ?_
            exact hQS mid0 (by simpa using hmid0) hvalid
        · intro mid0 hmid0 hvalid h0 hhold
          by_cases hne : mid0 = mid
          · subst hne
            rw [hAmid] at hhold
            simp only [] at hhold
            obtain rfl := Option.some.inj hhold
            refine ⟨by simpa using htlt, ?_⟩
            rw [hAmq, if_pos rfl]
            exact List.mem_cons_self _ _
          · rw [hAmut_ne mid0 hne] at hvalid hhold
            obtain ⟨a1, a2⟩ := hHC mid0 (by simpa using hmid0) hvalid h0 hhold
            refine ⟨by simpa using a1, ?_⟩
            rw [hAmq]
            by_cases hht : h0 = t
            · rw [if_pos hht]
              rw [hht] at a2
              exact List.mem_cons_of_mem _ a2
            · rw [if_neg hht]
              exact a2
        · intro x hxlt mid0 hmm
          rw [hAmq] at hmm
          by_cases hxt : x = t
          · rw [if_pos hxt] at hmm
            rcases List.mem_cons.mp hmm with he | hr
            · subst he
              rw [hAmid]
              refine ⟨by simpa using hmid, hid, ?_⟩
              rw [hxt]
            · obtain ⟨a1, a2, a3⟩ := hHeC t htlt mid0 hr
              have hne : mid0 ≠ mid := by
                intro he
                rw [he, hh] at a3
                cases a3
              rw [hAmut_ne mid0 hne, hxt]
              exact ⟨by simpa using a1, a2, a3⟩
          · rw [if_neg hxt] at hmm
            obtain ⟨a1, a2, a3⟩ := hHeC x (by simpa using hxlt) mid0 hmm
            have hne : mid0 ≠ mid := by
              intro he
              rw [he, hh] at a3
              cases a3
            rw [hAmut_ne mid0 hne]
            exact ⟨by simpa using a1, a2, a3⟩
        · intro x hxlt
          rw [hAmq]
          by_cases hxt : x = t
          · rw [if_pos hxt]
            refine List.nodup_cons.mpr ⟨?_, hHeN t htlt⟩
            intro hmem
            have := (hHeC t htlt mid hmem).2.2
            rw [hh] at this
            cases this
          · rw [if_neg hxt]
            exact hHeN x (by simpa using hxlt)
        · intro mid0 hmid0 hvalid hhold
          by_cases hne : mid0 = mid
          · subst hne
            rw [hAmid] at hhold
            cases hhold
          · rw [hAmut_ne mid0 hne] at hvalid hhold ⊢
            exact hNHE mid0 (by simpa using hmid0) hvalid hhold
  | some h =>
      by_cases hht : h = t
      · subst hht
        cases hrec : cfg.mutex_rec
        · simpa [tn_mutex_lock, hid, hh, hrec] using hwf
        · simp only [tn_mutex_lock, hid, if_true, hh, if_pos rfl, hrec]
          refine WF_of_eqFields k _ rfl rfl (fun x => rfl) ?_ ?_ ?_ hwf <;>
            intro x <;> by_cases hx : x = mid
          · rw [hx, setMutex_mutexes_eq]
          · rw [setMutex_mutexes_ne _ _ _ _ hx]
          · rw [hx, setMutex_mutexes_eq]
            exact hh.symm
          · rw [setMutex_mutexes_ne _ _ _ _ hx]
          · rw [hx, setMutex_mutexes_eq]
            exact hid.symm
          · rw [setMutex_mutexes_ne _ _ _ _ hx]
      · by_cases ht0 : timeout = 0
        · simpa [tn_mutex_lock, hid, hh, hht, ht0] using hwf
        · have hwf2 : WF (lock_enqueue k t mid) :=
            lock_enqueue_WF k t mid h hwf htlt hmid hid hh hht htw
          cases hd : (if cfg.mutex_deadlock_detect then
              find_deadlock_cycle (lock_enqueue k t mid) mid mid [] fuel
              else DeadlockRes.nocycle) with
          | cycle ms =>
              simp only [tn_mutex_lock, hid, if_true, hh, hht, ht0, hd]
              obtain ⟨htasks, hnt, hnm, hfields⟩ := link_deadlock_lists_fields ms k ms
              exact WF_of_eqFields k _ hnt hnm (fun x => congrFun htasks x)
                (fun x => (hfields x).2.2.2.2.2) (fun x => (hfields x).1)
                (fun x => (hfields x).2.2.1) hwf
          | nocycle =>
              simp only [tn_mutex_lock, hid, if_true, hh, hht, ht0, hd]
              by_cases hp : (k.mutexes mid).protocol = TN_MutexProtocol.TN_MUTEX_PROT_INHERIT
              · simp only [hp, if_true]
                refine propagate_priority_WF fuel (lock_enqueue k t mid) mid _ hwf2
                  (by simpa using hmid) ?_
                rw [(lock_enqueue_mutex_fields k t mid mid).2.2.1]
                exact hid
              · simpa [hp] using hwf2
          | fuelout =>
              simp only [tn_mutex_lock, hid, if_true, hh, hht, ht0, hd]
              by_cases hp : (k.mutexes mid).protocol = TN_MutexProtocol.TN_MUTEX_PROT_INHERIT
              · simp only [hp, if_true]
                refine propagate_priority_WF fuel (lock_enqueue k t mid) mid _ hwf2
                  (by simpa using hmid) ?_
                rw [(lock_enqueue_mutex_fields k t mid mid).2.2.1]
                exact hid
              · simpa [hp] using hwf2

/-- Claim C3: the wait queue is priority-ordered with FIFO tie-break and the task
receiving ownership on release is always the most urgent currently-queued waiter,
in every interleaving of operations.  Concretely: (1) a new waiter is inserted
after every at-least-as-urgent entry and before every strictly less urgent one
(FIFO among equal priorities); (2)–(5) every operation (lock, unlock, timeout
expiry, delete, create) preserves well-formedness — in particular every wait
queue stays sorted by current priority; (6) a timeout expiry removes its task
leaving the queue a sublist of the old one (relative order of the remaining
waiters, hence FIFO order, is untouched); (7) on a releasing unlock the new
holder is the head waiter, which is at least as urgent as every remaining
queued waiter. -/
theorem mutex_handoff_priority_order :
    (∀ (pr : Nat → Nat) (t : Nat) (q : List Nat), wait_queue_insert pr t q =
        q.takeWhile (fun w => decide (pr w ≤ pr t)) ++
          t :: q.dropWhile (fun w => decide (pr w ≤ pr t))) ∧
    (∀ cfg (k : TN_Kernel) t mid timeout fuel, WF k → t < k.ntasks → mid < k.nmutexes →
        (k.tasks t).task_wait = none → WF (tn_mutex_lock cfg k t mid timeout fuel).2) ∧
    (∀ (k : TN_Kernel) t mid, WF k → t < k.ntasks → mid < k.nmutexes →
        (k.tasks t).task_wait = none → WF (tn_mutex_unlock k t mid).2) ∧
    (∀ (k : TN_Kernel) w, WF k → w < k.ntasks → WF (tn_task_wait_timeout k w)) ∧
    (∀ (k : TN_Kernel) mid, WF k → mid < k.nmutexes → WF (tn_mutex_delete k mid).2) ∧
    (∀ (k : TN_Kernel) mid prot cp, WF k → WF (tn_mutex_create k mid prot cp).2) ∧
    (∀ (k : TN_Kernel) w x, List.Sublist ((tn_task_wait_timeout k w).mutexes x).wait_queue
        ((k.mutexes x).wait_queue)) ∧
    (∀ (k : TN_Kernel) t mid w rest, WF k → mid < k.nmutexes →
        (k.mutexes mid).id_mutex = true → (k.mutexes mid).holder = some t →
        ¬ 1 < (k.mutexes mid).cnt → (k.tasks t).task_wait = none →
        (k.mutexes mid).wait_queue = w :: rest →
        ((tn_mutex_unlock k t mid).2.mutexes mid).holder = some w ∧
        ∀ x ∈ rest, (k.tasks w).priority ≤ (k.tasks x).priority) := by
  refine ⟨wait_queue_insert_eq_append, tn_mutex_lock_WF, tn_mutex_unlock_WF,
    tn_task_wait_timeout_WF, tn_mutex_delete_WF, tn_mutex_create_WF, ?_, ?_⟩
  · intro k w x
    cases hw : (k.tasks w).task_wait with
    | none =>
        have hst : tn_task_wait_timeout k w = k := by
          unfold tn_task_wait_timeout
          rw [hw]
        rw [hst]
    | some mid =>
        have hst : tn_task_wait_timeout k w =
            setTask
              (setMutex k mid
                { k.mutexes mid with wait_queue := ((k.mutexes mid).wait_queue).erase w }) w
              { k.tasks w with task_wait := none, wait_rc := some TN_RCode.TN_RC_TIMEOUT } := by
          unfold tn_task_wait_timeout
          rw [hw]
        rw [hst]
        simp only [setTask_mutexes]
        by_cases hx : x = mid
        · subst hx
          rw [setMutex_mutexes_eq]
          exact List.erase_sublist w _
        · rw [setMutex_mutexes_ne _ _ _ _ hx]
  · intro k t mid w rest hwf hmid hid hold hcnt htw hq
    have hsorted := hwf.2.2.2.1 mid hmid hid
    rw [hq] at hsorted
    refine ⟨?_, (List.pairwise_cons.mp hsorted).1⟩
    simp [tn_mutex_unlock, hid, hold, hcnt, hq, mutex_release_prep_mutexes k t mid htw]

/-- Witness for claim C3 at a concrete state: `K3` is well formed, stays well
formed across a blocking lock by task 3, and on task 0's unlock the most urgent
waiter (task 1, priority 4) receives ownership ahead of task 2 (priority 5). -/
theorem mutex_handoff_priority_order_witness :
    WF (tn_mutex_lock ⟨true, false⟩ K3 3 0 10 7).2 ∧
    ((tn_mutex_unlock K3 0 0).2.mutexes 0).holder = some 1 ∧
    (K3.tasks 1).priority ≤ (K3.tasks 2).priority :=
  ⟨mutex_handoff_priority_order.2.1 ⟨true, false⟩ K3 3 0 10 7 (by decide) (by decide)
      (by decide) (by decide),
   (mutex_handoff_priority_order.2.2.2.2.2.2.2 K3 0 0 1 [2] (by decide) (by decide)
      (by decide) (by decide) (by decide) (by decide) rfl).1,
   (mutex_handoff_priority_order.2.2.2.2.2.2.2 K3 0 0 1 [2] (by decide) (by decide)
      (by decide) (by decide) (by decide) (by decide) rfl).2 2 (by decide)⟩

/-! ## The priority-inheritance invariant -/

/-- The inheritance invariant at one mutex: if it is in bounds, valid and uses
the inheritance protocol, its holder is at least as urgent as every waiter. -/
def mutexInv1At (k : TN_Kernel) (mid : Nat) : Prop :=
  mid < k.nmutexes → (k.mutexes mid).id_mutex = true →
    (k.mutexes mid).protocol = TN_MutexProtocol.TN_MUTEX_PROT_INHERIT →
    ∀ h, (k.mutexes mid).holder = some h →
    ∀ w ∈ (k.mutexes mid).wait_queue, (k.tasks h).priority ≤ (k.tasks w).priority

theorem mutexInv1_iff_at (k : TN_Kernel) : mutexInv1 k ↔ ∀ mid, mutexInv1At k mid := Iff.rfl

theorem propagate_priority_Inv1 (fuel : Nat) :
    ∀ (k : TN_Kernel) (mid p : Nat), WF k → mid < k.nmutexes →
      (k.mutexes mid).id_mutex = true →
      (∀ x, x ≠ mid → mutexInv1At k x) →
      (∀ h, (k.mutexes mid).holder = some h →
        (k.mutexes mid).protocol = TN_MutexProtocol.TN_MUTEX_PROT_INHERIT →
        ∀ w ∈ (k.mutexes mid).wait_queue,
          min p ((k.tasks h).priority) ≤ (k.tasks w).priority) →
      (propagate_priority k mid p fuel).2 = true →
      mutexInv1 (propagate_priority k mid p fuel).1 := by
  induction fuel with
  | zero =>
      intro k mid p _ _ _ _ _ hflag
      cases hflag
  | succ fuel ih =>
      intro k mid p hwf hmid hid hX hweak hflag
      obtain ⟨hTW, hQC, hND, hQS, hHC, hHeC, hHeN, hNHE⟩ := hwf
      rw [propagate_priority_succ] at hflag ⊢
      cases hh : (k.mutexes mid).holder with
      | none =>
          simp only [hh] at hflag ⊢
          intro x hxlt hxv hxp h0 hh0 w hwq
          by_cases hxm : x = mid
          · rw [hxm, hh] at hh0
            cases hh0
          · exact hX x hxm hxlt hxv hxp h0 hh0 w hwq
      | some h =>
          simp only [hh] at hflag ⊢
          by_cases hlt : p < (k.tasks h).priority
          swap
          · rw [if_neg hlt] at hflag ⊢
            intro x hxlt hxv hxp h0 hh0 w hwq
            by_cases hxm : x = mid
            · subst hxm
              rw [hh] at hh0
              obtain rfl := Option.some.inj hh0
              have := hweak h hh hxp w hwq
              rwa [Nat.min_eq_right (Nat.le_of_not_lt hlt)] at this
            · exact hX x hxm hxlt hxv hxp h0 hh0 w hwq
          · rw [if_pos hlt] at hflag ⊢
            have hhlt : h < k.ntasks := (hHC mid hmid hid h hh).1
            have hwf1 : WF (task_set_priority k h p) :=
              task_set_priority_WF k h p ⟨hTW, hQC, hND, hQS, hHC, hHeC, hHeN, hNHE⟩ hhlt
            have hqnh : ∀ x w, x < k.nmutexes → (k.mutexes x).id_mutex = true →
                w ∈ (k.mutexes x).wait_queue → (k.tasks w).task_wait = some x :=
              fun x w ha hb hc => (hQC x ha hb w hc).2
            have hFpr := task_set_priority_priority k h p
            cases hw2 : (k.tasks h).task_wait with
            | none =>
                simp only [hw2] at hflag ⊢
                have hFQ : (task_set_priority k h p).mutexes = k.mutexes :=
                  task_set_priority_mutexes_unblocked k h p hw2
                intro x hxlt hxv hxp h0 hh0 w hwq
                rw [hFQ] at hxv hxp hh0 hwq
                have hxlt2 : x < k.nmutexes := by simpa using hxlt
                have hwnh : w ≠ h := by
                  intro he
                  have := hqnh x w hxlt2 hxv (he ▸ hwq)
                  rw [he, hw2] at this
                  cases this
                rw [hFpr w, if_neg hwnh, hFpr h0]
                by_cases hxm : x = mid
                · subst hxm
                  rw [hh] at hh0
                  obtain rfl := Option.some.inj hh0
                  rw [if_pos rfl]
                  have := hweak h hh hxp w hwq
                  rwa [Nat.min_eq_left (Nat.le_of_lt hlt)] at this
                · by_cases hh0h : h0 = h
                  · rw [if_pos hh0h]
                    subst hh0h
                    exact Nat.le_trans (Nat.le_of_lt hlt)
                      (hX x hxm hxlt2 hxv hxp h0 hh0 w hwq)
                  · rw [if_neg hh0h]
                    exact hX x hxm hxlt2 hxv hxp h0 hh0 w hwq
            | some mid2 =>
                simp only [hw2] at hflag ⊢
                obtain ⟨hm2lt, hm2v, hm2q, hm2h⟩ := hTW h hhlt mid2 hw2
                have hmne : mid ≠ mid2 := by
                  intro he
                  rw [← he, hh] at hm2h
                  exact hm2h rfl
                have hFQne := fun x hx =>
                  task_set_priority_mutexes_blocked_ne k h p mid2 x hw2 hx
                have hFQ2 := task_set_priority_wait_queue_blocked k h p mid2 hw2
                have hfields := fun x => task_set_priority_mutex_fields k h p x
                refine ih (task_set_priority k h p) mid2 p hwf1 (by simpa using hm2lt) ?_ ?_ ?_
                  hflag
                · rw [(hfields mid2).2.2.1]
                  exact hm2v
                · intro x hxm2 hxlt hxv hxp h0 hh0 w hwq
                  rw [hFQne x hxm2] at hxv hxp hh0 hwq
                  have hxlt2 : x < k.nmutexes := by simpa using hxlt
                  have hwnh : w ≠ h := by
                    intro he
                    have := hqnh x w hxlt2 hxv (he ▸ hwq)
                    rw [he, hw2] at this
                    exact hxm2 (Option.some.inj this).symm
                  rw [hFpr w, if_neg hwnh, hFpr h0]
                  by_cases hxm : x = mid
                  · subst hxm
                    rw [hh] at hh0
                    obtain rfl := Option.some.inj hh0
                    rw [if_pos rfl]
                    have := hweak h hh hxp w hwq
                    rwa [Nat.min_eq_left (Nat.le_of_lt hlt)] at this
                  · by_cases hh0h : h0 = h
                    · rw [if_pos hh0h]
                      subst hh0h
                      exact Nat.le_trans (Nat.le_of_lt hlt)
                        (hX x hxm hxlt2 hxv hxp h0 hh0 w hwq)
                    · rw [if_neg hh0h]
                      exact hX x hxm hxlt2 hxv hxp h0 hh0 w hwq
                · intro h2 hh2 hp2 w hwq
                  rw [(hfields mid2).1] at hh2
                  rw [(hfields mid2).2.2.2.1] at hp2
                  rw [hFQ2] at hwq
                  have hh2nh : h2 ≠ h := by
                    intro he
                    rw [he] at hh2
                    exact hm2h hh2
                  rw [hFpr h2, if_neg hh2nh]
                  rcases (mem_wait_queue_insert _ _ _ _).mp hwq with rfl | hw3
                  · rw [hFpr w, if_pos rfl]
                    exact Nat.min_le_left _ _
                  · have hndq := hND mid2 hm2lt hm2v
                    obtain ⟨hwnh, hwmem⟩ := hndq.mem_erase_iff.mp hw3
                    rw [hFpr w, if_neg hwnh]
                    refine Nat.le_trans (Nat.min_le_right _ _) ?_
                    exact hX mid2 (fun he => hmne he.symm) hm2lt hm2v hp2 h2 hh2 w hwmem

theorem mutexInv1_of_eqFields (k k' : TN_Kernel) (hnm : k'.nmutexes = k.nmutexes)
    (hpr : ∀ x, (k'.tasks x).priority = (k.tasks x).priority)
    (hq : ∀ x, (k'.mutexes x).wait_queue = (k.mutexes x).wait_queue)
    (hhold : ∀ x, (k'.mutexes x).holder = (k.mutexes x).holder)
    (hidf : ∀ x, (k'.mutexes x).id_mutex = (k.mutexes x).id_mutex)
    (hprot : ∀ x, (k'.mutexes x).protocol = (k.mutexes x).protocol)
    (hinv : mutexInv1 k) : mutexInv1 k' := by
  intro x hxlt hxv hxp h0 hh0 w hwq
  rw [hnm] at hxlt
  rw [hidf] at hxv
  rw [hprot] at hxp
  rw [hhold] at hh0
  rw [hq] at hwq
  rw [hpr, hpr]
  exact hinv x hxlt hxv hxp h0 hh0 w hwq

theorem lock_enqueue_priority (k : TN_Kernel) (t mid x : Nat) :
    ((lock_enqueue k t mid).tasks x).priority = (k.tasks x).priority := by
  rw [lock_enqueue_tasks]
  by_cases hx : x = t
  · rw [if_pos hx, hx]
  · rw [if_neg hx]

theorem tn_mutex_lock_Inv1 (cfg : TN_Config) (k : TN_Kernel) (t mid timeout fuel : Nat)
    (hwf : WF k) (hinv : mutexInv1 k) (htlt : t < k.ntasks) (hmid : mid < k.nmutexes)
    (htw : (k.tasks t).task_wait = none)
    (hcomp : (k.mutexes mid).protocol = TN_MutexProtocol.TN_MUTEX_PROT_INHERIT →
      (propagate_priority (lock_enqueue k t mid) mid ((k.tasks t).priority) fuel).2 = true) :
    mutexInv1 (tn_mutex_lock cfg k t mid timeout fuel).2 := by
  by_cases hid : (k.mutexes mid).id_mutex = true
  swap
  · simpa [tn_mutex_lock, hid] using hinv
  cases hh : (k.mutexes mid).holder with
  | none =>
      by_cases hc : (k.mutexes mid).protocol = TN_MutexProtocol.TN_MUTEX_PROT_CEILING ∧
          (k.tasks t).priority < (k.mutexes mid).ceil_priority
      · simpa [tn_mutex_lock, hid, hh, hc] using hinv
      · have hqe : (k.mutexes mid).wait_queue = [] := hwf.2.2.2.2.2.2.2 mid hmid hid hh
        have hstate : (tn_mutex_lock cfg k t mid timeout fuel).2 =
            setTask (setMutex k mid { k.mutexes mid with holder := some t, cnt := 1 }) t
              { k.tasks t with mutex_queue := mid :: (k.tasks t).mutex_queue } := by
          simp [tn_mutex_lock, hid, hh, hc]
        rw [hstate]
        intro x hxlt hxv hxp h0 hh0 w hwq
        have hpr : ∀ y, ((setTask (setMutex k mid
              { k.mutexes mid with holder := some t, cnt := 1 }) t
              { k.tasks t with mutex_queue := mid :: (k.tasks t).mutex_queue }).tasks y).priority
            = (k.tasks y).priority := by
          intro y
          rw [setTask_tasks]
          by_cases hy : y = t
          · rw [if_pos hy, hy]
          · rw [if_neg hy, setMutex_tasks]
        rw [hpr, hpr]
        by_cases hxm : x = mid
        · subst hxm
          simp only [setTask_mutexes, setMutex_mutexes_eq] at hwq
          simp [hqe] at hwq
        · simp only [setTask_mutexes] at hxv hxp hh0 hwq
          rw [setMutex_mutexes_ne _ _ _ _ hxm] at hxv hxp hh0 hwq
          exact hinv x (by simpa using hxlt) hxv hxp h0 hh0 w hwq
  | some h =>
      by_cases hht : h = t
      · cases hrec : cfg.mutex_rec
        · simpa [tn_mutex_lock, hid, hh, hht, hrec] using hinv
        · have hstate : (tn_mutex_lock cfg k t mid timeout fuel).2 =
              setMutex k mid { k.mutexes mid with cnt := (k.mutexes mid).cnt + 1 } := by
            simp [tn_mutex_lock, hid, hh, hht, hrec]
          rw [hstate]
          refine mutexInv1_of_eqFields k _ rfl (fun x => rfl) ?_ ?_ ?_ ?_ hinv <;>
            intro x <;> by_cases hx : x = mid
          · rw [hx, setMutex_mutexes_eq]
          · rw [setMutex_mutexes_ne _ _ _ _ hx]
          · rw [hx, setMutex_mutexes_eq]
          · rw [setMutex_mutexes_ne _ _ _ _ hx]
          · rw [hx, setMutex_mutexes_eq]
          · rw [setMutex_mutexes_ne _ _ _ _ hx]
          · rw [hx, setMutex_mutexes_eq]
          · rw [setMutex_mutexes_ne _ _ _ _ hx]
      · by_cases ht0 : timeout = 0
        · simpa [tn_mutex_lock, hid, hh, hht, ht0] using hinv
        · have henv_pr := lock_enqueue_priority k t mid
          have henv_f := lock_enqueue_mutex_fields k t mid
          cases hd : (if cfg.mutex_deadlock_detect then
              find_deadlock_cycle (lock_enqueue k t mid) mid mid [] fuel
              else DeadlockRes.nocycle) with
          | cycle ms =>
              obtain ⟨htasks, hnt, hnm, hfields⟩ := link_deadlock_lists_fields ms k ms
              have hstate : (tn_mutex_lock cfg k t mid timeout fuel).2 =
                  link_deadlock_lists k ms ms := by
                simp [tn_mutex_lock, hid, hh, hht, ht0, hd]
              rw [hstate]
              exact mutexInv1_of_eqFields k _ hnm
                (fun x => by rw [htasks]) (fun x => (hfields x).2.2.2.2.2)
                (fun x => (hfields x).1) (fun x => (hfields x).2.2.1)
                (fun x => (hfields x).2.2.2.1) hinv
          | nocycle =>
              by_cases hp : (k.mutexes mid).protocol = TN_MutexProtocol.TN_MUTEX_PROT_INHERIT
              · have hstate : (tn_mutex_lock cfg k t mid timeout fuel).2 =
                    (propagate_priority (lock_enqueue k t mid) mid
                      ((k.tasks t).priority) fuel).1 := by
                  simp [tn_mutex_lock, hid, hh, hht, ht0, hd, hp]
                rw [hstate]
                refine propagate_priority_Inv1 fuel (lock_enqueue k t mid) mid
                  ((k.tasks t).priority)
                  (lock_enqueue_WF k t mid h hwf htlt hmid hid hh hht htw)
                  (by simpa using hmid) (by rw [(henv_f mid).2.2.1]; exact hid)
                  ?_ ?_ (hcomp hp)
                · intro x hxm hxlt hxv hxp h0 hh0 w hwq
                  rw [(henv_f x).2.2.1] at hxv
                  rw [(henv_f x).2.2.2.1] at hxp
                  rw [(henv_f x).1] at hh0
                  rw [lock_enqueue_mutexes_ne _ _ _ _ hxm] at hwq
                  rw [henv_pr, henv_pr]
                  exact hinv x (by simpa using hxlt) hxv hxp h0 hh0 w hwq
                · intro h0 hh0 hp0 w hwq
                  rw [(henv_f mid).1, hh] at hh0
                  obtain rfl := Option.some.inj hh0
                  rw [lock_enqueue_wait_queue] at hwq
                  rw [henv_pr, henv_pr]
                  rcases (mem_wait_queue_insert _ _ _ _).mp hwq with rfl | hw2
                  · exact Nat.min_le_left _ _
                  · refine Nat.le_trans (Nat.min_le_right _ _) ?_
                    rw [(henv_f mid).2.2.2.1] at hp0
                    exact hinv mid hmid hid hp0 h hh w hw2
              · have hstate : (tn_mutex_lock cfg k t mid timeout fuel).2 =
                    lock_enqueue k t mid := by
                  simp [tn_mutex_lock, hid, hh, hht, ht0, hd, hp]
                rw [hstate]
                intro x hxlt hxv hxp h0 hh0 w hwq
                rw [(henv_f x).2.2.1] at hxv
                rw [(henv_f x).2.2.2.1] at hxp
                rw [(henv_f x).1] at hh0
                rw [henv_pr, henv_pr]
                by_cases hxm : x = mid
                · rw [hxm] at hxp
                  exact absurd hxp hp
                · rw [lock_enqueue_mutexes_ne _ _ _ _ hxm] at hwq
                  exact hinv x (by simpa using hxlt) hxv hxp h0 hh0 w hwq
          | fuelout =>
              by_cases hp : (k.mutexes mid).protocol = TN_MutexProtocol.TN_MUTEX_PROT_INHERIT
              · have hstate : (tn_mutex_lock cfg k t mid timeout fuel).2 =
                    (propagate_priority (lock_enqueue k t mid) mid
                      ((k.tasks t).priority) fuel).1 := by
                  simp [tn_mutex_lock, hid, hh, hht, ht0, hd, hp]
                rw [hstate]
                refine propagate_priority_Inv1 fuel (lock_enqueue k t mid) mid
                  ((k.tasks t).priority)
                  (lock_enqueue_WF k t mid h hwf htlt hmid hid hh hht htw)
                  (by simpa using hmid) (by rw [(henv_f mid).2.2.1]; exact hid)
                  ?_ ?_ (hcomp hp)
                · intro x hxm hxlt hxv hxp h0 hh0 w hwq
                  rw [(henv_f x).2.2.1] at hxv
                  rw [(henv_f x).2.2.2.1] at hxp
                  rw [(henv_f x).1] at hh0
                  rw [lock_enqueue_mutexes_ne _ _ _ _ hxm] at hwq
                  rw [henv_pr, henv_pr]
                  exact hinv x (by simpa using hxlt) hxv hxp h0 hh0 w hwq
                · intro h0 hh0 hp0 w hwq
                  rw [(henv_f mid).1, hh] at hh0
                  obtain rfl := Option.some.inj hh0
                  rw [lock_enqueue_wait_queue] at hwq
                  rw [henv_pr, henv_pr]
                  rcases (mem_wait_queue_insert _ _ _ _).mp hwq with rfl | hw2
                  · exact Nat.min_le_left _ _
                  · refine Nat.le_trans (Nat.min_le_right _ _) ?_
                    rw [(henv_f mid).2.2.2.1] at hp0
                    exact hinv mid hmid hid hp0 h hh w hw2
              · have hstate : (tn_mutex_lock cfg k t mid timeout fuel).2 =
                    lock_enqueue k t mid := by
                  simp [tn_mutex_lock, hid, hh, hht, ht0, hd, hp]
                rw [hstate]
                intro x hxlt hxv hxp h0 hh0 w hwq
                rw [(henv_f x).2.2.1] at hxv
                rw [(henv_f x).2.2.2.1] at hxp
                rw [(henv_f x).1] at hh0
                rw [henv_pr, henv_pr]
                by_cases hxm : x = mid
                · rw [hxm] at hxp
                  exact absurd hxp hp
                · rw [lock_enqueue_mutexes_ne _ _ _ _ hxm] at hwq
                  exact hinv x (by simpa using hxlt) hxv hxp h0 hh0 w hwq

/-! ## Unlock-driven priority recomputation -/

theorem foldr_min_congr (f g : Nat → Nat) (b : Nat) (l : List Nat)
    (h : ∀ x, f x = g x) :
    l.foldr (fun w acc => min (f w) acc) b = l.foldr (fun w acc => min (g w) acc) b := by
  induction l with
  | nil => rfl
  | cons a l ih => simp only [List.foldr_cons, h a, ih]

theorem mutex_release_prep_priority_self_inherit (k : TN_Kernel) (t mid : Nat)
    (hp : (k.mutexes mid).protocol = TN_MutexProtocol.TN_MUTEX_PROT_INHERIT) :
    ((mutex_release_prep k t mid).tasks t).priority =
      mutex_calc_max_priority
        (setTask k t { k.tasks t with mutex_queue := ((k.tasks t).mutex_queue).erase mid })
        t := by
  unfold mutex_release_prep
  simp only [hp, if_true]
  rw [task_set_priority_tasks_self]

theorem mutex_release_prep_priority_self_ceiling (k : TN_Kernel) (t mid : Nat)
    (hp : ¬ (k.mutexes mid).protocol = TN_MutexProtocol.TN_MUTEX_PROT_INHERIT) :
    ((mutex_release_prep k t mid).tasks t).priority = (k.tasks t).priority := by
  unfold mutex_release_prep
  simp only [hp, if_false]
  rw [setTask_tasks_eq]

theorem mutex_calc_max_priority_setTask_erase (k : TN_Kernel) (t mid : Nat) :
    mutex_calc_max_priority
      (setTask k t { k.tasks t with mutex_queue := ((k.tasks t).mutex_queue).erase mid }) t =
    ((((k.tasks t).mutex_queue).erase mid).flatMap
        fun m => (k.mutexes m).wait_queue).foldr
      (fun w acc => min ((k.tasks w).priority) acc) ((k.tasks t).base_priority) := by
  unfold mutex_calc_max_priority
  rw [setTask_tasks_eq]
  simp only [setTask_mutexes]
  exact foldr_min_congr _ (fun w => (k.tasks w).priority) _ _ (by
    intro x
    rw [setTask_tasks]
    by_cases hx : x = t
    · rw [if_pos hx, hx]
    · rw [if_neg hx])

theorem tn_mutex_unlock_priority_self (k : TN_Kernel) (t mid : Nat) (hwf : WF k)
    (hmid : mid < k.nmutexes) (hid : (k.mutexes mid).id_mutex = true)
    (hold : (k.mutexes mid).holder = some t) (hcnt : ¬ 1 < (k.mutexes mid).cnt)
    (htw : (k.tasks t).task_wait = none) :
    ((tn_mutex_unlock k t mid).2.tasks t).priority =
      ((mutex_release_prep k t mid).tasks t).priority := by
  cases hq : (k.mutexes mid).wait_queue with
  | nil =>
      simp only [tn_mutex_unlock, hid, if_true, hold, hcnt, if_false, hq]
      rw [setMutex_tasks]
  | cons w rest =>
      have hwq2 : w ∈ (k.mutexes mid).wait_queue := by
        rw [hq]
        exact List.mem_cons_self _ _
      have hww := (hwf.2.1 mid hmid hid w hwq2).2
      have htnw : t ≠ w := by
        intro he
        rw [← he, htw] at hww
        cases hww
      simp only [tn_mutex_unlock, hid, if_true, hold, hcnt, if_false, hq]
      rw [setTask_tasks_ne _ _ _ _ htnw, setMutex_tasks]

/-! ## Inheritance-invariant preservation by the remaining operations -/

theorem tn_mutex_unlock_Inv1 (k : TN_Kernel) (t mid : Nat) (hwf : WF k)
    (hinv : mutexInv1 k) (htlt : t < k.ntasks) (hmid : mid < k.nmutexes)
    (htw : (k.tasks t).task_wait = none) :
    mutexInv1 (tn_mutex_unlock k t mid).2 := by
  obtain ⟨hTW, hQC, hND, hQS, hHC, hHeC, hHeN, hNHE⟩ := hwf
  by_cases hid : (k.mutexes mid).id_mutex = true
  swap
  · simpa [tn_mutex_unlock, hid] using hinv
  by_cases hold : (k.mutexes mid).holder = some t
  swap
  · simpa [tn_mutex_unlock, hid, hold] using hinv
  by_cases hcnt : 1 < (k.mutexes mid).cnt
  · simp only [tn_mutex_unlock, hid, if_true, hold, hcnt]
    refine mutexInv1_of_eqFields k _ rfl (fun x => rfl) ?_ ?_ ?_ ?_ hinv
    · intro x
      by_cases hx : x = mid
      · rw [hx, setMutex_mutexes_eq]
      · rw [setMutex_mutexes_ne _ _ _ _ hx]
    · intro x
      by_cases hx : x = mid
      · rw [hx, setMutex_mutexes_eq]
        exact hold.symm
      · rw [setMutex_mutexes_ne _ _ _ _ hx]
    · intro x
      by_cases hx : x = mid
      · rw [hx, setMutex_mutexes_eq]
        exact hid.symm
      · rw [setMutex_mutexes_ne _ _ _ _ hx]
    · intro x
      by_cases hx : x = mid
      · rw [hx, setMutex_mutexes_eq]
      · rw [setMutex_mutexes_ne _ _ _ _ hx]
  · have Rmut : (mutex_release_prep k t mid).mutexes = k.mutexes :=
      mutex_release_prep_mutexes k t mid htw
    have Rtnq : ∀ x, x ≠ t → (mutex_release_prep k t mid).tasks x = k.tasks x :=
      fun x hx => mutex_release_prep_tasks_ne k t mid x hx
    have hPle : ∀ x, x ≠ mid → x < k.nmutexes → (k.mutexes x).id_mutex = true →
        (k.mutexes x).protocol = TN_MutexProtocol.TN_MUTEX_PROT_INHERIT →
        (k.mutexes x).holder = some t →
        ∀ y ∈ (k.mutexes x).wait_queue,
          ((mutex_release_prep k t mid).tasks t).priority ≤ (k.tasks y).priority := by
      intro x hxm hxlt hxv hxp hxh y hyq
      by_cases hp : (k.mutexes mid).protocol = TN_MutexProtocol.TN_MUTEX_PROT_INHERIT
      · rw [mutex_release_prep_priority_self_inherit k t mid hp,
          mutex_calc_max_priority_setTask_erase]
        refine foldr_min_le_mem (fun z => (k.tasks z).priority) _ _ y ?_
        refine List.mem_flatMap.mpr ⟨x, ?_, hyq⟩
        exact (List.mem_erase_of_ne hxm).mpr (hHC x hxlt hxv t hxh).2
      · rw [mutex_release_prep_priority_self_ceiling k t mid hp]
        exact hinv x hxlt hxv hxp t hxh y hyq
    cases hq : (k.mutexes mid).wait_queue with
    | nil =>
        simp only [tn_mutex_unlock, hid, if_true, hold, hcnt, if_false, hq]
        intro x hxlt hxv hxp h0 hh0 y hyq
        by_cases hxm : x = mid
        · rw [hxm, setMutex_mutexes_eq] at hh0
          cases hh0
        · rw [setMutex_mutexes_ne _ _ _ _ hxm, Rmut] at hxv hxp hh0 hyq
          have hxnm : x < k.nmutexes := by simpa using hxlt
          obtain ⟨hylt, hytw⟩ := hQC x hxnm hxv y hyq
          have hyt : y ≠ t := by
            intro he
            rw [he, htw] at hytw
            cases hytw
          simp only [setMutex_tasks]
          rw [Rtnq y hyt]
          by_cases hh0t : h0 = t
          · rw [hh0t] at hh0 ⊢
            exact hPle x hxm hxnm hxv hxp hh0 y hyq
          · rw [Rtnq h0 hh0t]
            exact hinv x hxnm hxv hxp h0 hh0 y hyq
    | cons w rest =>
        have hwq2 : w ∈ (k.mutexes mid).wait_queue := by
          rw [hq]
          exact List.mem_cons_self _ _
        obtain ⟨hwlt, hww⟩ := hQC mid hmid hid w hwq2
        have hwt : w ≠ t := by
          intro he
          rw [he, htw] at hww
          cases hww
        have hndq := hND mid hmid hid
        rw [hq] at hndq
        obtain ⟨hwnr, hndr⟩ := List.nodup_cons.mp hndq
        have hsorted := hQS mid hmid hid
        rw [hq] at hsorted
        obtain ⟨hhead, hsrest⟩ := List.pairwise_cons.mp hsorted
        simp only [tn_mutex_unlock, hid, if_true, hold, hcnt, if_false, hq]
        set km := setMutex (mutex_release_prep k t mid) mid
          { (mutex_release_prep k t mid).mutexes mid with
            holder := some w, cnt := 1, wait_queue := rest } with hkm
        have hkm_mut_ne : ∀ x, x ≠ mid → km.mutexes x = k.mutexes x := by
          intro x hx
          rw [hkm, setMutex_mutexes_ne _ _ _ _ hx, Rmut]
        have hkm_holder : (km.mutexes mid).holder = some w := by
          rw [hkm, setMutex_mutexes_eq]
        have hkm_queue : (km.mutexes mid).wait_queue = rest := by
          rw [hkm, setMutex_mutexes_eq]
        have hkm_nm : km.nmutexes = k.nmutexes := by
          rw [hkm]
          simp
        have hprF : ∀ z, z ≠ w →
            ((setTask km w
              { km.tasks w with
                task_wait := none, wait_rc := some TN_RCode.TN_RC_OK,
                mutex_queue := mid :: (km.tasks w).mutex_queue }).tasks z) =
              (mutex_release_prep k t mid).tasks z := by
          intro z hz
          rw [setTask_tasks_ne _ _ _ _ hz, hkm]
          rfl
        have hprFw : ((setTask km w
            { km.tasks w with
              task_wait := none, wait_rc := some TN_RCode.TN_RC_OK,
              mutex_queue := mid :: (km.tasks w).mutex_queue }).tasks w).priority =
            (k.tasks w).priority := by
          rw [setTask_tasks_eq]
          simp only [hkm, setMutex_tasks]
          rw [Rtnq w hwt]
        intro x hxlt hxv hxp h0 hh0 y hyq
        simp only [setTask_mutexes] at hxv hxp hh0 hyq
        have hxnm : x < k.nmutexes := by simpa [hkm_nm] using hxlt
        by_cases hxm : x = mid
        · rw [hxm] at hh0 hyq
          rw [hkm_holder] at hh0
          obtain rfl := Option.some.inj hh0
          rw [hkm_queue] at hyq
          have hynw : y ≠ w := by
            intro he
            rw [he] at hyq
            exact hwnr hyq
          have hyq2 : y ∈ (k.mutexes mid).wait_queue := by
            rw [hq]
            exact List.mem_cons_of_mem _ hyq
          obtain ⟨hylt, hytw⟩ := hQC mid hmid hid y hyq2
          have hyt : y ≠ t := by
            intro he
            rw [he, htw] at hytw
            cases hytw
          rw [hprFw, hprF y hynw, Rtnq y hyt]
          exact hhead y hyq
        · rw [hkm_mut_ne x hxm] at hxv hxp hh0 hyq
          obtain ⟨hylt, hytw⟩ := hQC x hxnm hxv y hyq
          have hyt : y ≠ t := by
            intro he
            rw [he, htw] at hytw
            cases hytw
          have hynw : y ≠ w := by
            intro he
            rw [he, hww] at hytw
            exact hxm (Option.some.inj hytw).symm
          rw [hprF y hynw, Rtnq y hyt]
          by_cases hh0w : h0 = w
          · rw [hh0w] at hh0 ⊢
            rw [hprFw]
            exact hinv x hxnm hxv hxp w hh0 y hyq
          · by_cases hh0t : h0 = t
            · have htnw : t ≠ w := fun he => hwt he.symm
              rw [hh0t] at hh0 ⊢
              rw [hprF t htnw]
              exact hPle x hxm hxnm hxv hxp hh0 y hyq
            · rw [hprF h0 hh0w, Rtnq h0 hh0t]
              exact hinv x hxnm hxv hxp h0 hh0 y hyq

theorem tn_task_wait_timeout_Inv1 (k : TN_Kernel) (w : Nat) (hinv : mutexInv1 k) :
    mutexInv1 (tn_task_wait_timeout k w) := by
  cases htw : (k.tasks w).task_wait with
  | none =>
      have hstate : tn_task_wait_timeout k w = k := by
        unfold tn_task_wait_timeout
        rw [htw]
      rw [hstate]
      exact hinv
  | some mid =>
      have hstate : tn_task_wait_timeout k w =
          setTask
            (setMutex k mid
              { k.mutexes mid with wait_queue := ((k.mutexes mid).wait_queue).erase w }) w
            { k.tasks w with task_wait := none, wait_rc := some TN_RCode.TN_RC_TIMEOUT } := by
        unfold tn_task_wait_timeout
        rw [htw]
      rw [hstate]
      intro x hxlt hxv hxp h0 hh0 y hyq
      have hxnm : x < k.nmutexes := by simpa using hxlt
      have hpr : ∀ z, ((setTask
          (setMutex k mid
            { k.mutexes mid with wait_queue := ((k.mutexes mid).wait_queue).erase w }) w
          { k.tasks w with
            task_wait := none
            wait_rc := some TN_RCode.TN_RC_TIMEOUT }).tasks z).priority =
          (k.tasks z).priority := by
        intro z
        rw [setTask_tasks]
        by_cases hz : z = w
        · rw [if_pos hz, hz]
        · rw [if_neg hz, setMutex_tasks]
      rw [hpr, hpr]
      simp only [setTask_mutexes] at hxv hxp hh0 hyq
      by_cases hxm : x = mid
      · rw [hxm, setMutex_mutexes_eq] at hxv hxp hh0 hyq
        exact hinv mid (hxm ▸ hxnm) hxv hxp h0 hh0 y (List.mem_of_mem_erase hyq)
      · rw [setMutex_mutexes_ne _ _ _ _ hxm] at hxv hxp hh0 hyq
        exact hinv x hxnm hxv hxp h0 hh0 y hyq

theorem tn_mutex_delete_Inv1 (k : TN_Kernel) (mid : Nat) (hinv : mutexInv1 k) :
    mutexInv1 (tn_mutex_delete k mid).2 := by
  by_cases hid : (k.mutexes mid).id_mutex = true
  swap
  · simpa [tn_mutex_delete, hid] using hinv
  have hfacts : (tn_mutex_delete k mid).2.nmutexes = k.nmutexes ∧
      ((tn_mutex_delete k mid).2.mutexes mid).id_mutex = false ∧
      (∀ x, x ≠ mid → (tn_mutex_delete k mid).2.mutexes x = k.mutexes x) ∧
      (∀ z, ((tn_mutex_delete k mid).2.tasks z).priority = (k.tasks z).priority) := by
    cases hh : (k.mutexes mid).holder with
    | none =>
        have hstate : (tn_mutex_delete k mid).2 =
            setMutex (wake_all k (k.mutexes mid).wait_queue TN_RCode.TN_RC_DELETED) mid
              ⟨[], [], (k.mutexes mid).protocol, none, (k.mutexes mid).ceil_priority, 0,
                false⟩ := by
          simp [tn_mutex_delete, hid, hh]
        refine ⟨?_, ?_, ?_, ?_⟩
        · rw [hstate]
          simp
        · rw [hstate, setMutex_mutexes_eq]
        · intro x hx
          rw [hstate, setMutex_mutexes_ne _ _ _ _ hx, wake_all_mutexes]
        · intro z
          rw [hstate, setMutex_tasks]
          exact (wake_all_tasks_fields k _ _ z).1
    | some h =>
        have hstate : (tn_mutex_delete k mid).2 =
            setMutex
              (setTask (wake_all k (k.mutexes mid).wait_queue TN_RCode.TN_RC_DELETED) h
                { (wake_all k (k.mutexes mid).wait_queue TN_RCode.TN_RC_DELETED).tasks h with
                  mutex_queue :=
                    (((wake_all k (k.mutexes mid).wait_queue TN_RCode.TN_RC_DELETED).tasks
                        h).mutex_queue).erase mid }) mid
              ⟨[], [], (k.mutexes mid).protocol, none, (k.mutexes mid).ceil_priority, 0,
                false⟩ := by
          simp [tn_mutex_delete, hid, hh]
        refine ⟨?_, ?_, ?_, ?_⟩
        · rw [hstate]
          simp
        · rw [hstate, setMutex_mutexes_eq]
        · intro x hx
          rw [hstate, setMutex_mutexes_ne _ _ _ _ hx]
          simp
        · intro z
          rw [hstate, setMutex_tasks, setTask_tasks]
          by_cases hz : z = h
          · rw [if_pos hz, hz]
            exact (wake_all_tasks_fields k _ _ h).1
          · rw [if_neg hz]
            exact (wake_all_tasks_fields k _ _ z).1
  obtain ⟨hnm, hmid_id, hmut_ne, hpr⟩ := hfacts
  intro x hxlt hxv hxp h0 hh0 y hyq
  by_cases hxm : x = mid
  · rw [hxm, hmid_id] at hxv
    cases hxv
  · rw [hmut_ne x hxm] at hxv hxp hh0 hyq
    rw [hpr, hpr]
    have hxnm : x < k.nmutexes := by
      rw [hnm] at hxlt
      exact hxlt
    exact hinv x hxnm hxv hxp h0 hh0 y hyq

theorem tn_mutex_create_Inv1 (k : TN_Kernel) (mid : Nat) (prot : TN_MutexProtocol)
    (cp : Nat) (hinv : mutexInv1 k) : mutexInv1 (tn_mutex_create k mid prot cp).2 := by
  by_cases hid : (k.mutexes mid).id_mutex = true
  · simpa [tn_mutex_create, hid] using hinv
  · simp only [tn_mutex_create, hid, Bool.false_eq_true, if_false]
    intro x hxlt hxv hxp h0 hh0 y hyq
    by_cases hxm : x = mid
    · rw [hxm, setMutex_mutexes_eq] at hh0
      cases hh0
    · rw [setMutex_mutexes_ne _ _ _ _ hxm] at hxv hxp hh0 hyq
      simp only [setMutex_tasks]
      exact hinv x (by simpa using hxlt) hxv hxp h0 hh0 y hyq

/-- Modelled from the spec: task `w` waits on holder `h` directly (it sits in the
wait queue of a valid inheritance mutex held by `h`) or transitively through a
chain of blocked holders. -/
inductive TransWaits (k : TN_Kernel) : Nat → Nat → Prop where
  | direct (mid h w : Nat) (hlt : mid < k.nmutexes)
      (hv : (k.mutexes mid).id_mutex = true)
      (hp : (k.mutexes mid).protocol = TN_MutexProtocol.TN_MUTEX_PROT_INHERIT)
      (hh : (k.mutexes mid).holder = some h) (hw : w ∈ (k.mutexes mid).wait_queue) :
      TransWaits k h w
  | step (mid h h2 w : Nat) (hlt : mid < k.nmutexes)
      (hv : (k.mutexes mid).id_mutex = true)
      (hp : (k.mutexes mid).protocol = TN_MutexProtocol.TN_MUTEX_PROT_INHERIT)
      (hh : (k.mutexes mid).holder = some h) (hw : h2 ∈ (k.mutexes mid).wait_queue)
      (hrest : TransWaits k h2 w) : TransWaits k h w

theorem transWaits_priority_le (k : TN_Kernel) (hinv : mutexInv1 k) :
    ∀ h w, TransWaits k h w → (k.tasks h).priority ≤ (k.tasks w).priority := by
  intro h w htw
  induction htw with
  | direct mid a b hlt hv hp hh hw => exact hinv mid hlt hv hp a hh b hw
  | step mid a a2 b hlt hv hp hh hw hrest ih =>
      exact Nat.le_trans (hinv mid hlt hv hp a hh a2 hw) ih

/-- Claim C2: under the inheritance protocol, the holder-urgency invariant — the
holder of every valid inheritance-protocol mutex is at least as urgent as each of
its waiters — is preserved by every modelled operation (lock with a completed
inheritance walk, unlock, timeout expiry of a waiter, delete, create); by
chaining it, a holder is at least as urgent as every task waiting on it
transitively through chains of blocked holders; and on an unlock-driven full
release the holder's effective priority is recomputed exactly as the most urgent
requirement among the waiters of all mutexes it still holds, falling back to its
base priority — so it is never left at a stale boosted value. -/
theorem mutex_inherit_invariant :
    (∀ cfg (k : TN_Kernel) t mid timeout fuel, WF k → mutexInv1 k →
        t < k.ntasks → mid < k.nmutexes → (k.tasks t).task_wait = none →
        ((k.mutexes mid).protocol = TN_MutexProtocol.TN_MUTEX_PROT_INHERIT →
          (propagate_priority (lock_enqueue k t mid) mid ((k.tasks t).priority) fuel).2 =
            true) →
        mutexInv1 (tn_mutex_lock cfg k t mid timeout fuel).2) ∧
    (∀ (k : TN_Kernel) t mid, WF k → mutexInv1 k → t < k.ntasks → mid < k.nmutexes →
        (k.tasks t).task_wait = none → mutexInv1 (tn_mutex_unlock k t mid).2) ∧
    (∀ (k : TN_Kernel) w, mutexInv1 k → mutexInv1 (tn_task_wait_timeout k w)) ∧
    (∀ (k : TN_Kernel) mid, mutexInv1 k → mutexInv1 (tn_mutex_delete k mid).2) ∧
    (∀ (k : TN_Kernel) mid prot cp, mutexInv1 k →
        mutexInv1 (tn_mutex_create k mid prot cp).2) ∧
    (∀ (k : TN_Kernel), mutexInv1 k → ∀ h w, TransWaits k h w →
        (k.tasks h).priority ≤ (k.tasks w).priority) ∧
    (∀ (k : TN_Kernel) t mid, WF k → t < k.ntasks → mid < k.nmutexes →
        (k.mutexes mid).id_mutex = true → (k.mutexes mid).holder = some t →
        ¬ 1 < (k.mutexes mid).cnt → (k.tasks t).task_wait = none →
        (k.mutexes mid).protocol = TN_MutexProtocol.TN_MUTEX_PROT_INHERIT →
        ((tn_mutex_unlock k t mid).2.tasks t).priority =
          ((((k.tasks t).mutex_queue).erase mid).flatMap
              fun m => (k.mutexes m).wait_queue).foldr
            (fun w acc => min ((k.tasks w).priority) acc) ((k.tasks t).base_priority) ∧
        ((tn_mutex_unlock k t mid).2.tasks t).priority ≤ (k.tasks t).base_priority ∧
        (∀ m ∈ ((k.tasks t).mutex_queue).erase mid, ∀ w ∈ (k.mutexes m).wait_queue,
          ((tn_mutex_unlock k t mid).2.tasks t).priority ≤ (k.tasks w).priority) ∧
        (((tn_mutex_unlock k t mid).2.tasks t).priority = (k.tasks t).base_priority ∨
          ∃ m ∈ ((k.tasks t).mutex_queue).erase mid, ∃ w ∈ (k.mutexes m).wait_queue,
            ((tn_mutex_unlock k t mid).2.tasks t).priority = (k.tasks w).priority)) := by
  refine ⟨tn_mutex_lock_Inv1, tn_mutex_unlock_Inv1, tn_task_wait_timeout_Inv1,
    tn_mutex_delete_Inv1, tn_mutex_create_Inv1, transWaits_priority_le, ?_⟩
  intro k t mid hwf htlt hmid hid hold hcnt htw hp
  have hps : ((tn_mutex_unlock k t mid).2.tasks t).priority =
      ((mutex_release_prep k t mid).tasks t).priority :=
    tn_mutex_unlock_priority_self k t mid hwf hmid hid hold hcnt htw
  have hcalc : ((mutex_release_prep k t mid).tasks t).priority =
      ((((k.tasks t).mutex_queue).erase mid).flatMap
          fun m => (k.mutexes m).wait_queue).foldr
        (fun w acc => min ((k.tasks w).priority) acc) ((k.tasks t).base_priority) := by
    rw [mutex_release_prep_priority_self_inherit k t mid hp,
      mutex_calc_max_priority_setTask_erase]
  rw [hps, hcalc]
  refine ⟨rfl, foldr_min_le_base _ _ _, ?_, ?_⟩
  · intro m hm w hw
    exact foldr_min_le_mem (fun z => (k.tasks z).priority) _ _ w
      (List.mem_flatMap.mpr ⟨m, hm, hw⟩)
  · rcases foldr_min_eq_base_or_mem (fun z => (k.tasks z).priority)
        ((k.tasks t).base_priority)
        ((((k.tasks t).mutex_queue).erase mid).flatMap fun m => (k.mutexes m).wait_queue)
      with h | ⟨z, hz, hez⟩
    · exact Or.inl h
    · obtain ⟨m, hm, hzm⟩ := List.mem_flatMap.mp hz
      exact Or.inr ⟨m, hm, z, hzm, hez⟩

/-- Witness for claim C2 at a concrete state: `K3` keeps the inheritance
invariant across a blocking lock by task 3 and across task 0's releasing
unlock; task 0 (priority 3) is at least as urgent as its transitive waiter
task 2 (priority 5); and after the release task 0 drops back exactly to its
base priority, holding nothing else. -/
theorem mutex_inherit_invariant_witness :
    mutexInv1 (tn_mutex_lock ⟨true, false⟩ K3 3 0 10 7).2 ∧
    mutexInv1 (tn_mutex_unlock K3 0 0).2 ∧
    (K3.tasks 0).priority ≤ (K3.tasks 2).priority ∧
    ((tn_mutex_unlock K3 0 0).2.tasks 0).priority = (K3.tasks 0).base_priority :=
  ⟨mutex_inherit_invariant.1 ⟨true, false⟩ K3 3 0 10 7 (by decide) (by decide) (by decide)
      (by decide) (by decide) (by decide),
   mutex_inherit_invariant.2.1 K3 0 0 (by decide) (by decide) (by decide) (by decide)
      (by decide),
   mutex_inherit_invariant.2.2.2.2.2.1 K3 (by decide) 0 2
      (TransWaits.direct 0 0 2 (by decide) (by decide) (by decide) (by decide) (by decide)),
   ((mutex_inherit_invariant.2.2.2.2.2.2 K3 0 0 (by decide) (by decide) (by decide)
      (by decide) (by decide) (by decide) (by decide) (by decide)).1).trans (by decide)⟩
